import Mathlib

/-!
# neutdens.c : table store, nearest-row lookup and model selection

A shallow embedding of `src/neutdens.c`.

Numbers.  The values of the table, the scores of the lookup and the outputs of
the models are exact rationals, within the range of their C types where a
theorem says so.  The flux integral of line 359 is computed in the arithmetic
of the type `double` (IEEE 754 binary64: round to nearest, ties to even,
gradual underflow, infinities and NaN), the type `Dbl` with `round64`.  The
narrowing conversion `(real) x` of the source is kept as the function `toReal`
of the host interface, because the type `real` is declared in `f2c.h`; the
host `host_float` takes it to be single precision.  The widening `(double)` is
the identity.

Memory.  `nrl_table` is the list of the rows held by the allocated block, the
empty list standing for the `NULL` pointer.  A read `nrl_table[i]` beyond the
block is a fault: functions that read the table return an `Option`, and `none`
is the fault.

Library and collaborator calls (`fopen`/`fgets`, `sscanf`, `strptime`,
`timegm`, `realloc`, `gts5_`, `gts6_`, `GMT_Secs`) are fields of the
interfaces `Libc` and `Host`; their results are inputs of the model.
Debug output (`printf`, `fprintf`) is not modelled.
-/

namespace Neutdens

/-! ## Data model -/

/-- One row of the in-memory store, `nrl_row_t` (lines 66-73). -/
structure nrl_row_t where
  epoch : ℚ
  lat : ℚ
  lon : ℚ
  alt : ℚ
  dens : List ℚ
  temps : List ℚ

/-- The three file-level statics `nrl_table`, `nrl_table_len`,
`nrl_table_loaded` (lines 75-77). -/
structure NrlStore where
  nrl_table : List nrl_row_t
  nrl_table_len : Nat
  nrl_table_loaded : Int

/-- The static initialisers of lines 75-77: `NULL`, `0`, `0`. -/
def nrl_init : NrlStore :=
  { nrl_table := [], nrl_table_len := 0, nrl_table_loaded := 0 }

/-- The broken-down time `struct tm` of the C library. -/
structure tm where
  tm_sec : Int
  tm_min : Int
  tm_hour : Int
  tm_mday : Int
  tm_mon : Int
  tm_year : Int
  tm_wday : Int
  tm_yday : Int
  tm_isdst : Int

/-- What the `sscanf` call of lines 101-103 leaves behind: its return value
`got` and the fourteen variables it assigns. -/
structure Scanned where
  got : Int
  time_iso : List Char
  t_lat : ℚ
  t_lon : ℚ
  t_alt : ℚ
  he : ℚ
  o : ℚ
  n2 : ℚ
  o2 : ℚ
  ar : ℚ
  h : ℚ
  n : ℚ
  mass : ℚ
  texo : ℚ
  talt : ℚ

/-- The C library as `load_nrl_csv` uses it.  `fopen path` is `none` when the
file cannot be opened and otherwise the sequence of buffers that the `fgets`
loop of line 90 yields; `sscanf` is the call with the format of line 101;
`strptime` is the call with the format of line 109; `realloc k` tells whether
the request for a block of `k` rows succeeds. -/
structure Libc where
  fopen : List Char → Option (List (List Char))
  sscanf : List Char → Scanned
  strptime : List Char → Option tm
  timegm : tm → Int
  realloc : Nat → Bool

/-! ## Table ingest: `load_nrl_csv` -/

/-- The blank ' '. -/
def CH_SPACE : Char := Char.ofNat 32

/-- The tabulator. -/
def CH_TAB : Char := Char.ofNat 9

/-- The line feed. -/
def CH_NEWLINE : Char := Char.ofNat 10

/-- The comment marker '#'. -/
def CH_HASH : Char := Char.ofNat 35

/-- Line 94: `while (*s == ' ' || *s == '\t') s++;`. -/
def skip_blanks : List Char → List Char
  | [] => []
  | c :: cs => if c = CH_SPACE ∨ c = CH_TAB then skip_blanks cs else c :: cs

/-- Line 95: the test `*s == '#' || *s == '\0' || *s == '\n'`; the end of the
list is the terminating NUL. -/
def is_skipped (line : List Char) : Bool :=
  match skip_blanks line with
  | [] => true
  | c :: _ => decide (c = CH_HASH ∨ c = CH_NEWLINE)

/-- Lines 107-111: the epoch of a row, `0.0` when `strptime` fails. -/
def row_epoch (libc : Libc) (time_iso : List Char) : ℚ :=
  match libc.strptime time_iso with
  | some tmv => ((libc.timegm tmv : Int) : ℚ)
  | none => 0

/-- Lines 113-128: the row built from the scanned fields. -/
def make_row (libc : Libc) (sc : Scanned) : nrl_row_t :=
  { epoch := row_epoch libc sc.time_iso
    lat := sc.t_lat
    lon := sc.t_lon
    alt := sc.t_alt
    dens := [sc.he, sc.o, sc.n2, sc.o2, sc.ar, 0, sc.mass, sc.h]
    temps := [sc.texo, sc.talt] }

/-- The `while (fgets ...)` loop of lines 90-134 over the remaining buffers,
with the current block `tbl` and the counter `cap`.  The result `none` is the
early return of line 131 (allocation failure). -/
def load_rows (libc : Libc) :
    List (List Char) → List nrl_row_t → Nat → Option (List nrl_row_t × Nat)
  | [], tbl, cap => some (tbl, cap)
  | line :: rest, tbl, cap =>
    if is_skipped line then load_rows libc rest tbl cap
    else
      let sc := libc.sscanf line
      if sc.got < 14 then load_rows libc rest tbl cap
      else
        let r := make_row libc sc
        if libc.realloc (cap + 1) then
          -- nrl_table[cap] = r in the block of cap + 1 rows
          load_rows libc rest (tbl.take cap ++ [r]) (cap + 1)
        else none

/-- The function `load_nrl_csv` (lines 80-139): the return value and the
statics after the call. -/
def load_nrl_csv (libc : Libc) (path : List Char) (st : NrlStore) : Int × NrlStore :=
  match libc.fopen path with
  | none => (0, st)
  | some lines =>
    -- line 88: free the previous table
    let st1 : NrlStore :=
      if st.nrl_table.isEmpty = false then { st with nrl_table := [], nrl_table_len := 0 }
      else st
    match load_rows libc lines st1.nrl_table 0 with
    | none => (0, { st1 with nrl_table := [] })
    | some (tbl, cap) =>
      let loaded : Int := if cap > 0 then 1 else 0
      (loaded, { nrl_table := tbl, nrl_table_len := cap, nrl_table_loaded := loaded })

/-! ## Table query: `lookup_nrl_values` -/

/-- The function `fabs` of the C library. -/
def fabs (x : ℚ) : ℚ := if x < 0 then -x else x

/-- Lines 150-153: the score of one row for a query. -/
def row_score (r : nrl_row_t) (epoch alt_m : ℚ) : ℚ :=
  let dt : ℚ := if r.epoch = 0 then 0 else r.epoch - epoch
  let da : ℚ := r.alt - alt_m
  fabs dt + fabs da / 1000

/-- The `for` loop of lines 148-155 from index `i` with `fuel` iterations
left, carrying `best` and `best_score`. -/
def scan_rows (tbl : List nrl_row_t) (epoch alt_m : ℚ) :
    Nat → Nat → Nat → ℚ → Option (Nat × ℚ)
  | 0, _, best, best_score => some (best, best_score)
  | fuel + 1, i, best, best_score =>
    match tbl[i]? with
    | none => none
    | some r =>
      let score := row_score r epoch alt_m
      if score < best_score then scan_rows tbl epoch alt_m fuel (i + 1) i score
      else scan_rows tbl epoch alt_m fuel (i + 1) best best_score

/-- The value of `best` after the loop of lines 146-155. -/
def best_row (st : NrlStore) (epoch alt_m : ℚ) : Option Nat :=
  (scan_rows st.nrl_table epoch alt_m st.nrl_table_len 0 0 1e308).map Prod.fst

/-- Result of `lookup_nrl_values`: the return value and the two output
arrays. -/
structure Lookup where
  status : Int
  out_dens : List ℚ
  out_temps : List ℚ

/-- Lines 157-166: the row in the order of `dens_out`. -/
def canonical_dens (r : nrl_row_t) : List ℚ :=
  [r.dens.getD 0 0, r.dens.getD 1 0, r.dens.getD 2 0, r.dens.getD 3 0,
   r.dens.getD 4 0, r.dens.getD 6 0, r.dens.getD 7 0, 0]

/-- Lines 165-166. -/
def canonical_temps (r : nrl_row_t) : List ℚ :=
  [r.temps.getD 0 0, r.temps.getD 1 0]

/-- The function `lookup_nrl_values` (lines 142-168).  `out_dens` and
`out_temps` are the caller's arrays, left as they are when the function
returns 0. -/
def lookup_nrl_values (st : NrlStore) (epoch lat lon alt_m : ℚ)
    (out_dens out_temps : List ℚ) : Option Lookup :=
  if st.nrl_table_loaded = 0 then
    some { status := 0, out_dens := out_dens, out_temps := out_temps }
  else
    match best_row st epoch alt_m with
    | none => none
    | some best =>
      match st.nrl_table[best]? with
      | none => none
      | some r =>
        some { status := 1, out_dens := canonical_dens r, out_temps := canonical_temps r }

/-! ## Arithmetic of the type `double` -/

/-- Rounding of a rational to the nearest integer, ties to the even one. -/
def round_half_even (y : ℚ) : ℤ :=
  if y - ⌊y⌋ < 1 / 2 then ⌊y⌋
  else if 1 / 2 < y - ⌊y⌋ then ⌊y⌋ + 1
  else if ⌊y⌋ % 2 = 0 then ⌊y⌋ else ⌊y⌋ + 1

/-- The exponent of the unit in the last place of `x` in a binary format with
`p` significand bits whose least exponent of a unit is `emin`. -/
def ulp_exp (p : ℕ) (emin : ℤ) (x : ℚ) : ℤ :=
  max (Int.log 2 |x| - ((p : ℤ) - 1)) emin

/-- Rounding to the nearest value of the format, ties to even, with gradual
underflow and no upper bound on the exponent. -/
def round_nearest (p : ℕ) (emin : ℤ) (x : ℚ) : ℚ :=
  (round_half_even (x / 2 ^ ulp_exp p emin x) : ℚ) * 2 ^ ulp_exp p emin x


/-- The largest finite `double`. -/
def DBL_MAX : ℚ := (2 ^ 53 - 1) * 2 ^ 971

/-- Values of the C type `double`: finite numbers, the two infinities and NaN. -/
inductive Dbl where
  | fin (q : ℚ)
  | inf (negative : Bool)
  | nan
  deriving DecidableEq

/-- The `double` nearest to a rational (round to nearest, ties to even);
past `DBL_MAX` the result is an infinity. -/
def round64 (x : ℚ) : Dbl :=
  if DBL_MAX < round_nearest 53 (-1074) x then Dbl.inf false
  else if round_nearest 53 (-1074) x < -DBL_MAX then Dbl.inf true
  else Dbl.fin (round_nearest 53 (-1074) x)

/-- Multiplication of two `double`s. -/
def Dbl.mul : Dbl → Dbl → Dbl
  | Dbl.fin a, Dbl.fin b => round64 (a * b)
  | Dbl.fin a, Dbl.inf s => if a = 0 then Dbl.nan else Dbl.inf (xor s (decide (a < 0)))
  | Dbl.inf s, Dbl.fin b => if b = 0 then Dbl.nan else Dbl.inf (xor s (decide (b < 0)))
  | Dbl.inf s, Dbl.inf t => Dbl.inf (xor s t)
  | _, _ => Dbl.nan

/-- Addition of two `double`s. -/
def Dbl.add : Dbl → Dbl → Dbl
  | Dbl.fin a, Dbl.fin b => round64 (a + b)
  | Dbl.fin _, Dbl.inf s => Dbl.inf s
  | Dbl.inf s, Dbl.fin _ => Dbl.inf s
  | Dbl.inf s, Dbl.inf t => if s = t then Dbl.inf s else Dbl.nan
  | _, _ => Dbl.nan

/-- The comparison `a <= b` of two `double`s; false when either is NaN. -/
def Dbl.le : Dbl → Dbl → Bool
  | Dbl.fin a, Dbl.fin b => decide (a ≤ b)
  | Dbl.fin _, Dbl.inf s => !s
  | Dbl.inf s, Dbl.fin _ => s
  | Dbl.inf s, Dbl.inf t => s || !t
  | _, _ => false

/-- A rational that is a finite `double`: rounding leaves it unchanged. -/
def is_double (x : ℚ) : Bool := decide (round64 x = Dbl.fin x)

/-! ## Model selection: `compute_neutral_densities` -/

/-- The type of `curr_gmt` is declared in `gmt.h`.  The source reads its field
`d` and hands the whole value to `GMT_Secs`; the remaining fields are kept as
one list. -/
structure GMT where
  d : Int
  clock : List ℚ

/-- The geodetic position `sat_r_lla`: the fields the source reads. -/
structure LLA where
  Lat : ℚ
  Long : ℚ
  Alt : ℚ

/-- The arguments handed by reference to `gts5_` and `gts6_`; `dens_out` and
`temp_out` are the contents of the output arrays at the time of the call. -/
structure GtsArgs where
  yyddd : Int
  utsec : ℚ
  altitude : ℚ
  geod_lat : ℚ
  geod_long : ℚ
  loc_sol_time : ℚ
  f107_3ma : ℚ
  f107_d : ℚ
  daily_ap : List ℚ
  msis_mass : Int
  dens_out : List ℚ
  temp_out : List ℚ

/-- The collaborators of `compute_neutral_densities` that are declared outside
`neutdens.c`: the two external models (each returns the new contents of
`dens_out` and `temp_out`), `GMT_Secs`, the constant `R_D_CONST` and the
conversion `(real)`. -/
structure Host where
  gts5_ : List Char → GtsArgs → Int → List ℚ × List ℚ
  gts6_ : GtsArgs → List ℚ × List ℚ
  GMT_Secs : GMT → ℚ
  R_D_CONST : ℚ
  toReal : ℚ → ℚ

/-- Ghost record of the calls a step makes, in program order. -/
inductive Call where
  | load_nrl_csv
  | lookup_nrl_values
  | gts5_
  | gts6_
  deriving DecidableEq, Repr

/-- The globals `compute_neutral_densities` reads and writes: the statics of
lines 51-63 and 75-77, the globals of the host declared in the headers, and
the ghost field `calls`. -/
structure Globals where
  yyddd : Int
  utsec : ℚ
  altitude : ℚ
  geod_lat : ℚ
  geod_long : ℚ
  loc_sol_time : ℚ
  f107_3ma : ℚ
  f107_d : ℚ
  daily_ap : List ℚ
  msis_mass : Int
  dens_out : List ℚ
  temp_out : List ℚ
  data_path_len : Int
  nrl : NrlStore
  curr_year : Int
  curr_gmt : GMT
  sat_r_lla : LLA
  local_time_h : ℚ
  f107_3mo_ave : ℚ
  f107_daily : ℚ
  use_nrlmsis : Int
  nrlmsis_datafile : List Char
  neutdens_prefer_msise_90 : Int
  data_path : List Char
  neutdens_msise90 : List Char
  neutdens_msis86 : List Char
  neutdens_model : List Char
  neutdens_numb_he : ℚ
  neutdens_numb_o : ℚ
  neutdens_numb_n2 : ℚ
  neutdens_numb_o2 : ℚ
  neutdens_numb_ar : ℚ
  neutdens_numb_h : ℚ
  neutdens_numb_n : ℚ
  neutdens_tot_mass : ℚ
  neutdens_temp_exos : ℚ
  neutdens_temp_atalt : ℚ
  sat_v_eci_mag : ℚ
  incr_time : ℚ
  cum_flux_ao : Dbl
  calls : List Call

/-- Lines 201-214: the inputs of the models. -/
def set_inputs (host : Host) (g : Globals) : Globals :=
  { g with
    yyddd := 1000 * (Int.tmod g.curr_year 100) + g.curr_gmt.d
    utsec := host.toReal (host.GMT_Secs g.curr_gmt)
    altitude := host.toReal (g.sat_r_lla.Alt / 1000)
    geod_lat := host.toReal (g.sat_r_lla.Lat * host.R_D_CONST)
    geod_long :=
      if g.sat_r_lla.Long < 0 then host.toReal (g.sat_r_lla.Long * host.R_D_CONST + 360)
      else host.toReal (g.sat_r_lla.Long * host.R_D_CONST)
    loc_sol_time := host.toReal g.local_time_h
    f107_3ma := host.toReal g.f107_3mo_ave
    f107_d := host.toReal g.f107_daily }

/-- The argument list shared by the two model calls. -/
def gts_args (g : Globals) : GtsArgs :=
  { yyddd := g.yyddd, utsec := g.utsec, altitude := g.altitude, geod_lat := g.geod_lat
    geod_long := g.geod_long, loc_sol_time := g.loc_sol_time, f107_3ma := g.f107_3ma
    f107_d := g.f107_d, daily_ap := g.daily_ap, msis_mass := g.msis_mass
    dens_out := g.dens_out, temp_out := g.temp_out }

/-- The call of `gts6_` followed by `strcpy (neutdens_model, neutdens_msise90)`
(lines 250-253, 257-260, 320-323, 326-329). -/
def use_msise90 (host : Host) (g : Globals) : Globals :=
  let out := host.gts6_ (gts_args g)
  { g with
    dens_out := out.1
    temp_out := out.2
    neutdens_model := g.neutdens_msise90
    calls := g.calls ++ [Call.gts6_] }

/-- The call of `gts5_` followed by `strcpy (neutdens_model, neutdens_msis86)`
(lines 287-292, 296-301, 334-339). -/
def use_msis86 (host : Host) (g : Globals) : Globals :=
  let out := host.gts5_ g.data_path (gts_args g) g.data_path_len
  { g with
    dens_out := out.1
    temp_out := out.2
    neutdens_model := g.neutdens_msis86
    calls := g.calls ++ [Call.gts5_] }

/-- The lazy load of lines 230-237 (again 267-274 and 309). -/
def lazy_load (libc : Libc) (g : Globals) : Globals :=
  if g.nrl.nrl_table_loaded = 0 ∧ g.nrlmsis_datafile.length > 0 then
    { g with
      nrl := (load_nrl_csv libc g.nrlmsis_datafile g.nrl).2
      calls := g.calls ++ [Call.load_nrl_csv] }
  else g

/-- The call of `lookup_nrl_values` of lines 238-243 (again 275-280 and
310-314) on the current statics.  The locals `outd` and `outt` are
uninitialised in the source; they are read only after a hit, which has
written every slot. -/
def query_table (host : Host) (g : Globals) : Option Lookup :=
  lookup_nrl_values g.nrl (host.GMT_Secs g.curr_gmt)
    (g.sat_r_lla.Lat * host.R_D_CONST)
    (if g.sat_r_lla.Long < 0 then g.sat_r_lla.Long * host.R_D_CONST + 360
     else g.sat_r_lla.Long * host.R_D_CONST)
    g.sat_r_lla.Alt (List.replicate 8 0) (List.replicate 2 0)

/-- Lines 245-247 (again 282-284 and 316-318): the outputs after a hit. -/
def use_table (host : Host) (g : Globals) (lk : Lookup) : Globals :=
  { g with
    dens_out := (List.range 8).map (fun i => host.toReal (lk.out_dens.getD i 0))
    temp_out := [host.toReal (lk.out_temps.getD 0 0), host.toReal (lk.out_temps.getD 1 0)]
    neutdens_model := "NRLMSIS".toList }

/-- The table attempt of one branch: lazy load, query, then the table values
on a hit and the fallback `miss` otherwise.  The result `none` is a faulting
table read. -/
def table_attempt (libc : Libc) (host : Host) (miss : Globals → Globals)
    (g : Globals) : Option Globals :=
  let g1 := lazy_load libc g
  let g2 := { g1 with calls := g1.calls ++ [Call.lookup_nrl_values] }
  match query_table host g2 with
  | none => none
  | some lk => if lk.status ≠ 0 then some (use_table host g2 lk) else some (miss g2)

/-- Lines 226-341: the choice of the source. -/
def select_model (libc : Libc) (host : Host) (g : Globals) : Option Globals :=
  if g.altitude < 85 then
    if g.use_nrlmsis ≠ 0 then table_attempt libc host (use_msise90 host) g
    else some (use_msise90 host g)
  else if g.altitude > 400 then
    if g.use_nrlmsis ≠ 0 then table_attempt libc host (use_msis86 host) g
    else some (use_msis86 host g)
  else
    if g.neutdens_prefer_msise_90 ≠ 0 then
      if g.use_nrlmsis ≠ 0 then table_attempt libc host (use_msise90 host) g
      else some (use_msise90 host g)
    else some (use_msis86 host g)

/-- Lines 344-359: the output globals and the flux integral.  The update of
line 359 is evaluated in `double` arithmetic from left to right: the products
by the speed, by the time step and by the constant `24.0 * 60.0 * 60.0`, which
is exact, and then the sum with the previous flux. -/
def publish (g : Globals) : Globals :=
  let numb_o := g.dens_out.getD 1 0
  { g with
    neutdens_numb_he := g.dens_out.getD 0 0
    neutdens_numb_o := numb_o
    neutdens_numb_n2 := g.dens_out.getD 2 0
    neutdens_numb_o2 := g.dens_out.getD 3 0
    neutdens_numb_ar := g.dens_out.getD 4 0
    neutdens_numb_h := g.dens_out.getD 6 0
    neutdens_numb_n := g.dens_out.getD 7 0
    neutdens_tot_mass := g.dens_out.getD 5 0
    neutdens_temp_exos := g.temp_out.getD 0 0
    neutdens_temp_atalt := g.temp_out.getD 1 0
    cum_flux_ao :=
      Dbl.add g.cum_flux_ao
        (Dbl.mul (Dbl.mul (Dbl.mul (Dbl.fin numb_o) (Dbl.fin g.sat_v_eci_mag))
          (Dbl.fin g.incr_time)) (Dbl.fin (24 * 60 * 60))) }

/-- The function `compute_neutral_densities` (lines 199-374): the globals
after the step, `none` when a table read faults. -/
def compute_neutral_densities (libc : Libc) (host : Host) (g : Globals) : Option Globals :=
  (select_model libc host (set_inputs host g)).map publish

/-! ## Derived notions and fixtures -/

/-- The two tests a buffer passes to become a row: not skipped at line 95 and
all fourteen fields scanned at line 104. -/
def is_data_row (libc : Libc) (line : List Char) : Bool :=
  !is_skipped line && decide (14 ≤ (libc.sscanf line).got)

/-- The calls of the external models in a call record. -/
def model_calls (cs : List Call) : List Call :=
  cs.filter (fun c => decide (c = Call.gts5_ ∨ c = Call.gts6_))

/-- The calls of the table store in a call record. -/
def table_calls (cs : List Call) : List Call :=
  cs.filter (fun c => decide (c = Call.load_nrl_csv ∨ c = Call.lookup_nrl_values))

/-- A row with unknown time at altitude `alt` whose ten values are `v`,
`v + 1`, ... in the storage order of `make_row`. -/
def sample_row (alt v : ℚ) : nrl_row_t :=
  { epoch := 0, lat := 0, lon := 0, alt := alt
    dens := [v, v + 1, v + 2, v + 3, v + 4, 0, v + 5, v + 6]
    temps := [v + 7, v + 8] }

/-- A loaded store holding exactly the rows `rows`. -/
def store_of (rows : List nrl_row_t) : NrlStore :=
  { nrl_table := rows, nrl_table_len := rows.length, nrl_table_loaded := 1 }

/-- Two rows with unknown time at 100 m and 900 m. -/
def tie_store : NrlStore := store_of [sample_row 100 10, sample_row 900 20]

/-- The fields of the data row
`2024-01-01T00:00:00,10,20,300000,1,2,3,4,5,6,7,8,9,10`. -/
def one_row_scan : Scanned :=
  { got := 14, time_iso := "2024-01-01T00:00:00".toList
    t_lat := 10, t_lon := 20, t_alt := 300000
    he := 1, o := 2, n2 := 3, o2 := 4, ar := 5, h := 6, n := 7, mass := 8
    texo := 9, talt := 10 }

/-- The text of that row as one buffer. -/
def one_row_line : List Char :=
  "2024-01-01T00:00:00,10,20,300000,1,2,3,4,5,6,7,8,9,10".toList

/-- A library in which every file opens and holds the single data row of
`one_row_scan`, every time stamp is 1704067200 and every allocation
succeeds. -/
def libc_one_row : Libc :=
  { fopen := fun _ => some [one_row_line]
    sscanf := fun _ => one_row_scan
    strptime := fun _ => some ⟨0, 0, 0, 1, 0, 124, 0, 0, 0⟩
    timegm := fun _ => 1704067200
    realloc := fun _ => true }

/-- The library `libc_one_row` with every allocation failing. -/
def libc_no_memory : Libc :=
  { libc_one_row with realloc := fun _ => false }

/-- The library `libc_one_row` with no file that opens. -/
def libc_no_file : Libc :=
  { libc_one_row with fopen := fun _ => none }

/-- The path of the table file used in the examples. -/
def csv_path : List Char := "nrlmsis.csv".toList

/-- A host whose model A returns 51 ... 60, whose model B returns 61 ... 70,
and whose conversion `(real)` keeps every value. -/
def host_fixture : Host :=
  { gts5_ := fun _ _ _ => ([51, 52, 53, 54, 55, 56, 57, 58], [59, 60])
    gts6_ := fun _ => ([61, 62, 63, 64, 65, 66, 67, 68], [69, 70])
    GMT_Secs := fun _ => 43200
    R_D_CONST := 5729577951 / 100000000
    toReal := fun x => x }

/-- The globals before a step at altitude `alt_m` metres with the flags
`use_nrl` and `prefer`, the table file name `datafile` and the statics
`store`. -/
def globals_fixture (alt_m : ℚ) (use_nrl prefer : Int) (datafile : List Char)
    (store : NrlStore) : Globals :=
  { yyddd := 0, utsec := 0, altitude := 0, geod_lat := 0, geod_long := 0
    loc_sol_time := 0, f107_3ma := 0, f107_d := 0
    daily_ap := [4, 4, 4, 4, 4, 4, 4], msis_mass := 48
    dens_out := [0, 0, 0, 0, 0, 0, 0, 0], temp_out := [0, 0]
    data_path_len := 5
    nrl := store
    curr_year := 2024, curr_gmt := { d := 1, clock := [12, 0, 0] }
    sat_r_lla := { Lat := 0, Long := 0, Alt := alt_m }
    local_time_h := 12, f107_3mo_ave := 150, f107_daily := 150
    use_nrlmsis := use_nrl
    nrlmsis_datafile := datafile
    neutdens_prefer_msise_90 := prefer
    data_path := "data/".toList
    neutdens_msise90 := "MSISE-90".toList
    neutdens_msis86 := "MSIS-86".toList
    neutdens_model := []
    neutdens_numb_he := 0, neutdens_numb_o := 0, neutdens_numb_n2 := 0
    neutdens_numb_o2 := 0, neutdens_numb_ar := 0, neutdens_numb_h := 0
    neutdens_numb_n := 0, neutdens_tot_mass := 0
    neutdens_temp_exos := 0, neutdens_temp_atalt := 0
    sat_v_eci_mag := 7500, incr_time := 1 / 86400, cum_flux_ao := Dbl.fin 0
    calls := [] }

/-- A call of `load_nrl_csv` runs to completion when the file opens and the
loop ends without the early return of line 131, so that lines 135-138 are
executed. -/
def runs_to_completion (libc : Libc) (path : List Char) : Bool :=
  match libc.fopen path with
  | none => false
  | some lines => (load_rows libc lines [] 0).isSome

/-- The states of the three statics reached from the static initialisers by
calls of `load_nrl_csv` that run to completion; calls that return at line 86
because the file does not open are admitted too. -/
inductive ReachableComplete : NrlStore → Prop where
  | init : ReachableComplete nrl_init
  | not_opened (libc : Libc) (path : List Char) (st : NrlStore) :
      ReachableComplete st → libc.fopen path = none →
      ReachableComplete (load_nrl_csv libc path st).2
  | load (libc : Libc) (path : List Char) (st : NrlStore) :
      ReachableComplete st → runs_to_completion libc path = true →
      ReachableComplete (load_nrl_csv libc path st).2

/-- The statics are consistent: `nrl_table_len` is the number of rows in the
block and the flag is set only when there is a row. -/
def store_ok (st : NrlStore) : Prop :=
  st.nrl_table_len = st.nrl_table.length ∧ (st.nrl_table_loaded ≠ 0 → 0 < st.nrl_table_len)

/-- A comment line. -/
def comment_line : List Char := "# time,lat,lon,alt".toList

/-- A library whose files open and hold one comment line only. -/
def libc_comment_only : Libc :=
  { libc_one_row with fopen := fun _ => some [comment_line] }

/-- A data row whose first field is not a time stamp. -/
def bad_time_line : List Char := "yesterday,10,20,300000,1,2,3,4,5,6,7,8,9,10".toList

/-- A library whose files hold the single row `bad_time_line`, whose `sscanf`
yields the fields of that row and whose `strptime` fails. -/
def libc_bad_time : Libc :=
  { fopen := fun _ => some [bad_time_line]
    sscanf := fun _ => { one_row_scan with time_iso := "yesterday".toList }
    strptime := fun _ => none
    timegm := fun _ => 1704067200
    realloc := fun _ => true }

/-- The number of calls of `load_nrl_csv` in a call record. -/
def load_calls (cs : List Call) : Nat := cs.count Call.load_nrl_csv

/-- What the host supplies before one step: the satellite state, the time and
the solar indices (the inputs that section 6 of the spec lists for a step),
with the library and the collaborators as they behave during that step.  The
routing configuration (`use_nrlmsis`, `nrlmsis_datafile`,
`neutdens_prefer_msise_90`, `data_path`) is fixed for the run. -/
structure StepInput where
  libc : Libc
  host : Host
  curr_year : Int
  curr_gmt : GMT
  sat_r_lla : LLA
  local_time_h : ℚ
  f107_3mo_ave : ℚ
  f107_daily : ℚ
  sat_v_eci_mag : ℚ
  incr_time : ℚ

/-- The host writes its inputs into its globals before a step.  The statics of
`neutdens.c` have file scope and are out of its reach. -/
def enter_step (i : StepInput) (g : Globals) : Globals :=
  { g with
    curr_year := i.curr_year
    curr_gmt := i.curr_gmt
    sat_r_lla := i.sat_r_lla
    local_time_h := i.local_time_h
    f107_3mo_ave := i.f107_3mo_ave
    f107_daily := i.f107_daily
    sat_v_eci_mag := i.sat_v_eci_mag
    incr_time := i.incr_time }

/-- A run: the steps in sequence, each a call of `compute_neutral_densities`
on the globals left by the previous one; a faulting step ends the run. -/
def run_steps : List StepInput → Globals → Option Globals
  | [], g => some g
  | i :: rest, g =>
    match compute_neutral_densities i.libc i.host (enter_step i g) with
    | none => none
    | some g1 => run_steps rest g1

/-- The flux update in the words of the spec (section 4.4):
`cumulative + o_density * velocity_magnitude * elapsed_days * 86400`. -/
def accumulate (cumulative o_density velocity_magnitude elapsed_days : ℚ) : ℚ :=
  cumulative + o_density * velocity_magnitude * elapsed_days * 86400

/-- The input of a step of the examples: the library `libc`, the host
`host_fixture`, altitude `alt_m` metres and the time step `incr_time` days. -/
def step_fixture (libc : Libc) (alt_m incr_time : ℚ) : StepInput :=
  { libc := libc, host := host_fixture
    curr_year := 2024, curr_gmt := { d := 1, clock := [12, 0, 0] }
    sat_r_lla := { Lat := 0, Long := 0, Alt := alt_m }
    local_time_h := 12, f107_3mo_ave := 150, f107_daily := 150
    sat_v_eci_mag := 7500, incr_time := incr_time }

/-- The globals at the time `lookup_nrl_values` returns in a table attempt:
after the lazy load, with the call recorded. -/
def after_query (libc : Libc) (g : Globals) : Globals :=
  { lazy_load libc g with calls := (lazy_load libc g).calls ++ [Call.lookup_nrl_values] }

/-- What one step `g` to `g2` does to the statics and where its outputs come
from: the statics stay consistent and change only by a call of `load_nrl_csv`
made with the flag at 0; the outputs are the table values after a hit, with no
model call, or the outputs of one model called once, and the tag names that
source. -/
def step_post (libc : Libc) (host : Host) (g g2 : Globals) : Prop :=
  store_ok g2.nrl ∧
  ((g2.nrl = g.nrl ∧ load_calls g2.calls = load_calls g.calls) ∨
    (g.nrl.nrl_table_loaded = 0 ∧
      g2.nrl = (load_nrl_csv libc g.nrlmsis_datafile g.nrl).2 ∧
      load_calls g2.calls = load_calls g.calls + 1)) ∧
  ((g2.neutdens_model = "NRLMSIS".toList ∧
      model_calls g2.calls = model_calls g.calls ∧
      ∃ lk, query_table host (lazy_load libc (set_inputs host g)) = some lk ∧
        lk.status ≠ 0 ∧
        g2.dens_out = lk.out_dens.map host.toReal ∧
        g2.temp_out = lk.out_temps.map host.toReal) ∨
    (g2.neutdens_model = g.neutdens_msise90 ∧
      model_calls g2.calls = model_calls g.calls ++ [Call.gts6_] ∧
      (g2.dens_out, g2.temp_out) = host.gts6_ (gts_args (set_inputs host g))) ∨
    (g2.neutdens_model = g.neutdens_msis86 ∧
      model_calls g2.calls = model_calls g.calls ++ [Call.gts5_] ∧
      (g2.dens_out, g2.temp_out)
        = host.gts5_ g.data_path (gts_args (set_inputs host g)) g.data_path_len))

/-- The host `host_fixture` with a model B that returns the atomic-oxygen
density 1e10 and zeros elsewhere. -/
def host_oxygen : Host :=
  { host_fixture with gts6_ := fun _ => ([0, 1e10, 0, 0, 0, 0, 0, 0], [0, 0]) }

/-- The `double` nearest to 1/86400 day, one second: `0x1.845c8a0ce5129p-17`. -/
def incr_one_second : ℚ := 6832127434707241 / 590295810358705651712

/-- The host `host_fixture` with a model B that returns the atomic-oxygen
density `2 ^ 100`, a value of the type `real`, and zeros elsewhere. -/
def host_dense : Host :=
  { host_fixture with gts6_ := fun _ => ([0, 2 ^ 100, 0, 0, 0, 0, 0, 0], [0, 0]) }

/-- The input of a step at 50 km with the speed `2 ^ 1000` and the time step 0. -/
def overflow_step : StepInput :=
  { step_fixture libc_one_row 50000 0 with sat_v_eci_mag := 2 ^ 1000 }

/-- The host `host_fixture` with a type `real` of single precision: the
conversion `(real)` rounds to 24 significand bits, ties to even. -/
def host_float : Host :=
  { host_fixture with toReal := round_nearest 24 (-149) }

/-- A loaded store of one row at 100 m whose values are 33554433 and up:
`double`s that are not all values of a single-precision `real`. -/
def float_store : NrlStore := store_of [sample_row 100 33554433]

/-- The states of the three statics that the program reaches.  The function
`load_nrl_csv` is `static` and each of its call sites (lines 230-236, 267-273
and 309) is guarded by `!nrl_table_loaded`, so every call it receives starts
with the flag at 0; the library may do anything in each call. -/
inductive ReachableGuarded : NrlStore → Prop where
  | init : ReachableGuarded nrl_init
  | load (libc : Libc) (path : List Char) (st : NrlStore) :
      ReachableGuarded st → st.nrl_table_loaded = 0 →
      ReachableGuarded (load_nrl_csv libc path st).2

/-- A second data row, `2024-01-02T00:00:00,11,21,310000,11,...,20`. -/
def second_row_line : List Char :=
  "2024-01-02T00:00:00,11,21,310000,11,12,13,14,15,16,17,18,19,20".toList

/-- The fields of `second_row_line`. -/
def second_row_scan : Scanned :=
  { got := 14, time_iso := "2024-01-02T00:00:00".toList
    t_lat := 11, t_lon := 21, t_alt := 310000
    he := 11, o := 12, n2 := 13, o2 := 14, ar := 15, h := 16, n := 17, mass := 18
    texo := 19, talt := 20 }

/-- A malformed row: three fields only. -/
def short_row_line : List Char := "2024-01-03T00:00:00,12,22".toList

/-- What `sscanf` leaves for `short_row_line`: three fields assigned. -/
def short_row_scan : Scanned :=
  { one_row_scan with got := 3, time_iso := "2024-01-03T00:00:00".toList
                      t_lat := 12, t_lon := 22 }

/-- A blank line: spaces, a tab and the newline. -/
def blank_line : List Char := [CH_SPACE, CH_TAB, CH_SPACE, CH_NEWLINE]

/-- The buffers of a file with a comment, a data row, a malformed row, a blank
line and a second data row. -/
def interleaved_lines : List (List Char) :=
  [comment_line, one_row_line, short_row_line, blank_line, second_row_line]

/-- A library whose files hold `interleaved_lines`, whose `sscanf` yields the
fields of each of the three rows, and whose allocations succeed. -/
def libc_interleaved : Libc :=
  { libc_one_row with
    fopen := fun _ => some interleaved_lines
    sscanf := fun line =>
      if line = short_row_line then short_row_scan
      else if line = second_row_line then second_row_scan
      else one_row_scan }

/-! ## Rounding -/

theorem round_half_even_of_near (y : ℚ) (n : ℤ) (h : |y - n| < 1 / 2) :
    round_half_even y = n := by
  rw [abs_lt] at h
  unfold round_half_even
  rcases le_or_lt (n : ℚ) y with hle | hlt
  · have hf : ⌊y⌋ = n := by
      rw [Int.floor_eq_iff]; constructor
      · exact hle
      · linarith
    rw [hf, if_pos (by linarith)]
  · have hf : ⌊y⌋ = n - 1 := by
      rw [Int.floor_eq_iff]; constructor
      · push_cast; linarith
      · push_cast; linarith
    rw [hf]
    have h1 : ¬ (y - ((n - 1 : ℤ) : ℚ) < 1 / 2) := by push_cast; linarith
    have h2 : 1 / 2 < y - ((n - 1 : ℤ) : ℚ) := by push_cast; linarith
    rw [if_neg h1, if_pos h2]
    ring

theorem log_two_eq (x : ℚ) (e : ℤ) (h1 : (2 : ℚ) ^ e ≤ x) (h2 : x < 2 ^ (e + 1)) :
    Int.log 2 x = e := by
  have hx : 0 < x := lt_of_lt_of_le (by positivity) h1
  have ha : e ≤ Int.log 2 x := (Int.zpow_le_iff_le_log (by norm_num) hx).mp (by exact_mod_cast h1)
  have hb : Int.log 2 x < e + 1 := (Int.lt_zpow_iff_log_lt (by norm_num) hx).mp (by exact_mod_cast h2)
  omega

theorem round_nearest_eval (p : ℕ) (emin : ℤ) (x : ℚ) (e n : ℤ)
    (h1 : (2 : ℚ) ^ e ≤ |x|) (h2 : |x| < 2 ^ (e + 1)) (hq : emin ≤ e - ((p : ℤ) - 1))
    (hn : |x / 2 ^ (e - ((p : ℤ) - 1)) - n| < 1 / 2) :
    round_nearest p emin x = n * 2 ^ (e - ((p : ℤ) - 1)) := by
  have hu : ulp_exp p emin x = e - ((p : ℤ) - 1) := by
    unfold ulp_exp
    rw [log_two_eq |x| e h1 h2]
    exact max_eq_left hq
  unfold round_nearest
  rw [hu, round_half_even_of_near _ n hn]


theorem round_half_even_floor_or (y : ℚ) :
    round_half_even y = ⌊y⌋ ∨ round_half_even y = ⌊y⌋ + 1 := by
  unfold round_half_even
  split_ifs <;> simp

theorem round_half_even_int (n : ℤ) : round_half_even (n : ℚ) = n :=
  round_half_even_of_near _ n (by simp)

theorem round_half_even_mono {a b : ℚ} (h : a ≤ b) : round_half_even a ≤ round_half_even b := by
  have hf : ⌊a⌋ ≤ ⌊b⌋ := Int.floor_mono h
  rcases lt_or_eq_of_le hf with hlt | heq
  · rcases round_half_even_floor_or a with ha | ha <;>
      rcases round_half_even_floor_or b with hb | hb <;> omega
  · unfold round_half_even
    rw [heq]
    split_ifs <;> first | omega | (exfalso; linarith)

theorem round_half_even_nonneg {y : ℚ} (h : 0 ≤ y) : 0 ≤ round_half_even y := by
  have := round_half_even_mono h
  rwa [show ((0 : ℚ)) = ((0 : ℤ) : ℚ) by simp, round_half_even_int] at this

theorem round_nearest_nonneg (p : ℕ) (emin : ℤ) {x : ℚ} (h : 0 ≤ x) :
    0 ≤ round_nearest p emin x := by
  unfold round_nearest
  have h2 : (0 : ℚ) < 2 ^ ulp_exp p emin x := by positivity
  have : 0 ≤ round_half_even (x / 2 ^ ulp_exp p emin x) :=
    round_half_even_nonneg (div_nonneg h h2.le)
  have h3 : (0 : ℚ) ≤ (round_half_even (x / 2 ^ ulp_exp p emin x) : ℚ) := by exact_mod_cast this
  exact mul_nonneg h3 h2.le

theorem round_nearest_zero (p : ℕ) (emin : ℤ) : round_nearest p emin 0 = 0 := by
  unfold round_nearest
  rw [zero_div, show ((0 : ℚ)) = ((0 : ℤ) : ℚ) by simp, round_half_even_int]
  simp

/-- Rounding never crosses a value of the format: a fixed point of the rounding
below `x` stays below the rounding of `x`. -/
theorem round_nearest_ge_fixed (p : ℕ) (emin : ℤ) (hp : 1 ≤ p) {c x : ℚ}
    (hc : round_nearest p emin c = c) (hcx : c ≤ x) : c ≤ round_nearest p emin x := by
  rcases eq_or_ne x 0 with hx0 | hx0
  · subst hx0; rw [round_nearest_zero]; exact hcx
  rcases le_or_lt (ulp_exp p emin x) (ulp_exp p emin c) with hq | hq
  · -- the grid of x refines the grid of c, so c is a point of it
    obtain ⟨k, hk⟩ := Int.le.dest hq
    have h2 : (0 : ℚ) < 2 ^ ulp_exp p emin x := by positivity
    have hcm : c = ((round_half_even (c / 2 ^ ulp_exp p emin c) * 2 ^ k : ℤ) : ℚ)
        * 2 ^ ulp_exp p emin x := by
      conv_lhs => rw [← hc]
      unfold round_nearest
      rw [← hk, zpow_add₀ (by norm_num : (2 : ℚ) ≠ 0)]
      push_cast
      rw [zpow_natCast]
      ring
    have hdiv : c / 2 ^ ulp_exp p emin x
        = ((round_half_even (c / 2 ^ ulp_exp p emin c) * 2 ^ k : ℤ) : ℚ) := by
      rw [div_eq_iff h2.ne']; exact hcm
    have hm := round_half_even_mono (div_le_div_of_nonneg_right hcx h2.le)
    rw [hdiv, round_half_even_int] at hm
    have hm2 : ((round_half_even (c / 2 ^ ulp_exp p emin c) * 2 ^ k : ℤ) : ℚ)
        ≤ (round_half_even (x / 2 ^ ulp_exp p emin x) : ℚ) := by exact_mod_cast hm
    unfold round_nearest
    calc c = _ := hcm
      _ ≤ _ := mul_le_mul_of_nonneg_right hm2 h2.le
  · -- x lies in a higher binade than c
    have hxpos : 0 < |x| := abs_pos.mpr hx0
    have hqx : ulp_exp p emin x = Int.log 2 |x| - ((p : ℤ) - 1) := by
      unfold ulp_exp at hq ⊢
      rcases le_total (Int.log 2 |x| - ((p : ℤ) - 1)) emin with h | h
      · rw [max_eq_right h] at hq
        exact absurd (le_max_right _ _) (not_le.mpr hq)
      · exact max_eq_left h
    have hlog : Int.log 2 |c| + 1 ≤ Int.log 2 |x| := by
      have : Int.log 2 |c| - ((p : ℤ) - 1) ≤ ulp_exp p emin c := le_max_left _ _
      rw [hqx] at hq
      omega
    have hc1 : |c| < (2 : ℚ) ^ (Int.log 2 |c| + 1) := by
      exact_mod_cast Int.lt_zpow_succ_log_self (by norm_num : 1 < 2) |c|
    have hx1 : (2 : ℚ) ^ Int.log 2 |x| ≤ |x| := by
      exact_mod_cast Int.zpow_log_le_self (by norm_num : 1 < 2) hxpos
    have hpow : (2 : ℚ) ^ (Int.log 2 |c| + 1) ≤ 2 ^ Int.log 2 |x| :=
      zpow_le_zpow_right₀ (by norm_num) hlog
    have hcx2 : |c| < |x| := lt_of_lt_of_le hc1 (le_trans hpow hx1)
    have hx_pos : 0 < x := by
      by_contra hneg
      push_neg at hneg
      have : |x| ≤ |c| := by
        rw [abs_of_nonpos hneg, abs_of_nonpos (le_trans hcx hneg)]; linarith
      linarith
    rw [abs_of_pos hx_pos] at hx1 hqx hpow
    have h2 : (0 : ℚ) < 2 ^ ulp_exp p emin x := by positivity
    have hsplit : (2 : ℚ) ^ Int.log 2 x = ((2 ^ (p - 1) : ℤ) : ℚ) * 2 ^ ulp_exp p emin x := by
      rw [hqx]
      push_cast
      rw [← zpow_natCast, ← zpow_add₀ (by norm_num : (2 : ℚ) ≠ 0)]
      congr 1
      have : ((p - 1 : ℕ) : ℤ) = (p : ℤ) - 1 := by omega
      rw [this]; ring
    have hdiv : ((2 ^ (p - 1) : ℤ) : ℚ) ≤ x / 2 ^ ulp_exp p emin x := by
      rw [le_div_iff₀ h2, ← hsplit]; exact hx1
    have hm := round_half_even_mono hdiv
    rw [round_half_even_int] at hm
    have hm2 : ((2 ^ (p - 1) : ℤ) : ℚ) ≤ (round_half_even (x / 2 ^ ulp_exp p emin x) : ℚ) := by
      exact_mod_cast hm
    unfold round_nearest
    calc c ≤ |c| := le_abs_self c
      _ ≤ 2 ^ Int.log 2 x := le_of_lt (lt_of_lt_of_le hc1 hpow)
      _ = _ := hsplit
      _ ≤ _ := mul_le_mul_of_nonneg_right hm2 h2.le

/-- The bound `DBL_MAX` is positive and at least `2 ^ 53`. -/
theorem two_pow_53_le_DBL_MAX : (2 : ℚ) ^ 53 ≤ DBL_MAX := by
  unfold DBL_MAX; norm_num

/-- The value of `round64` from the value of `round_nearest`. -/
theorem round64_of_round_nearest (x r : ℚ) (hr : round_nearest 53 (-1074) x = r)
    (hmax : |r| ≤ DBL_MAX) : round64 x = Dbl.fin r := by
  rw [abs_le] at hmax
  unfold round64
  rw [hr, if_neg (not_lt.mpr hmax.2), if_neg (not_lt.mpr hmax.1)]

/-- Evaluation of `round64` at a number of the binade `2 ^ e`: the multiple
`n * 2 ^ (e - 52)` of the unit in the last place that is nearer than half a
unit. -/
theorem round64_eval (x : ℚ) (e n : ℤ) (h1 : (2 : ℚ) ^ e ≤ |x|) (h2 : |x| < 2 ^ (e + 1))
    (hq : -1074 ≤ e - 52) (hn : |x / 2 ^ (e - 52) - n| < 1 / 2)
    (hmax : |(n : ℚ) * 2 ^ (e - 52)| ≤ DBL_MAX) :
    round64 x = Dbl.fin (n * 2 ^ (e - 52)) := by
  have h := round_nearest_eval 53 (-1074) x e n h1 h2 (by norm_num; omega)
    (by norm_num; exact hn)
  norm_num at h
  exact round64_of_round_nearest x _ h hmax

/-- Rounding past `DBL_MAX` gives `+inf`. -/
theorem round64_overflow (x : ℚ) (e n : ℤ) (h1 : (2 : ℚ) ^ e ≤ |x|) (h2 : |x| < 2 ^ (e + 1))
    (hq : -1074 ≤ e - 52) (hn : |x / 2 ^ (e - 52) - n| < 1 / 2)
    (hmax : DBL_MAX < (n : ℚ) * 2 ^ (e - 52)) :
    round64 x = Dbl.inf false := by
  have h := round_nearest_eval 53 (-1074) x e n h1 h2 (by norm_num; omega)
    (by norm_num; exact hn)
  norm_num at h
  unfold round64
  rw [h, if_pos hmax]

/-- An integer below `2 ^ p` in absolute value is a value of the format with
`p` significand bits. -/
theorem round_nearest_int_of (p : ℕ) (emin : ℤ) (hemin : emin ≤ 1 - (p : ℤ))
    (n : ℤ) (h : |n| < 2 ^ p) : round_nearest p emin (n : ℚ) = n := by
  rcases eq_or_ne n 0 with h0 | h0
  · subst h0; simpa using round_nearest_zero p emin
  have hpos : (1 : ℚ) ≤ |(n : ℚ)| := by
    have : (1 : ℤ) ≤ |n| := Int.one_le_abs h0
    exact_mod_cast this
  have hlt : |(n : ℚ)| < 2 ^ p := by exact_mod_cast h
  have hl0 : 0 ≤ Int.log 2 |(n : ℚ)| :=
    (Int.zpow_le_iff_le_log (by norm_num : 1 < 2) (lt_of_lt_of_le one_pos hpos)
      (x := 0)).mp (by simpa using hpos)
  have hl1 : Int.log 2 |(n : ℚ)| < (p : ℤ) :=
    (Int.lt_zpow_iff_log_lt (by norm_num : 1 < 2) (lt_of_lt_of_le one_pos hpos)
      (x := (p : ℤ))).mp (by rw [zpow_natCast]; exact_mod_cast hlt)
  obtain ⟨k, hk⟩ : ∃ k : ℕ, ulp_exp p emin (n : ℚ) = -(k : ℤ) := by
    refine ⟨((p : ℤ) - 1 - Int.log 2 |(n : ℚ)|).toNat, ?_⟩
    unfold ulp_exp
    rw [max_eq_left (by omega)]
    rw [Int.toNat_of_nonneg (by omega)]
    ring
  unfold round_nearest
  rw [hk]
  have hdiv : (n : ℚ) / 2 ^ (-(k : ℤ)) = ((n * 2 ^ k : ℤ) : ℚ) := by
    rw [zpow_neg, zpow_natCast]; push_cast; field_simp
  rw [hdiv, round_half_even_int]
  rw [zpow_neg, zpow_natCast]; push_cast; field_simp

/-- An integer below `2 ^ 53` in absolute value is a `double`. -/
theorem round_nearest_int (n : ℤ) (h : |n| < 2 ^ 53) :
    round_nearest 53 (-1074) (n : ℚ) = n :=
  round_nearest_int_of 53 (-1074) (by norm_num) n h

/-- Rounding an integer below `2 ^ 53` in absolute value leaves it unchanged. -/
theorem round64_int (x : ℚ) (n : ℤ) (hx : x = n) (h : |n| < 2 ^ 53) :
    round64 x = Dbl.fin x := by
  subst hx
  refine round64_of_round_nearest _ _ (round_nearest_int n h) ?_
  have hlt : |(n : ℚ)| < 2 ^ 53 := by exact_mod_cast h
  exact le_trans hlt.le two_pow_53_le_DBL_MAX

/-- Rounding a non-negative number gives `+inf` or a non-negative number. -/
theorem round64_nonneg {x : ℚ} (h : 0 ≤ x) :
    round64 x = Dbl.inf false ∨ ∃ r, 0 ≤ r ∧ round64 x = Dbl.fin r := by
  have hr := round_nearest_nonneg 53 (-1074) h
  have hD : (0 : ℚ) ≤ DBL_MAX := le_trans (by positivity) two_pow_53_le_DBL_MAX
  unfold round64
  split_ifs with h1 h2
  · exact Or.inl rfl
  · exfalso; linarith
  · exact Or.inr ⟨_, hr, rfl⟩

/-- Adding a non-negative number to a `double` and rounding does not go below
that `double`. -/
theorem round64_add_ge {c y : ℚ} (hc : is_double c = true) (hy : 0 ≤ y) :
    Dbl.le (Dbl.fin c) (round64 (c + y)) = true := by
  have hc2 : round64 c = Dbl.fin c := by simpa [is_double] using hc
  have hfix : round_nearest 53 (-1074) c = c ∧ -DBL_MAX ≤ c := by
    unfold round64 at hc2
    split_ifs at hc2 with h1 h2
    simp only [Dbl.fin.injEq] at hc2
    rw [hc2] at h2
    exact ⟨hc2, not_lt.mp h2⟩
  have hge := round_nearest_ge_fixed 53 (-1074) (by norm_num) hfix.1
    (show c ≤ c + y by linarith)
  unfold round64
  split_ifs with h1 h2
  · rfl
  · exfalso; linarith [hfix.2]
  · simp [Dbl.le, hge]

/-- The increment of the flux for non-negative factors: `+inf`, a non-negative
number, or NaN when the product of density and speed overflows and the time
step is 0. -/
theorem flux_increment_nonneg {o v t : ℚ} (ho : 0 ≤ o) (hv : 0 ≤ v) (ht : 0 ≤ t) :
    Dbl.mul (Dbl.mul (Dbl.mul (Dbl.fin o) (Dbl.fin v)) (Dbl.fin t)) (Dbl.fin (24 * 60 * 60))
        = Dbl.inf false ∨
    (∃ y, 0 ≤ y ∧
      Dbl.mul (Dbl.mul (Dbl.mul (Dbl.fin o) (Dbl.fin v)) (Dbl.fin t)) (Dbl.fin (24 * 60 * 60))
        = Dbl.fin y) ∨
    Dbl.mul (Dbl.mul (Dbl.mul (Dbl.fin o) (Dbl.fin v)) (Dbl.fin t)) (Dbl.fin (24 * 60 * 60))
        = Dbl.nan := by
  have hlast : ∀ d : Dbl, (d = Dbl.inf false ∨ (∃ y, 0 ≤ y ∧ d = Dbl.fin y) ∨ d = Dbl.nan) →
      (Dbl.mul d (Dbl.fin (24 * 60 * 60)) = Dbl.inf false ∨
        (∃ y, 0 ≤ y ∧ Dbl.mul d (Dbl.fin (24 * 60 * 60)) = Dbl.fin y) ∨
        Dbl.mul d (Dbl.fin (24 * 60 * 60)) = Dbl.nan) := by
    intro d hd
    rcases hd with e | ⟨y, hy, e⟩ | e
    · left; rw [e]; simp [Dbl.mul]
    · rw [e]
      show round64 (y * (24 * 60 * 60)) = _ ∨ _
      rcases round64_nonneg (mul_nonneg hy (by norm_num : (0 : ℚ) ≤ 24 * 60 * 60)) with h | h
      · exact Or.inl h
      · exact Or.inr (Or.inl h)
    · right; right; rw [e]; rfl
  apply hlast
  have h1 : Dbl.mul (Dbl.fin o) (Dbl.fin v) = round64 (o * v) := rfl
  rw [h1]
  rcases round64_nonneg (mul_nonneg ho hv) with h | ⟨r, hr, h⟩
  · rw [h]
    rcases eq_or_lt_of_le ht with h0 | hpos
    · right; right; rw [← h0]; simp [Dbl.mul]
    · left; simp [Dbl.mul, hpos.ne', not_lt.mpr ht]
  · rw [h]
    show round64 (r * t) = _ ∨ _
    rcases round64_nonneg (mul_nonneg hr ht) with h | h
    · exact Or.inl h
    · exact Or.inr (Or.inl h)

/-- Adding a non-negative increment to a flux that is a `double` or an
infinity: the flux does not decrease unless the sum is NaN. -/
theorem flux_add_ge (cum inc : Dbl) (hcum : ∀ c, cum = Dbl.fin c → is_double c = true)
    (hinc : inc = Dbl.inf false ∨ (∃ y, 0 ≤ y ∧ inc = Dbl.fin y) ∨ inc = Dbl.nan)
    (hprev : cum ≠ Dbl.nan) (hnew : Dbl.add cum inc ≠ Dbl.nan) :
    Dbl.le cum (Dbl.add cum inc) = true := by
  rcases hinc with e | ⟨y, hy, e⟩ | e
  · subst e
    cases cum with
    | fin c => rfl
    | inf s => cases s <;> simp [Dbl.add, Dbl.le] at hnew ⊢
    | nan => exact absurd rfl hprev
  · subst e
    cases cum with
    | fin c => exact round64_add_ge (hcum c rfl) hy
    | inf s => cases s <;> simp [Dbl.add, Dbl.le]
    | nan => exact absurd rfl hprev
  · subst e
    cases cum with
    | fin c => exact absurd rfl hnew
    | inf s => exact absurd rfl hnew
    | nan => exact absurd rfl hprev

/-- An integer below `2 ^ 53` in absolute value is a `double`. -/
theorem is_double_int (x : ℚ) (n : ℤ) (hx : x = n) (h : |n| < 2 ^ 53) : is_double x = true := by
  simp [is_double, round64_int x n hx h]

/-- The flux update of line 359 from the values of its four operations. -/
theorem flux_value (c o v t p1 p2 p3 p4 : ℚ) (h1 : round64 (o * v) = Dbl.fin p1)
    (h2 : round64 (p1 * t) = Dbl.fin p2) (h3 : round64 (p2 * (24 * 60 * 60)) = Dbl.fin p3)
    (h4 : round64 (c + p3) = Dbl.fin p4) :
    Dbl.add (Dbl.fin c)
      (Dbl.mul (Dbl.mul (Dbl.mul (Dbl.fin o) (Dbl.fin v)) (Dbl.fin t)) (Dbl.fin (24 * 60 * 60)))
      = Dbl.fin p4 := by
  show Dbl.add (Dbl.fin c)
      (Dbl.mul (Dbl.mul (round64 (o * v)) (Dbl.fin t)) (Dbl.fin (24 * 60 * 60))) = Dbl.fin p4
  rw [h1]
  show Dbl.add (Dbl.fin c) (Dbl.mul (round64 (p1 * t)) (Dbl.fin (24 * 60 * 60))) = Dbl.fin p4
  rw [h2]
  show Dbl.add (Dbl.fin c) (round64 (p2 * (24 * 60 * 60))) = Dbl.fin p4
  rw [h3]
  exact h4

/-! ## The scan loop -/

/-- The function `fabs` is the absolute value. -/
theorem fabs_eq_abs (x : ℚ) : fabs x = |x| := by
  unfold fabs
  split
  · rename_i h; rw [abs_of_neg h]
  · rename_i h; rw [abs_of_nonneg (not_lt.mp h)]

/-- What the scan loop returns: `s` is bounded by the start score and by the
score of every row visited; either nothing was selected, or `b` is a visited
row with score `s` below the start score and strictly below every row visited
before it. -/
theorem scan_rows_spec (tbl : List nrl_row_t) (e a : ℚ) :
    ∀ (fuel i best : Nat) (bs : ℚ) (b : Nat) (s : ℚ),
      scan_rows tbl e a fuel i best bs = some (b, s) →
      s ≤ bs ∧
      (∀ j r, i ≤ j → j < i + fuel → tbl[j]? = some r → s ≤ row_score r e a) ∧
      ((b = best ∧ s = bs) ∨
        (i ≤ b ∧ b < i + fuel ∧ s < bs ∧
          (∃ r, tbl[b]? = some r ∧ row_score r e a = s) ∧
          ∀ j r, i ≤ j → j < b → tbl[j]? = some r → s < row_score r e a)) := by
  intro fuel
  induction fuel with
  | zero =>
    intro i best bs b s h
    simp only [scan_rows, Option.some.injEq, Prod.mk.injEq] at h
    obtain ⟨rfl, rfl⟩ := h
    refine ⟨le_refl _, ?_, Or.inl ⟨rfl, rfl⟩⟩
    intro j r h1 h2
    omega
  | succ n ih =>
    intro i best bs b s h
    rw [scan_rows] at h
    cases hi : tbl[i]? with
    | none => rw [hi] at h; simp at h
    | some ri =>
      rw [hi] at h
      simp only at h
      by_cases hlt : row_score ri e a < bs
      · rw [if_pos hlt] at h
        obtain ⟨h1, h2, h3⟩ := ih (i + 1) i (row_score ri e a) b s h
        refine ⟨le_trans h1 (le_of_lt hlt), ?_, Or.inr ?_⟩
        · intro j r hj1 hj2 hj
          rcases Nat.eq_or_lt_of_le hj1 with heq | hgt
          · subst heq
            rw [hi] at hj
            cases hj
            exact h1
          · exact h2 j r hgt (by omega) hj
        · rcases h3 with ⟨hb, hs⟩ | ⟨hb1, hb2, hs, hr, hall⟩
          · subst hb; subst hs
            refine ⟨le_refl _, by omega, hlt, ⟨ri, hi, rfl⟩, ?_⟩
            intro j r hj1 hj2
            omega
          · refine ⟨by omega, by omega, lt_trans hs hlt, hr, ?_⟩
            intro j r hj1 hj2 hj
            rcases Nat.eq_or_lt_of_le hj1 with heq | hgt
            · subst heq
              rw [hi] at hj
              cases hj
              exact hs
            · exact hall j r hgt hj2 hj
      · rw [if_neg hlt] at h
        obtain ⟨h1, h2, h3⟩ := ih (i + 1) best bs b s h
        have hge : bs ≤ row_score ri e a := not_lt.mp hlt
        refine ⟨h1, ?_, ?_⟩
        · intro j r hj1 hj2 hj
          rcases Nat.eq_or_lt_of_le hj1 with heq | hgt
          · subst heq
            rw [hi] at hj
            cases hj
            exact le_trans h1 hge
          · exact h2 j r hgt (by omega) hj
        · rcases h3 with h3 | ⟨hb1, hb2, hs, hr, hall⟩
          · exact Or.inl h3
          · refine Or.inr ⟨by omega, by omega, hs, hr, ?_⟩
            intro j r hj1 hj2 hj
            rcases Nat.eq_or_lt_of_le hj1 with heq | hgt
            · subst heq
              rw [hi] at hj
              cases hj
              exact lt_of_lt_of_le hs hge
            · exact hall j r hgt hj2 hj

/-- The scan loop returns when every index it visits is inside the block. -/
theorem scan_rows_total (tbl : List nrl_row_t) (e a : ℚ) :
    ∀ (fuel i best : Nat) (bs : ℚ), i + fuel ≤ tbl.length →
      ∃ b s, scan_rows tbl e a fuel i best bs = some (b, s) := by
  intro fuel
  induction fuel with
  | zero => intro i best bs _; exact ⟨best, bs, rfl⟩
  | succ n ih =>
    intro i best bs h
    have hi : i < tbl.length := by omega
    rw [scan_rows, List.getElem?_eq_getElem hi]
    simp only
    split
    · exact ih (i + 1) i _ (by omega)
    · exact ih (i + 1) best bs (by omega)

/-- In a loaded store whose length field matches a non-empty block, the query
is a hit with the values of the row at the index the scan leaves in `best`;
every earlier row scores strictly more, and that row minimises the score as
soon as one row scores below the start value `1e308`. -/
theorem lookup_loaded (st : NrlStore) (e lat lon a : ℚ) (od ot : List ℚ)
    (hload : st.nrl_table_loaded ≠ 0) (hlen : st.nrl_table_len = st.nrl_table.length)
    (hpos : 0 < st.nrl_table_len) :
    ∃ b r, b < st.nrl_table_len ∧ st.nrl_table[b]? = some r ∧
      best_row st e a = some b ∧
      lookup_nrl_values st e lat lon a od ot
        = some { status := 1, out_dens := canonical_dens r, out_temps := canonical_temps r } ∧
      (∀ j rj, j < b → st.nrl_table[j]? = some rj → row_score r e a < row_score rj e a) ∧
      ((∃ r0 ∈ st.nrl_table, row_score r0 e a < 1e308) →
        ∀ rj ∈ st.nrl_table, row_score r e a ≤ row_score rj e a) := by
  obtain ⟨b, s, hscan⟩ :=
    scan_rows_total st.nrl_table e a st.nrl_table_len 0 0 1e308 (by omega)
  obtain ⟨_, hmin, hcase⟩ := scan_rows_spec st.nrl_table e a _ _ _ _ _ _ hscan
  have hbest : best_row st e a = some b := by simp [best_row, hscan]
  have hb : b < st.nrl_table_len := by
    rcases hcase with ⟨hb, _⟩ | ⟨_, hb, _⟩ <;> omega
  have hbl : b < st.nrl_table.length := by omega
  refine ⟨b, st.nrl_table[b], hb, List.getElem?_eq_getElem hbl, hbest, ?_, ?_, ?_⟩
  · simp [lookup_nrl_values, hload, hbest, List.getElem?_eq_getElem hbl]
  · intro j rj hj hrj
    rcases hcase with ⟨hb0, _⟩ | ⟨_, _, _, ⟨r, hr, hrs⟩, hall⟩
    · omega
    · rw [List.getElem?_eq_getElem hbl] at hr
      cases hr
      rw [hrs]
      exact hall j rj (Nat.zero_le _) hj hrj
  · rintro ⟨r0, hr0, hlt⟩ rj hrj
    have hall : ∀ r ∈ st.nrl_table, s ≤ row_score r e a := by
      intro r hr
      obtain ⟨j, hj, rfl⟩ := List.getElem_of_mem hr
      exact hmin j _ (Nat.zero_le _) (by omega) (List.getElem?_eq_getElem hj)
    rcases hcase with ⟨_, hs⟩ | ⟨_, _, _, ⟨r, hr, hrs⟩, _⟩
    · have := hall r0 hr0
      rw [hs] at this
      exact absurd hlt (not_lt.mpr this)
    · rw [List.getElem?_eq_getElem hbl] at hr
      cases hr
      rw [hrs]
      exact hall rj hrj

/-- Two queries that give every row of the block the same score give the same
scan result. -/
theorem scan_rows_congr (tbl : List nrl_row_t) (e1 a1 e2 a2 : ℚ)
    (h : ∀ r ∈ tbl, row_score r e1 a1 = row_score r e2 a2) :
    ∀ (fuel i best : Nat) (bs : ℚ),
      scan_rows tbl e1 a1 fuel i best bs = scan_rows tbl e2 a2 fuel i best bs := by
  intro fuel
  induction fuel with
  | zero => intro i best bs; rfl
  | succ n ih =>
    intro i best bs
    rw [scan_rows, scan_rows]
    cases hi : tbl[i]? with
    | none => rfl
    | some r =>
      have hr : r ∈ tbl := List.getElem?_mem hi
      simp only [h r hr, ih]

/-! ## The ingest loop -/

/-- The block is empty when the loop of `load_nrl_csv` starts. -/
theorem freed_table_nil (st : NrlStore) :
    (if st.nrl_table.isEmpty = false then
        ({ st with nrl_table := [], nrl_table_len := 0 } : NrlStore)
      else st).nrl_table = [] := by
  cases h : st.nrl_table with
  | nil => simp [h]
  | cons a l => simp

/-- When the allocations it needs succeed, the loop appends to the block, in
file order, one row for every buffer that passes the two tests, and counts
them. -/
theorem load_rows_complete (libc : Libc) :
    ∀ (lines : List (List Char)) (tbl : List nrl_row_t) (cap : Nat),
      tbl.length = cap →
      (∀ k, cap < k → k ≤ cap + (lines.filter (is_data_row libc)).length →
        libc.realloc k = true) →
      load_rows libc lines tbl cap
        = some (tbl ++ (lines.filter (is_data_row libc)).map
                  (fun l => make_row libc (libc.sscanf l)),
                cap + (lines.filter (is_data_row libc)).length) := by
  intro lines
  induction lines with
  | nil => intro tbl cap _ _; simp [load_rows]
  | cons line rest ih =>
    intro tbl cap hlen halloc
    rw [load_rows]
    by_cases hskip : is_skipped line = true
    · have hrow : is_data_row libc line = false := by simp [is_data_row, hskip]
      rw [if_pos hskip, List.filter_cons_of_neg (by simp [hrow])]
      rw [List.filter_cons_of_neg (by simp [hrow])] at halloc
      exact ih tbl cap hlen halloc
    · rw [if_neg hskip]
      simp only
      by_cases hgot : (libc.sscanf line).got < 14
      · have hrow : is_data_row libc line = false := by
          simp [is_data_row, hgot]
        rw [if_pos hgot, List.filter_cons_of_neg (by simp [hrow])]
        rw [List.filter_cons_of_neg (by simp [hrow])] at halloc
        exact ih tbl cap hlen halloc
      · have hrow : is_data_row libc line = true := by
          simp [is_data_row, hskip, not_lt.mp hgot]
        rw [List.filter_cons_of_pos hrow] at halloc ⊢
        have h1 : libc.realloc (cap + 1) = true :=
          halloc (cap + 1) (by omega) (by simp)
        rw [if_neg hgot, if_pos h1, List.take_of_length_le (by omega)]
        rw [ih (tbl ++ [make_row libc (libc.sscanf line)]) (cap + 1) (by simp [hlen])
          (fun k hk1 hk2 => halloc k (by omega) (by simp at hk2 ⊢; omega))]
        simp [Nat.add_assoc, Nat.add_comm 1]

/-- A call of `load_nrl_csv` that opens the file and meets no allocation
failure replaces the statics by the rows of the file, their number, and the
flag `number > 0`, which is also the return value. -/
theorem load_nrl_csv_complete (libc : Libc) (path : List Char) (st : NrlStore)
    (lines : List (List Char)) (hopen : libc.fopen path = some lines)
    (halloc : ∀ k, 0 < k → k ≤ (lines.filter (is_data_row libc)).length →
      libc.realloc k = true) :
    load_nrl_csv libc path st
      = ((if (lines.filter (is_data_row libc)).length > 0 then 1 else 0),
         { nrl_table := (lines.filter (is_data_row libc)).map
             (fun l => make_row libc (libc.sscanf l))
           nrl_table_len := (lines.filter (is_data_row libc)).length
           nrl_table_loaded := if (lines.filter (is_data_row libc)).length > 0 then 1 else 0 }) := by
  have h := load_rows_complete libc lines [] 0 rfl (fun k hk1 hk2 => halloc k hk1 (by omega))
  simp only [load_nrl_csv, hopen, freed_table_nil, h]
  simp

/-- The loop keeps the counter equal to the number of rows in the block. -/
theorem load_rows_length (libc : Libc) :
    ∀ (lines : List (List Char)) (tbl : List nrl_row_t) (cap : Nat) (t : List nrl_row_t)
      (c : Nat), tbl.length = cap → load_rows libc lines tbl cap = some (t, c) →
      t.length = c := by
  intro lines
  induction lines with
  | nil =>
    intro tbl cap t c hlen h
    simp only [load_rows, Option.some.injEq, Prod.mk.injEq] at h
    obtain ⟨rfl, rfl⟩ := h
    exact hlen
  | cons line rest ih =>
    intro tbl cap t c hlen h
    rw [load_rows] at h
    split at h
    · exact ih tbl cap t c hlen h
    · simp only at h
      split at h
      · exact ih tbl cap t c hlen h
      · split at h
        · exact ih _ _ t c (by simp [hlen]) h
        · simp at h

/-- Every call of `load_nrl_csv` keeps `nrl_table_len` equal to the number of
rows in the block and keeps the flag at 1 while there are rows. -/
theorem load_nrl_csv_keeps_length (libc : Libc) (path : List Char) (st : NrlStore)
    (hlen : st.nrl_table_len = st.nrl_table.length)
    (hflag : 0 < st.nrl_table_len → st.nrl_table_loaded = 1) :
    (load_nrl_csv libc path st).2.nrl_table_len = (load_nrl_csv libc path st).2.nrl_table.length ∧
    (0 < (load_nrl_csv libc path st).2.nrl_table_len →
      (load_nrl_csv libc path st).2.nrl_table_loaded = 1) := by
  unfold load_nrl_csv
  cases hopen : libc.fopen path with
  | none => exact ⟨hlen, hflag⟩
  | some lines =>
    simp only
    have hnil := freed_table_nil st
    have hzero : (if st.nrl_table.isEmpty = false then
        ({ st with nrl_table := [], nrl_table_len := 0 } : NrlStore) else st).nrl_table_len
        = 0 := by
      cases h : st.nrl_table with
      | nil => simp [h, hlen]
      | cons a l => simp
    rw [hnil]
    cases hrows : load_rows libc lines [] 0 with
    | none => simp [hzero]
    | some p =>
      obtain ⟨t, c⟩ := p
      have := load_rows_length libc lines [] 0 t c rfl hrows
      simp only
      refine ⟨this.symm, ?_⟩
      intro hc
      simp [hc]

/-- When the loop ends without the early return, every allocation it asked
for has succeeded. -/
theorem load_rows_allocs (libc : Libc) :
    ∀ (lines : List (List Char)) (tbl : List nrl_row_t) (cap : Nat)
      (p : List nrl_row_t × Nat), load_rows libc lines tbl cap = some p →
      ∀ k, cap < k → k ≤ cap + (lines.filter (is_data_row libc)).length →
        libc.realloc k = true := by
  intro lines
  induction lines with
  | nil =>
    intro tbl cap p _ k hk1 hk2
    simp at hk2
    omega
  | cons line rest ih =>
    intro tbl cap p h k hk1 hk2
    rw [load_rows] at h
    by_cases hskip : is_skipped line = true
    · have hrow : is_data_row libc line = false := by simp [is_data_row, hskip]
      rw [if_pos hskip] at h
      rw [List.filter_cons_of_neg (by simp [hrow])] at hk2
      exact ih tbl cap p h k hk1 hk2
    · rw [if_neg hskip] at h
      simp only at h
      by_cases hgot : (libc.sscanf line).got < 14
      · have hrow : is_data_row libc line = false := by simp [is_data_row, hgot]
        rw [if_pos hgot] at h
        rw [List.filter_cons_of_neg (by simp [hrow])] at hk2
        exact ih tbl cap p h k hk1 hk2
      · have hrow : is_data_row libc line = true := by
          simp [is_data_row, hskip, not_lt.mp hgot]
        rw [if_neg hgot] at h
        rw [List.filter_cons_of_pos hrow] at hk2
        by_cases hre : libc.realloc (cap + 1) = true
        · rw [if_pos hre] at h
          rcases Nat.eq_or_lt_of_le (Nat.succ_le_of_lt hk1) with heq | hgt
          · rw [← heq]; exact hre
          · exact ih _ (cap + 1) p h k hgt (by simp at hk2; omega)
        · rw [if_neg hre] at h
          simp at h

/-- A call runs to completion exactly when the file opens and every
allocation the loop asks for succeeds. -/
theorem runs_to_completion_iff (libc : Libc) (path : List Char) :
    runs_to_completion libc path = true ↔
      ∃ lines, libc.fopen path = some lines ∧
        ∀ k, 0 < k → k ≤ (lines.filter (is_data_row libc)).length → libc.realloc k = true := by
  unfold runs_to_completion
  cases hopen : libc.fopen path with
  | none => simp
  | some lines =>
    simp only [Option.some.injEq, exists_eq_left']
    constructor
    · intro h
      obtain ⟨p, hp⟩ := Option.isSome_iff_exists.mp h
      intro k hk1 hk2
      exact load_rows_allocs libc lines [] 0 p hp k hk1 (by omega)
    · intro h
      rw [load_rows_complete libc lines [] 0 rfl (fun k hk1 hk2 => h k hk1 (by omega))]
      rfl

/-- The return value of `load_nrl_csv` is 0 or 1, and it is 1 exactly when the
file opens, no allocation fails and at least one buffer is a data row. -/
theorem load_nrl_csv_return (libc : Libc) (path : List Char) (st : NrlStore) :
    ((load_nrl_csv libc path st).1 = 0 ∨ (load_nrl_csv libc path st).1 = 1) ∧
    ((load_nrl_csv libc path st).1 = 1 ↔
      ∃ lines, libc.fopen path = some lines ∧
        0 < (lines.filter (is_data_row libc)).length ∧
        ∀ k, 0 < k → k ≤ (lines.filter (is_data_row libc)).length →
          libc.realloc k = true) := by
  cases hopen : libc.fopen path with
  | none => simp [load_nrl_csv, hopen]
  | some lines =>
    by_cases hall : ∀ k, 0 < k → k ≤ (lines.filter (is_data_row libc)).length →
        libc.realloc k = true
    · by_cases hpos : 0 < (lines.filter (is_data_row libc)).length
      · have hv : (load_nrl_csv libc path st).1 = 1 := by
          rw [load_nrl_csv_complete libc path st lines hopen hall]
          simp [hpos]
        exact ⟨Or.inr hv, fun _ => ⟨lines, rfl, hpos, hall⟩, fun _ => hv⟩
      · have hv : (load_nrl_csv libc path st).1 = 0 := by
          rw [load_nrl_csv_complete libc path st lines hopen hall]
          simp [hpos]
        refine ⟨Or.inl hv, fun h => ?_, fun h => ?_⟩
        · rw [hv] at h; exact absurd h (by decide)
        · obtain ⟨l, hl, hl0, _⟩ := h
          cases hl
          exact absurd hl0 hpos
    · have hnone : load_rows libc lines [] 0 = none := by
        cases h : load_rows libc lines [] 0 with
        | none => rfl
        | some p =>
          exact absurd (fun k hk1 hk2 =>
            load_rows_allocs libc lines [] 0 p h k hk1 (by omega)) hall
      have hv : (load_nrl_csv libc path st).1 = 0 := by
        simp only [load_nrl_csv, hopen, freed_table_nil, hnone]
      refine ⟨Or.inl hv, fun h => ?_, fun h => ?_⟩
      · rw [hv] at h; exact absurd h (by decide)
      · obtain ⟨l, hl, _, hl2⟩ := h
        cases hl
        exact absurd hl2 hall

/-- The control flow of the loop does not depend on `strptime` and `timegm`:
two libraries that agree on `sscanf` and `realloc` end the loop the same way
and with the same counter. -/
theorem load_rows_counter_indep (libc libc2 : Libc)
    (hs : libc2.sscanf = libc.sscanf) (hr : libc2.realloc = libc.realloc) :
    ∀ (lines : List (List Char)) (tbl tbl2 : List nrl_row_t) (cap : Nat),
      (load_rows libc2 lines tbl2 cap).map Prod.snd
        = (load_rows libc lines tbl cap).map Prod.snd := by
  intro lines
  induction lines with
  | nil => intro tbl tbl2 cap; rfl
  | cons line rest ih =>
    intro tbl tbl2 cap
    rw [load_rows, load_rows, hs, hr]
    by_cases hskip : is_skipped line = true
    · rw [if_pos hskip, if_pos hskip]; exact ih tbl tbl2 cap
    · rw [if_neg hskip, if_neg hskip]
      simp only
      by_cases hgot : (libc.sscanf line).got < 14
      · rw [if_pos hgot, if_pos hgot]; exact ih tbl tbl2 cap
      · rw [if_neg hgot, if_neg hgot]
        by_cases hre : libc.realloc (cap + 1) = true
        · rw [if_pos hre, if_pos hre]; exact ih _ _ (cap + 1)
        · rw [if_neg hre, if_neg hre]

/-- The return value, the length and the flag that `load_nrl_csv` leaves do not
depend on `strptime` and `timegm`. -/
theorem load_nrl_csv_counter_indep (libc libc2 : Libc) (path : List Char) (st : NrlStore)
    (hf : libc2.fopen = libc.fopen) (hs : libc2.sscanf = libc.sscanf)
    (hr : libc2.realloc = libc.realloc) :
    (load_nrl_csv libc2 path st).1 = (load_nrl_csv libc path st).1 ∧
    (load_nrl_csv libc2 path st).2.nrl_table_len = (load_nrl_csv libc path st).2.nrl_table_len ∧
    (load_nrl_csv libc2 path st).2.nrl_table_loaded
      = (load_nrl_csv libc path st).2.nrl_table_loaded ∧
    (load_nrl_csv libc2 path st).2.nrl_table.length
      = (load_nrl_csv libc path st).2.nrl_table.length := by
  unfold load_nrl_csv
  rw [hf]
  cases hopen : libc.fopen path with
  | none => exact ⟨rfl, rfl, rfl, rfl⟩
  | some lines =>
    simp only [freed_table_nil]
    have h := load_rows_counter_indep libc libc2 hs hr lines [] [] 0
    cases h1 : load_rows libc lines [] 0 with
    | none =>
      rw [h1] at h
      cases h2 : load_rows libc2 lines [] 0 with
      | none => exact ⟨rfl, rfl, rfl, rfl⟩
      | some p => rw [h2] at h; simp at h
    | some p =>
      rw [h1] at h
      cases h2 : load_rows libc2 lines [] 0 with
      | none => rw [h2] at h; simp at h
      | some p2 =>
        rw [h2] at h
        obtain ⟨t, c⟩ := p
        obtain ⟨t2, c2⟩ := p2
        simp only [Option.map_some', Option.some.injEq] at h
        subst h
        have e1 := load_rows_length libc lines [] 0 t _ rfl h1
        have e2 := load_rows_length libc2 lines [] 0 t2 _ rfl h2
        exact ⟨rfl, rfl, rfl, by simp only; rw [e1, e2]⟩

/-- A call that runs to completion leaves statics that do not depend on the
statics before the call. -/
theorem load_complete_forgets (libc : Libc) (path : List Char) (st st2 : NrlStore)
    (h : runs_to_completion libc path = true) :
    load_nrl_csv libc path st = load_nrl_csv libc path st2 := by
  obtain ⟨lines, hopen, halloc⟩ := (runs_to_completion_iff libc path).mp h
  rw [load_nrl_csv_complete libc path st lines hopen halloc,
    load_nrl_csv_complete libc path st2 lines hopen halloc]

/-- In every state reached by calls that run to completion the length field is
the number of rows in the block and the flag is 1 exactly when there is a
row, and 0 otherwise. -/
theorem reachable_complete_inv (st : NrlStore) (h : ReachableComplete st) :
    st.nrl_table_len = st.nrl_table.length ∧
    (st.nrl_table_loaded = 1 ↔ 0 < st.nrl_table_len) ∧
    (st.nrl_table_loaded = 0 ∨ st.nrl_table_loaded = 1) := by
  induction h with
  | init => exact ⟨rfl, by decide, Or.inl rfl⟩
  | not_opened libc path st _ hopen ih =>
    have : (load_nrl_csv libc path st).2 = st := by simp [load_nrl_csv, hopen]
    rw [this]; exact ih
  | load libc path st _ hdone _ =>
    obtain ⟨lines, hopen, halloc⟩ := (runs_to_completion_iff libc path).mp hdone
    rw [load_nrl_csv_complete libc path st lines hopen halloc]
    by_cases hpos : 0 < (lines.filter (is_data_row libc)).length
    · simp [hpos]
    · simp [hpos]

/-! ## The query result and the table attempt -/

/-- The buffer `one_row_line` is not skipped at line 95. -/
theorem one_row_line_not_skipped : is_skipped one_row_line = false := by decide

/-- A hit of `lookup_nrl_values` carries the values of one row in the order of
`dens_out`. -/
theorem lookup_hit_form (st : NrlStore) (e lat lon a : ℚ) (od ot : List ℚ) (lk : Lookup)
    (h : lookup_nrl_values st e lat lon a od ot = some lk) (hs : lk.status ≠ 0) :
    ∃ r, lk = { status := 1, out_dens := canonical_dens r, out_temps := canonical_temps r } := by
  unfold lookup_nrl_values at h
  split at h
  · simp only [Option.some.injEq] at h
    subst h
    simp at hs
  · split at h
    · simp at h
    · split at h
      · simp at h
      · rename_i r _
        simp only [Option.some.injEq] at h
        exact ⟨r, h.symm⟩

/-- The function `lookup_nrl_values` returns 0 only when the flag
`nrl_table_loaded` is 0, and then leaves the output arrays as they are. -/
theorem lookup_miss_form (st : NrlStore) (e lat lon a : ℚ) (od ot : List ℚ) (lk : Lookup)
    (h : lookup_nrl_values st e lat lon a od ot = some lk) (hs : lk.status = 0) :
    st.nrl_table_loaded = 0 ∧ lk = { status := 0, out_dens := od, out_temps := ot } := by
  unfold lookup_nrl_values at h
  split at h
  · rename_i h0
    simp only [Option.some.injEq] at h
    exact ⟨h0, h.symm⟩
  · split at h
    · simp at h
    · split at h
      · simp at h
      · simp only [Option.some.injEq] at h
        subst h
        simp at hs

/-- The lazy load changes nothing but the statics of the table and the call
record, to which it adds at most the call of `load_nrl_csv`. -/
theorem lazy_load_frame (libc : Libc) (g : Globals) :
    gts_args (lazy_load libc g) = gts_args g ∧
    (lazy_load libc g).neutdens_msise90 = g.neutdens_msise90 ∧
    (lazy_load libc g).neutdens_msis86 = g.neutdens_msis86 ∧
    (lazy_load libc g).data_path = g.data_path ∧
    (lazy_load libc g).data_path_len = g.data_path_len ∧
    model_calls (lazy_load libc g).calls = model_calls g.calls := by
  unfold lazy_load
  split
  · refine ⟨rfl, rfl, rfl, rfl, rfl, ?_⟩
    simp [model_calls]
  · exact ⟨rfl, rfl, rfl, rfl, rfl, rfl⟩

/-- The table attempt after a hit. -/
theorem table_attempt_hit (libc : Libc) (host : Host) (miss : Globals → Globals)
    (g : Globals) (lk : Lookup)
    (hq : query_table host (lazy_load libc g) = some lk) (hs : lk.status ≠ 0) :
    table_attempt libc host miss g
      = some (use_table host
          { lazy_load libc g with
            calls := (lazy_load libc g).calls ++ [Call.lookup_nrl_values] } lk) := by
  have hq2 : query_table host
      { lazy_load libc g with calls := (lazy_load libc g).calls ++ [Call.lookup_nrl_values] }
      = some lk := hq
  simp only [table_attempt, hq2, hs, ne_eq, not_false_eq_true, if_true]

/-- The table attempt after a miss. -/
theorem table_attempt_miss (libc : Libc) (host : Host) (miss : Globals → Globals)
    (g : Globals) (lk : Lookup)
    (hq : query_table host (lazy_load libc g) = some lk) (hs : lk.status = 0) :
    table_attempt libc host miss g
      = some (miss
          { lazy_load libc g with
            calls := (lazy_load libc g).calls ++ [Call.lookup_nrl_values] }) := by
  have hq2 : query_table host
      { lazy_load libc g with calls := (lazy_load libc g).calls ++ [Call.lookup_nrl_values] }
      = some lk := hq
  simp only [table_attempt, hq2, hs, ne_eq, not_true_eq_false, if_false]

/-- The eight converted slots of an array of eight values. -/
theorem range_eight_map (f : ℚ → ℚ) (l : List ℚ) (h : l.length = 8) :
    (List.range 8).map (fun i => f (l.getD i 0)) = l.map f := by
  match l, h with
  | [a0, a1, a2, a3, a4, a5, a6, a7], _ => rfl

/-! ## One step and runs of steps -/

/-- The lazy load either leaves the globals as they are or, with the flag at
0, replaces the statics by those `load_nrl_csv` leaves and records the call. -/
theorem lazy_load_cases (libc : Libc) (g : Globals) :
    lazy_load libc g = g ∨
    (g.nrl.nrl_table_loaded = 0 ∧
      lazy_load libc g
        = { g with
            nrl := (load_nrl_csv libc g.nrlmsis_datafile g.nrl).2
            calls := g.calls ++ [Call.load_nrl_csv] }) := by
  unfold lazy_load
  split
  · rename_i h; exact Or.inr ⟨h.1, rfl⟩
  · exact Or.inl rfl

/-- With the flag set the lazy load does nothing. -/
theorem lazy_load_loaded (libc : Libc) (g : Globals) (h : g.nrl.nrl_table_loaded ≠ 0) :
    lazy_load libc g = g := by
  unfold lazy_load
  rw [if_neg (fun hc => h hc.1)]

/-- A call of `load_nrl_csv` made with the flag at 0 leaves consistent
statics. -/
theorem load_nrl_csv_store_ok (libc : Libc) (path : List Char) (st : NrlStore)
    (hok : store_ok st) (h0 : st.nrl_table_loaded = 0) :
    store_ok (load_nrl_csv libc path st).2 := by
  unfold load_nrl_csv
  cases hopen : libc.fopen path with
  | none => exact hok
  | some lines =>
    simp only
    have hnil := freed_table_nil st
    have hzero : (if st.nrl_table.isEmpty = false then
        ({ st with nrl_table := [], nrl_table_len := 0 } : NrlStore) else st).nrl_table_len
        = 0 := by
      cases h : st.nrl_table with
      | nil => simp [h, hok.1]
      | cons a l => simp
    have hflag : (if st.nrl_table.isEmpty = false then
        ({ st with nrl_table := [], nrl_table_len := 0 } : NrlStore)
        else st).nrl_table_loaded = 0 := by
      split <;> exact h0
    rw [hnil]
    cases hrows : load_rows libc lines [] 0 with
    | none =>
      refine ⟨?_, ?_⟩
      · simp [hzero]
      · intro hc; exact absurd hflag hc
    | some p =>
      obtain ⟨t, c⟩ := p
      have := load_rows_length libc lines [] 0 t c rfl hrows
      refine ⟨this.symm, ?_⟩
      intro hc
      by_cases hpos : 0 < c
      · exact hpos
      · simp [hpos] at hc

/-- The lazy load keeps the statics consistent. -/
theorem lazy_load_store_ok (libc : Libc) (g : Globals) (hok : store_ok g.nrl) :
    store_ok (lazy_load libc g).nrl := by
  rcases lazy_load_cases libc g with h | ⟨h0, h⟩
  · rw [h]; exact hok
  · rw [h]; exact load_nrl_csv_store_ok libc _ _ hok h0

/-- On consistent statics the query returns. -/
theorem query_table_total (host : Host) (g : Globals) (hok : store_ok g.nrl) :
    ∃ lk, query_table host g = some lk := by
  unfold query_table
  by_cases hl : g.nrl.nrl_table_loaded = 0
  · exact ⟨{ status := 0, out_dens := List.replicate 8 0, out_temps := List.replicate 2 0 },
      by simp [lookup_nrl_values, hl]⟩
  · obtain ⟨b, r, _, _, _, hlk, _⟩ := lookup_loaded g.nrl (host.GMT_Secs g.curr_gmt)
      (g.sat_r_lla.Lat * host.R_D_CONST)
      (if g.sat_r_lla.Long < 0 then g.sat_r_lla.Long * host.R_D_CONST + 360
       else g.sat_r_lla.Long * host.R_D_CONST)
      g.sat_r_lla.Alt (List.replicate 8 0) (List.replicate 2 0) hl hok.1 (hok.2 hl)
    exact ⟨_, hlk⟩

/-- The choice of the source either calls one model directly or makes the table
attempt with one model as the fallback. -/
theorem select_model_cases (libc : Libc) (host : Host) (g : Globals) :
    select_model libc host g = some (use_msise90 host g) ∨
    select_model libc host g = some (use_msis86 host g) ∨
    select_model libc host g = table_attempt libc host (use_msise90 host) g ∨
    select_model libc host g = table_attempt libc host (use_msis86 host) g := by
  unfold select_model
  split
  · split
    · exact Or.inr (Or.inr (Or.inl rfl))
    · exact Or.inl rfl
  · split
    · split
      · exact Or.inr (Or.inr (Or.inr rfl))
      · exact Or.inr (Or.inl rfl)
    · split
      · split
        · exact Or.inr (Or.inr (Or.inl rfl))
        · exact Or.inl rfl
      · exact Or.inr (Or.inl rfl)

/-- What the lazy load and the recorded query change: the statics (only by a
call of `load_nrl_csv` made with the flag at 0) and the call record. -/
theorem after_query_facts (libc : Libc) (g : Globals) (hok : store_ok g.nrl) :
    store_ok (after_query libc g).nrl ∧
    (((after_query libc g).nrl = g.nrl ∧
        load_calls (after_query libc g).calls = load_calls g.calls) ∨
      (g.nrl.nrl_table_loaded = 0 ∧
        (after_query libc g).nrl = (load_nrl_csv libc g.nrlmsis_datafile g.nrl).2 ∧
        load_calls (after_query libc g).calls = load_calls g.calls + 1)) ∧
    model_calls (after_query libc g).calls = model_calls g.calls ∧
    gts_args (after_query libc g) = gts_args g ∧
    (after_query libc g).neutdens_msise90 = g.neutdens_msise90 ∧
    (after_query libc g).neutdens_msis86 = g.neutdens_msis86 ∧
    (after_query libc g).data_path = g.data_path ∧
    (after_query libc g).data_path_len = g.data_path_len := by
  have hs : store_ok (after_query libc g).nrl := lazy_load_store_ok libc g hok
  refine ⟨hs, ?_⟩
  unfold after_query
  rcases lazy_load_cases libc g with e | ⟨h0, e⟩
  · rw [e]
    refine ⟨Or.inl ⟨rfl, ?_⟩, ?_, rfl, rfl, rfl, rfl, rfl⟩
    · simp [load_calls]
    · simp [model_calls]
  · rw [e]
    refine ⟨Or.inr ⟨h0, rfl, ?_⟩, ?_, rfl, rfl, rfl, rfl, rfl⟩
    · simp [load_calls]
    · simp [model_calls]

/-- The outputs written after a hit are the values of the query, converted. -/
theorem use_table_outputs (host : Host) (g : Globals) (lk : Lookup) (st : NrlStore)
    (e lat lon a : ℚ) (od ot : List ℚ)
    (hq : lookup_nrl_values st e lat lon a od ot = some lk) (hhit : lk.status ≠ 0) :
    (use_table host g lk).dens_out = lk.out_dens.map host.toReal ∧
    (use_table host g lk).temp_out = lk.out_temps.map host.toReal := by
  obtain ⟨r, hr⟩ := lookup_hit_form st e lat lon a od ot lk hq hhit
  constructor
  · exact range_eight_map host.toReal lk.out_dens (by rw [hr]; rfl)
  · show [host.toReal (lk.out_temps.getD 0 0), host.toReal (lk.out_temps.getD 1 0)]
      = lk.out_temps.map host.toReal
    rw [hr]; rfl

/-- A step that calls `gts6_` directly. -/
theorem step_direct_msise90 (libc : Libc) (host : Host) (g : Globals) (hok : store_ok g.nrl) :
    step_post libc host g (publish (use_msise90 host (set_inputs host g))) := by
  refine ⟨hok, Or.inl ⟨rfl, ?_⟩, Or.inr (Or.inl ⟨rfl, ?_, rfl⟩)⟩
  · show load_calls (g.calls ++ [Call.gts6_]) = load_calls g.calls
    simp [load_calls]
  · show model_calls (g.calls ++ [Call.gts6_]) = model_calls g.calls ++ [Call.gts6_]
    simp [model_calls]

/-- A step that calls `gts5_` directly. -/
theorem step_direct_msis86 (libc : Libc) (host : Host) (g : Globals) (hok : store_ok g.nrl) :
    step_post libc host g (publish (use_msis86 host (set_inputs host g))) := by
  refine ⟨hok, Or.inl ⟨rfl, ?_⟩, Or.inr (Or.inr ⟨rfl, ?_, rfl⟩)⟩
  · show load_calls (g.calls ++ [Call.gts5_]) = load_calls g.calls
    simp [load_calls]
  · show model_calls (g.calls ++ [Call.gts5_]) = model_calls g.calls ++ [Call.gts5_]
    simp [model_calls]

/-- A step whose table attempt hits. -/
theorem step_table_hit (libc : Libc) (host : Host) (g : Globals) (lk : Lookup)
    (hok : store_ok g.nrl)
    (hq : query_table host (lazy_load libc (set_inputs host g)) = some lk)
    (hhit : lk.status ≠ 0) :
    step_post libc host g
      (publish (use_table host (after_query libc (set_inputs host g)) lk)) := by
  obtain ⟨hsq, hnrl, hmc, _⟩ := after_query_facts libc (set_inputs host g) hok
  obtain ⟨hd, ht⟩ := use_table_outputs host (after_query libc (set_inputs host g)) lk
    _ _ _ _ _ _ _ hq hhit
  exact ⟨hsq, hnrl, Or.inl ⟨rfl, hmc, lk, hq, hhit, hd, ht⟩⟩

/-- A step whose table attempt misses and falls back to `gts6_`. -/
theorem step_table_miss_msise90 (libc : Libc) (host : Host) (g : Globals)
    (hok : store_ok g.nrl) :
    step_post libc host g
      (publish (use_msise90 host (after_query libc (set_inputs host g)))) := by
  obtain ⟨hsq, hnrl, hmc, hargs, h90, _, _, _⟩ :=
    after_query_facts libc (set_inputs host g) hok
  refine ⟨hsq, ?_, Or.inr (Or.inl ⟨h90, ?_, ?_⟩)⟩
  · rcases hnrl with ⟨h1, h2⟩ | ⟨h0, h1, h2⟩
    · refine Or.inl ⟨h1, ?_⟩
      show load_calls ((after_query libc (set_inputs host g)).calls ++ [Call.gts6_]) = _
      simp only [load_calls, List.count_append] at h2 ⊢
      rw [h2]; simp [set_inputs]
    · refine Or.inr ⟨h0, h1, ?_⟩
      show load_calls ((after_query libc (set_inputs host g)).calls ++ [Call.gts6_]) = _
      simp only [load_calls, List.count_append] at h2 ⊢
      rw [h2]; simp [set_inputs]
  · show model_calls ((after_query libc (set_inputs host g)).calls ++ [Call.gts6_]) = _
    simp only [model_calls, List.filter_append] at hmc ⊢
    rw [hmc]; simp [set_inputs]
  · show (_, _) = host.gts6_ (gts_args (set_inputs host g))
    rw [← hargs]; rfl

/-- A step whose table attempt misses and falls back to `gts5_`. -/
theorem step_table_miss_msis86 (libc : Libc) (host : Host) (g : Globals)
    (hok : store_ok g.nrl) :
    step_post libc host g
      (publish (use_msis86 host (after_query libc (set_inputs host g)))) := by
  obtain ⟨hsq, hnrl, hmc, hargs, _, h86, hdp, hdl⟩ :=
    after_query_facts libc (set_inputs host g) hok
  refine ⟨hsq, ?_, Or.inr (Or.inr ⟨h86, ?_, ?_⟩)⟩
  · rcases hnrl with ⟨h1, h2⟩ | ⟨h0, h1, h2⟩
    · refine Or.inl ⟨h1, ?_⟩
      show load_calls ((after_query libc (set_inputs host g)).calls ++ [Call.gts5_]) = _
      simp only [load_calls, List.count_append] at h2 ⊢
      rw [h2]; simp [set_inputs]
    · refine Or.inr ⟨h0, h1, ?_⟩
      show load_calls ((after_query libc (set_inputs host g)).calls ++ [Call.gts5_]) = _
      simp only [load_calls, List.count_append] at h2 ⊢
      rw [h2]; simp [set_inputs]
  · show model_calls ((after_query libc (set_inputs host g)).calls ++ [Call.gts5_]) = _
    simp only [model_calls, List.filter_append] at hmc ⊢
    rw [hmc]; simp [set_inputs]
  · show (_, _) = host.gts5_ g.data_path (gts_args (set_inputs host g)) g.data_path_len
    have e1 : g.data_path = (after_query libc (set_inputs host g)).data_path := hdp.symm
    have e2 : g.data_path_len = (after_query libc (set_inputs host g)).data_path_len :=
      hdl.symm
    rw [← hargs, e1, e2]; rfl

/-- One step on consistent statics returns, and its result satisfies
`step_post`. -/
theorem step_summary (libc : Libc) (host : Host) (g : Globals) (hok : store_ok g.nrl) :
    ∃ g2, compute_neutral_densities libc host g = some g2 ∧ step_post libc host g g2 := by
  have hoki : store_ok (set_inputs host g).nrl := hok
  obtain ⟨lk, hq⟩ := query_table_total host (lazy_load libc (set_inputs host g))
    (lazy_load_store_ok libc _ hoki)
  have htab : ∀ miss : Globals → Globals,
      (table_attempt libc host miss (set_inputs host g)).map publish
        = some (publish (use_table host (after_query libc (set_inputs host g)) lk)) ∧
        lk.status ≠ 0 ∨
      (table_attempt libc host miss (set_inputs host g)).map publish
        = some (publish (miss (after_query libc (set_inputs host g)))) := by
    intro miss
    by_cases hs : lk.status = 0
    · right
      rw [table_attempt_miss libc host miss _ lk hq hs]; rfl
    · left
      exact ⟨by rw [table_attempt_hit libc host miss _ lk hq hs]; rfl, hs⟩
  unfold compute_neutral_densities
  rcases select_model_cases libc host (set_inputs host g) with h | h | h | h
  · rw [h]; exact ⟨_, rfl, step_direct_msise90 libc host g hok⟩
  · rw [h]; exact ⟨_, rfl, step_direct_msis86 libc host g hok⟩
  · rw [h]
    rcases htab (use_msise90 host) with ⟨e, hs⟩ | e
    · exact ⟨_, e, step_table_hit libc host g lk hok hq hs⟩
    · exact ⟨_, e, step_table_miss_msise90 libc host g hok⟩
  · rw [h]
    rcases htab (use_msis86 host) with ⟨e, hs⟩ | e
    · exact ⟨_, e, step_table_hit libc host g lk hok hq hs⟩
    · exact ⟨_, e, step_table_miss_msis86 libc host g hok⟩

/-- The choice of the source leaves the flux, the speed and the time step as
they are. -/
theorem select_model_frame (libc : Libc) (host : Host) (g gm : Globals)
    (h : select_model libc host g = some gm) :
    gm.cum_flux_ao = g.cum_flux_ao ∧ gm.sat_v_eci_mag = g.sat_v_eci_mag ∧
    gm.incr_time = g.incr_time := by
  have hlz : (after_query libc g).cum_flux_ao = g.cum_flux_ao ∧
      (after_query libc g).sat_v_eci_mag = g.sat_v_eci_mag ∧
      (after_query libc g).incr_time = g.incr_time := by
    unfold after_query
    rcases lazy_load_cases libc g with e | ⟨_, e⟩ <;> rw [e] <;> exact ⟨rfl, rfl, rfl⟩
  have htab : ∀ miss : Globals → Globals,
      (∀ x : Globals, (miss x).cum_flux_ao = x.cum_flux_ao ∧
        (miss x).sat_v_eci_mag = x.sat_v_eci_mag ∧ (miss x).incr_time = x.incr_time) →
      table_attempt libc host miss g = some gm →
      gm.cum_flux_ao = g.cum_flux_ao ∧ gm.sat_v_eci_mag = g.sat_v_eci_mag ∧
        gm.incr_time = g.incr_time := by
    intro miss hmiss ht
    have ht2 : (match query_table host (after_query libc g) with
        | none => none
        | some lk => if lk.status ≠ 0 then some (use_table host (after_query libc g) lk)
            else some (miss (after_query libc g))) = some gm := ht
    cases hq : query_table host (after_query libc g) with
    | none => rw [hq] at ht2; simp at ht2
    | some lk =>
      rw [hq] at ht2
      simp only at ht2
      split at ht2
      · simp only [Option.some.injEq] at ht2
        subst ht2
        exact hlz
      · simp only [Option.some.injEq] at ht2
        subst ht2
        obtain ⟨a, b, c⟩ := hmiss (after_query libc g)
        exact ⟨a.trans hlz.1, b.trans hlz.2.1, c.trans hlz.2.2⟩
  rcases select_model_cases libc host g with e | e | e | e
  · rw [e] at h; simp only [Option.some.injEq] at h; subst h; exact ⟨rfl, rfl, rfl⟩
  · rw [e] at h; simp only [Option.some.injEq] at h; subst h; exact ⟨rfl, rfl, rfl⟩
  · rw [e] at h; exact htab (use_msise90 host) (fun _ => ⟨rfl, rfl, rfl⟩) h
  · rw [e] at h; exact htab (use_msis86 host) (fun _ => ⟨rfl, rfl, rfl⟩) h

/-- The flux after a step that returns: the update of line 359, evaluated in
`double` arithmetic from left to right. -/
theorem compute_flux (libc : Libc) (host : Host) (g g2 : Globals)
    (h : compute_neutral_densities libc host g = some g2) :
    g2.cum_flux_ao
      = Dbl.add g.cum_flux_ao
          (Dbl.mul (Dbl.mul (Dbl.mul (Dbl.fin g2.neutdens_numb_o) (Dbl.fin g.sat_v_eci_mag))
            (Dbl.fin g.incr_time)) (Dbl.fin (24 * 60 * 60))) := by
  unfold compute_neutral_densities at h
  cases hs : select_model libc host (set_inputs host g) with
  | none => rw [hs] at h; simp at h
  | some gm =>
    rw [hs] at h
    simp only [Option.map_some', Option.some.injEq] at h
    subst h
    obtain ⟨h1, h2, h3⟩ := select_model_frame libc host _ gm hs
    show Dbl.add gm.cum_flux_ao
        (Dbl.mul (Dbl.mul (Dbl.mul (Dbl.fin (gm.dens_out.getD 1 0)) (Dbl.fin gm.sat_v_eci_mag))
          (Dbl.fin gm.incr_time)) (Dbl.fin (24 * 60 * 60)))
      = Dbl.add (set_inputs host g).cum_flux_ao
        (Dbl.mul (Dbl.mul (Dbl.mul (Dbl.fin (gm.dens_out.getD 1 0))
          (Dbl.fin (set_inputs host g).sat_v_eci_mag))
          (Dbl.fin (set_inputs host g).incr_time)) (Dbl.fin (24 * 60 * 60)))
    rw [h1, h2, h3]

/-- A run on consistent statics returns; the statics stay consistent; every
step adds at most one call of `load_nrl_csv`; and with the flag set at the
start the statics never change and no call of `load_nrl_csv` is made. -/
theorem run_steps_summary :
    ∀ (inputs : List StepInput) (g : Globals), store_ok g.nrl →
      ∃ g2, run_steps inputs g = some g2 ∧ store_ok g2.nrl ∧
        load_calls g2.calls ≤ load_calls g.calls + inputs.length ∧
        (g.nrl.nrl_table_loaded ≠ 0 →
          g2.nrl = g.nrl ∧ load_calls g2.calls = load_calls g.calls) := by
  intro inputs
  induction inputs with
  | nil => intro g hok; exact ⟨g, rfl, hok, by simp, fun _ => ⟨rfl, rfl⟩⟩
  | cons i rest ih =>
    intro g hok
    have hoke : store_ok (enter_step i g).nrl := hok
    obtain ⟨g1, hstep, hok1, hchg, _⟩ := step_summary i.libc i.host (enter_step i g) hoke
    obtain ⟨g2, hrun, hok2, hcnt, hkeep⟩ := ih g1 hok1
    have hn : (enter_step i g).nrl = g.nrl := rfl
    have hc : (enter_step i g).calls = g.calls := rfl
    rw [hn, hc] at hchg
    refine ⟨g2, ?_, hok2, ?_, ?_⟩
    · simp only [run_steps, hstep]; exact hrun
    · simp only [List.length_cons]
      rcases hchg with ⟨_, h2⟩ | ⟨_, _, h2⟩ <;> omega
    · intro hl
      rcases hchg with ⟨h1, h2⟩ | ⟨h0, _, _⟩
      · obtain ⟨k1, k2⟩ := hkeep (by rw [h1]; exact hl)
        exact ⟨k1.trans h1, k2.trans h2⟩
      · exact absurd h0 hl

/-- In the three branches that try the table, with the table source enabled,
the choice of the source is the table attempt with one of the two models as
the fallback. -/
theorem select_model_table_branch (libc : Libc) (host : Host) (g : Globals)
    (hon : g.use_nrlmsis ≠ 0)
    (hbranch : g.altitude < 85 ∨ g.altitude > 400 ∨
      (85 ≤ g.altitude ∧ g.altitude ≤ 400 ∧ g.neutdens_prefer_msise_90 ≠ 0)) :
    select_model libc host g = table_attempt libc host (use_msise90 host) g ∨
    select_model libc host g = table_attempt libc host (use_msis86 host) g := by
  unfold select_model
  rcases hbranch with h | h | ⟨h1, h2, h3⟩
  · left; rw [if_pos h, if_pos hon]
  · have hn : ¬ g.altitude < 85 := by intro h'; linarith
    right; rw [if_neg hn, if_pos h, if_pos hon]
  · left; rw [if_neg (not_lt.mpr h1), if_neg (not_lt.mpr h2), if_pos h3, if_pos hon]

/-- A step that tries the table while the flag is 0 and a file name is
configured calls `load_nrl_csv` once more. -/
theorem step_retries_load (libc : Libc) (host : Host) (g g2 : Globals)
    (hon : g.use_nrlmsis ≠ 0) (hpath : g.nrlmsis_datafile.length > 0)
    (h0 : g.nrl.nrl_table_loaded = 0)
    (hbranch : host.toReal (g.sat_r_lla.Alt / 1000) < 85 ∨
      host.toReal (g.sat_r_lla.Alt / 1000) > 400 ∨
      (85 ≤ host.toReal (g.sat_r_lla.Alt / 1000) ∧ host.toReal (g.sat_r_lla.Alt / 1000) ≤ 400 ∧
        g.neutdens_prefer_msise_90 ≠ 0))
    (hstep : compute_neutral_densities libc host g = some g2) :
    load_calls g2.calls = load_calls g.calls + 1 ∧
    g2.nrl = (load_nrl_csv libc g.nrlmsis_datafile g.nrl).2 := by
  have hlz : lazy_load libc (set_inputs host g)
      = { set_inputs host g with
          nrl := (load_nrl_csv libc g.nrlmsis_datafile g.nrl).2
          calls := g.calls ++ [Call.load_nrl_csv] } := by
    unfold lazy_load
    rw [if_pos ⟨h0, hpath⟩]
    rfl
  have haq : load_calls (after_query libc (set_inputs host g)).calls = load_calls g.calls + 1 ∧
      (after_query libc (set_inputs host g)).nrl
        = (load_nrl_csv libc g.nrlmsis_datafile g.nrl).2 := by
    unfold after_query
    rw [hlz]
    exact ⟨by simp [load_calls], rfl⟩
  have htab : ∀ miss : Globals → Globals,
      (∀ x : Globals, load_calls (miss x).calls = load_calls x.calls ∧ (miss x).nrl = x.nrl) →
      (table_attempt libc host miss (set_inputs host g)).map publish = some g2 →
      load_calls g2.calls = load_calls g.calls + 1 ∧
        g2.nrl = (load_nrl_csv libc g.nrlmsis_datafile g.nrl).2 := by
    intro miss hmiss ht
    have ht2 : (match query_table host (after_query libc (set_inputs host g)) with
        | none => none
        | some lk =>
          if lk.status ≠ 0 then some (use_table host (after_query libc (set_inputs host g)) lk)
          else some (miss (after_query libc (set_inputs host g)))).map publish = some g2 := ht
    cases hq : query_table host (after_query libc (set_inputs host g)) with
    | none => rw [hq] at ht2; simp at ht2
    | some lk =>
      rw [hq] at ht2
      simp only at ht2
      split at ht2
      · simp only [Option.map_some', Option.some.injEq] at ht2
        subst ht2
        exact haq
      · simp only [Option.map_some', Option.some.injEq] at ht2
        subst ht2
        obtain ⟨a, b⟩ := hmiss (after_query libc (set_inputs host g))
        exact ⟨a.trans haq.1, b.trans haq.2⟩
  have hm6 : ∀ x : Globals, load_calls (use_msise90 host x).calls = load_calls x.calls ∧
      (use_msise90 host x).nrl = x.nrl := by
    intro x
    refine ⟨?_, rfl⟩
    show load_calls (x.calls ++ [Call.gts6_]) = load_calls x.calls
    simp [load_calls]
  have hm5 : ∀ x : Globals, load_calls (use_msis86 host x).calls = load_calls x.calls ∧
      (use_msis86 host x).nrl = x.nrl := by
    intro x
    refine ⟨?_, rfl⟩
    show load_calls (x.calls ++ [Call.gts5_]) = load_calls x.calls
    simp [load_calls]
  unfold compute_neutral_densities at hstep
  rcases select_model_table_branch libc host (set_inputs host g) hon hbranch with e | e
  · rw [e] at hstep; exact htab _ hm6 hstep
  · rw [e] at hstep; exact htab _ hm5 hstep

/-- A step that returns leaves the routing configuration as it is. -/
theorem compute_config (libc : Libc) (host : Host) (g g2 : Globals)
    (h : compute_neutral_densities libc host g = some g2) :
    g2.use_nrlmsis = g.use_nrlmsis ∧ g2.nrlmsis_datafile = g.nrlmsis_datafile ∧
    g2.neutdens_prefer_msise_90 = g.neutdens_prefer_msise_90 := by
  have hlz : (after_query libc (set_inputs host g)).use_nrlmsis = g.use_nrlmsis ∧
      (after_query libc (set_inputs host g)).nrlmsis_datafile = g.nrlmsis_datafile ∧
      (after_query libc (set_inputs host g)).neutdens_prefer_msise_90
        = g.neutdens_prefer_msise_90 := by
    unfold after_query
    rcases lazy_load_cases libc (set_inputs host g) with e | ⟨_, e⟩ <;> rw [e] <;>
      exact ⟨rfl, rfl, rfl⟩
  have htab : ∀ miss : Globals → Globals,
      (∀ x : Globals, (miss x).use_nrlmsis = x.use_nrlmsis ∧
        (miss x).nrlmsis_datafile = x.nrlmsis_datafile ∧
        (miss x).neutdens_prefer_msise_90 = x.neutdens_prefer_msise_90) →
      (table_attempt libc host miss (set_inputs host g)).map publish = some g2 →
      g2.use_nrlmsis = g.use_nrlmsis ∧ g2.nrlmsis_datafile = g.nrlmsis_datafile ∧
        g2.neutdens_prefer_msise_90 = g.neutdens_prefer_msise_90 := by
    intro miss hmiss ht
    have ht2 : (match query_table host (after_query libc (set_inputs host g)) with
        | none => none
        | some lk =>
          if lk.status ≠ 0 then some (use_table host (after_query libc (set_inputs host g)) lk)
          else some (miss (after_query libc (set_inputs host g)))).map publish = some g2 := ht
    cases hq : query_table host (after_query libc (set_inputs host g)) with
    | none => rw [hq] at ht2; simp at ht2
    | some lk =>
      rw [hq] at ht2
      simp only at ht2
      split at ht2
      · simp only [Option.map_some', Option.some.injEq] at ht2
        subst ht2
        exact hlz
      · simp only [Option.map_some', Option.some.injEq] at ht2
        subst ht2
        obtain ⟨a, b, c⟩ := hmiss (after_query libc (set_inputs host g))
        exact ⟨a.trans hlz.1, b.trans hlz.2.1, c.trans hlz.2.2⟩
  unfold compute_neutral_densities at h
  rcases select_model_cases libc host (set_inputs host g) with e | e | e | e
  · rw [e] at h; simp only [Option.map_some', Option.some.injEq] at h; subst h
    exact ⟨rfl, rfl, rfl⟩
  · rw [e] at h; simp only [Option.map_some', Option.some.injEq] at h; subst h
    exact ⟨rfl, rfl, rfl⟩
  · rw [e] at h; exact htab (use_msise90 host) (fun _ => ⟨rfl, rfl, rfl⟩) h
  · rw [e] at h; exact htab (use_msis86 host) (fun _ => ⟨rfl, rfl, rfl⟩) h

/-- A run of at least one step returns exactly when its first step returns and
the rest of the run returns from there. -/
theorem run_steps_cons (i : StepInput) (rest : List StepInput) (g g2 : Globals) :
    run_steps (i :: rest) g = some g2 ↔
      ∃ g1, compute_neutral_densities i.libc i.host (enter_step i g) = some g1 ∧
        run_steps rest g1 = some g2 := by
  rw [run_steps]
  cases compute_neutral_densities i.libc i.host (enter_step i g) with
  | none => simp
  | some g1 => simp

/-- Two steps below 85 km with the table source enabled, a file name
configured and a library whose `load_nrl_csv` leaves the initial statics: each
step calls `load_nrl_csv`. -/
theorem two_steps_two_loads (libc : Libc)
    (hload : (load_nrl_csv libc csv_path nrl_init).2 = nrl_init) :
    ∃ g2, run_steps [step_fixture libc 50000 (1 / 86400), step_fixture libc 50000 (1 / 86400)]
        (globals_fixture 50000 1 0 csv_path nrl_init) = some g2 ∧
      load_calls g2.calls = 2 ∧ g2.nrl = nrl_init := by
  have hok0 : store_ok nrl_init := ⟨rfl, fun h => absurd rfl h⟩
  have hpath : csv_path.length > 0 := by decide
  have halt : ∀ g : Globals, host_fixture.toReal
      ((enter_step (step_fixture libc 50000 (1 / 86400)) g).sat_r_lla.Alt / 1000) < 85 := by
    intro g
    simp [host_fixture, enter_step, step_fixture]
    norm_num
  obtain ⟨g1, hs1, hp1⟩ := step_summary libc host_fixture
    (enter_step (step_fixture libc 50000 (1 / 86400))
      (globals_fixture 50000 1 0 csv_path nrl_init)) hok0
  obtain ⟨hc1, hn1⟩ := step_retries_load libc host_fixture _ g1
    (by show (1 : Int) ≠ 0; decide) hpath rfl
    (Or.inl (halt _)) hs1
  obtain ⟨hu1, hd1, _⟩ := compute_config libc host_fixture _ g1 hs1
  have hn1' : g1.nrl = nrl_init := hn1.trans hload
  have hok1 : store_ok (enter_step (step_fixture libc 50000 (1 / 86400)) g1).nrl := by
    show store_ok g1.nrl
    rw [hn1']; exact hok0
  obtain ⟨g2, hs2, hp2⟩ := step_summary libc host_fixture
    (enter_step (step_fixture libc 50000 (1 / 86400)) g1) hok1
  have hu2 : (enter_step (step_fixture libc 50000 (1 / 86400)) g1).use_nrlmsis ≠ 0 := by
    show g1.use_nrlmsis ≠ 0
    rw [hu1]; show (1 : Int) ≠ 0; decide
  have hd2 : (enter_step (step_fixture libc 50000 (1 / 86400)) g1).nrlmsis_datafile.length
      > 0 := by
    show g1.nrlmsis_datafile.length > 0
    rw [hd1]; exact hpath
  have hl2 : (enter_step (step_fixture libc 50000 (1 / 86400)) g1).nrl.nrl_table_loaded
      = 0 := by
    show g1.nrl.nrl_table_loaded = 0
    rw [hn1']; rfl
  obtain ⟨hc2, hn2⟩ := step_retries_load libc host_fixture _ g2 hu2 hd2 hl2
    (Or.inl (halt _)) hs2
  refine ⟨g2, ?_, ?_, ?_⟩
  · exact (run_steps_cons _ _ _ _).mpr ⟨g1, hs1, (run_steps_cons _ _ _ _).mpr ⟨g2, hs2, rfl⟩⟩
  · rw [hc2]
    show load_calls g1.calls + 1 = 2
    rw [hc1]; rfl
  · rw [hn2]
    show (load_nrl_csv libc g1.nrlmsis_datafile g1.nrl).2 = nrl_init
    rw [hd1, hn1']
    exact hload

/-- A run of two parts is the run of the second part on the result of the
first. -/
theorem run_steps_append (pre post : List StepInput) :
    ∀ g : Globals, run_steps (pre ++ post) g = (run_steps pre g).bind (run_steps post) := by
  induction pre with
  | nil => intro g; rfl
  | cons i rest ih =>
    intro g
    simp only [List.cons_append, run_steps]
    cases compute_neutral_densities i.libc i.host (enter_step i g) with
    | none => rfl
    | some g1 => exact ih g1

/-- A step below 85 km with the table source disabled. -/
theorem step_low_disabled (libc : Libc) (host : Host) (g : Globals)
    (hoff : g.use_nrlmsis = 0) (hlow : host.toReal (g.sat_r_lla.Alt / 1000) < 85) :
    compute_neutral_densities libc host g
      = some (publish (use_msise90 host (set_inputs host g))) := by
  simp only [compute_neutral_densities, select_model]
  rw [if_pos (by simpa [set_inputs] using hlow), if_neg (by simp [set_inputs, hoff])]
  rfl

/-- A step that tries the table and hits: the tag, the outputs, each the
conversion `(real)` of a value of the query, and the model calls. -/
theorem table_hit_step (libc : Libc) (host : Host) (g : Globals) (lk : Lookup)
    (hon : g.use_nrlmsis ≠ 0)
    (hbranch : host.toReal (g.sat_r_lla.Alt / 1000) < 85 ∨
      host.toReal (g.sat_r_lla.Alt / 1000) > 400 ∨
      (85 ≤ host.toReal (g.sat_r_lla.Alt / 1000) ∧ host.toReal (g.sat_r_lla.Alt / 1000) ≤ 400 ∧
        g.neutdens_prefer_msise_90 ≠ 0))
    (hq : query_table host (lazy_load libc (set_inputs host g)) = some lk)
    (hhit : lk.status ≠ 0) :
    ∃ g', compute_neutral_densities libc host g = some g' ∧
      g'.neutdens_model = "NRLMSIS".toList ∧
      lk.out_dens.length = 8 ∧ lk.out_temps.length = 2 ∧
      g'.dens_out = lk.out_dens.map host.toReal ∧
      g'.temp_out = lk.out_temps.map host.toReal ∧
      ((∀ x ∈ lk.out_dens ++ lk.out_temps, host.toReal x = x) →
        g'.dens_out = lk.out_dens ∧ g'.temp_out = lk.out_temps) ∧
      model_calls g'.calls = model_calls g.calls := by
  have hsel : ∃ miss, select_model libc host (set_inputs host g)
      = table_attempt libc host miss (set_inputs host g) := by
    have hu : (set_inputs host g).use_nrlmsis ≠ 0 := hon
    have ha : (set_inputs host g).altitude = host.toReal (g.sat_r_lla.Alt / 1000) := rfl
    have hp : (set_inputs host g).neutdens_prefer_msise_90 = g.neutdens_prefer_msise_90 := rfl
    unfold select_model
    rw [ha, hp]
    rcases hbranch with h | h | ⟨h1, h2, h3⟩
    · exact ⟨use_msise90 host, by rw [if_pos h, if_pos hu]⟩
    · have hn : ¬ host.toReal (g.sat_r_lla.Alt / 1000) < 85 := by intro h'; linarith
      exact ⟨use_msis86 host, by rw [if_neg hn, if_pos h, if_pos hu]⟩
    · exact ⟨use_msise90 host, by
        rw [if_neg (not_lt.mpr h1), if_neg (not_lt.mpr h2), if_pos h3, if_pos hu]⟩
  obtain ⟨miss, hsel⟩ := hsel
  obtain ⟨r, hr⟩ := lookup_hit_form _ _ _ _ _ _ _ lk hq hhit
  have hd : lk.out_dens.length = 8 := by rw [hr]; rfl
  have ht : lk.out_temps.length = 2 := by rw [hr]; rfl
  have hdo : (publish (use_table host
      { lazy_load libc (set_inputs host g) with
        calls := (lazy_load libc (set_inputs host g)).calls ++ [Call.lookup_nrl_values] }
      lk)).dens_out = lk.out_dens.map host.toReal :=
    range_eight_map host.toReal lk.out_dens hd
  have hto : (publish (use_table host
      { lazy_load libc (set_inputs host g) with
        calls := (lazy_load libc (set_inputs host g)).calls ++ [Call.lookup_nrl_values] }
      lk)).temp_out = lk.out_temps.map host.toReal := by
    show [host.toReal (lk.out_temps.getD 0 0), host.toReal (lk.out_temps.getD 1 0)]
      = lk.out_temps.map host.toReal
    rw [hr]; rfl
  refine ⟨publish (use_table host
      { lazy_load libc (set_inputs host g) with
        calls := (lazy_load libc (set_inputs host g)).calls ++ [Call.lookup_nrl_values] } lk),
    ?_, rfl, hd, ht, hdo, hto, ?_, ?_⟩
  · rw [compute_neutral_densities, hsel, table_attempt_hit libc host miss _ lk hq hhit]
    rfl
  · intro hid
    have hmap : ∀ l : List ℚ, (∀ x ∈ l, host.toReal x = x) → l.map host.toReal = l := by
      intro l
      induction l with
      | nil => intro _; rfl
      | cons a t ih =>
        intro hl
        rw [List.map_cons, hl a (List.mem_cons_self a t),
          ih (fun x hx => hl x (List.mem_cons_of_mem a hx))]
    exact ⟨hdo.trans (hmap _ (fun x hx => hid x (List.mem_append_left _ hx))),
      hto.trans (hmap _ (fun x hx => hid x (List.mem_append_right _ hx)))⟩
  · show model_calls ((lazy_load libc (set_inputs host g)).calls ++ [Call.lookup_nrl_values])
      = model_calls g.calls
    have := (lazy_load_frame libc (set_inputs host g)).2.2.2.2.2
    simp only [model_calls, List.filter_append] at this ⊢
    rw [this]
    simp [set_inputs]

/-- A call of `load_nrl_csv` keeps the flag at 0 or 1. -/
theorem load_nrl_csv_flag_bool (libc : Libc) (path : List Char) (st : NrlStore)
    (h : st.nrl_table_loaded = 0 ∨ st.nrl_table_loaded = 1) :
    (load_nrl_csv libc path st).2.nrl_table_loaded = 0 ∨
    (load_nrl_csv libc path st).2.nrl_table_loaded = 1 := by
  unfold load_nrl_csv
  cases hopen : libc.fopen path with
  | none => exact h
  | some lines =>
    simp only
    have hflag : (if st.nrl_table.isEmpty = false then
        ({ st with nrl_table := [], nrl_table_len := 0 } : NrlStore)
        else st).nrl_table_loaded = st.nrl_table_loaded := by
      split <;> rfl
    cases hl : load_rows libc lines
        (if st.nrl_table.isEmpty = false then
          ({ st with nrl_table := [], nrl_table_len := 0 } : NrlStore) else st).nrl_table 0 with
    | none => simp only; rw [hflag]; exact h
    | some p =>
      simp only
      by_cases hp : p.2 > 0
      · right; simp [hp]
      · left; simp [hp]

/-- In every state the program reaches the length field is the number of rows
in the block and the flag is 1 exactly when there is a row, and 0 otherwise. -/
theorem reachable_guarded_inv (st : NrlStore) (h : ReachableGuarded st) :
    st.nrl_table_len = st.nrl_table.length ∧
    (st.nrl_table_loaded = 1 ↔ 0 < st.nrl_table_len) ∧
    (st.nrl_table_loaded = 0 ∨ st.nrl_table_loaded = 1) := by
  induction h with
  | init => exact ⟨rfl, by decide, Or.inl rfl⟩
  | load libc path st _ h0 ih =>
    have hok : store_ok st := ⟨ih.1, fun hne => absurd h0 hne⟩
    have hok2 := load_nrl_csv_store_ok libc path st hok h0
    have hkeep := load_nrl_csv_keeps_length libc path st ih.1 ih.2.1.mpr
    refine ⟨hok2.1, ⟨fun h1 => hok2.2 (by rw [h1]; decide), hkeep.2⟩,
      load_nrl_csv_flag_bool libc path st ih.2.2⟩

/-- A state the program reaches with the flag at 0 is the initial state. -/
theorem reachable_guarded_unloaded (st : NrlStore) (h : ReachableGuarded st)
    (h0 : st.nrl_table_loaded = 0) : st = nrl_init := by
  obtain ⟨hlen, hiff, _⟩ := reachable_guarded_inv st h
  have hz : st.nrl_table_len = 0 := by
    by_contra hne
    have := hiff.mpr (Nat.pos_of_ne_zero hne)
    rw [h0] at this
    exact absurd this (by decide)
  have hnil : st.nrl_table = [] := List.length_eq_zero.mp (by rw [← hlen, hz])
  cases st with
  | mk t l f =>
    simp only at h0 hz hnil
    subst h0 hz hnil
    rfl

/-- A call of `load_nrl_csv` that opens its file leaves a block and a length
that do not depend on the statics before the call, when these were
consistent. -/
theorem load_nrl_csv_rows_forget (libc : Libc) (path : List Char) (st : NrlStore)
    (lines : List (List Char)) (hopen : libc.fopen path = some lines)
    (hlen : st.nrl_table_len = st.nrl_table.length) :
    (load_nrl_csv libc path st).2.nrl_table = (load_nrl_csv libc path nrl_init).2.nrl_table ∧
    (load_nrl_csv libc path st).2.nrl_table_len
      = (load_nrl_csv libc path nrl_init).2.nrl_table_len := by
  have hnil := freed_table_nil st
  have hzero : (if st.nrl_table.isEmpty = false then
      ({ st with nrl_table := [], nrl_table_len := 0 } : NrlStore) else st).nrl_table_len
      = 0 := by
    cases h : st.nrl_table with
    | nil => simp [h, hlen]
    | cons a l => simp
  have hnil0 := freed_table_nil nrl_init
  simp only [load_nrl_csv, hopen]
  rw [hnil, hnil0]
  cases hl : load_rows libc lines [] 0 with
  | none => exact ⟨rfl, hzero⟩
  | some p => exact ⟨rfl, rfl⟩

/-- A call of `load_nrl_csv` that opens the file and meets an allocation
failure returns 0 and leaves no block. -/
theorem load_nrl_csv_alloc_failure (libc : Libc) (path : List Char) (st : NrlStore)
    (lines : List (List Char)) (hopen : libc.fopen path = some lines)
    (hfail : ∃ k, 0 < k ∧ k ≤ (lines.filter (is_data_row libc)).length ∧
      libc.realloc k = false) :
    (load_nrl_csv libc path st).1 = 0 ∧ (load_nrl_csv libc path st).2.nrl_table = [] := by
  have hnot : ¬ runs_to_completion libc path = true := by
    intro h
    obtain ⟨l, hl, hall⟩ := (runs_to_completion_iff libc path).mp h
    rw [hopen] at hl
    cases hl
    obtain ⟨k, hk1, hk2, hk3⟩ := hfail
    rw [hall k hk1 hk2] at hk3
    cases hk3
  have hnone : load_rows libc lines [] 0 = none := by
    unfold runs_to_completion at hnot
    rw [hopen] at hnot
    simp only at hnot
    cases h : load_rows libc lines [] 0 with
    | none => rfl
    | some p => rw [h] at hnot; exact absurd rfl hnot
  have hnil := freed_table_nil st
  simp only [load_nrl_csv, hopen]
  rw [hnil, hnone]
  exact ⟨rfl, rfl⟩

/-! ## The claims -/

/-- C1: with the table source disabled, a step below 85 km reports MSISE-90
and its outputs are those `gts6_` returns, and a step above 400 km reports
MSIS-86 and its outputs are those `gts5_` returns, for every satellite state
and every state of the table; no other call is made. -/
theorem C1_table_disabled_selects_model_by_altitude (libc : Libc) (host : Host) (g : Globals)
    (hoff : g.use_nrlmsis = 0) :
    (host.toReal (g.sat_r_lla.Alt / 1000) < 85 →
      ∃ g', compute_neutral_densities libc host g = some g' ∧
        g'.neutdens_model = g.neutdens_msise90 ∧
        (g'.dens_out, g'.temp_out) = host.gts6_ (gts_args (set_inputs host g)) ∧
        g'.calls = g.calls ++ [Call.gts6_]) ∧
    (host.toReal (g.sat_r_lla.Alt / 1000) > 400 →
      ∃ g', compute_neutral_densities libc host g = some g' ∧
        g'.neutdens_model = g.neutdens_msis86 ∧
        (g'.dens_out, g'.temp_out)
          = host.gts5_ g.data_path (gts_args (set_inputs host g)) g.data_path_len ∧
        g'.calls = g.calls ++ [Call.gts5_]) := by
  constructor
  · intro hlow
    refine ⟨publish (use_msise90 host (set_inputs host g)), ?_, rfl, rfl, rfl⟩
    simp only [compute_neutral_densities, select_model]
    rw [if_pos (by simpa [set_inputs] using hlow), if_neg (by simp [set_inputs, hoff])]
    rfl
  · intro hhigh
    have hnl : ¬ host.toReal (g.sat_r_lla.Alt / 1000) < 85 := by
      intro h; linarith
    refine ⟨publish (use_msis86 host (set_inputs host g)), ?_, rfl, rfl, rfl⟩
    simp only [compute_neutral_densities, select_model]
    rw [if_neg (by simpa [set_inputs] using hnl), if_pos (by simpa [set_inputs] using hhigh),
      if_neg (by simp [set_inputs, hoff])]
    rfl

/-- C1 (witness): the fixture at 50 km and at 500 km with the table source
disabled. -/
theorem C1_witness_50_km_and_500_km :
    ((globals_fixture 50000 0 0 csv_path nrl_init).use_nrlmsis = 0 ∧
      host_fixture.toReal ((globals_fixture 50000 0 0 csv_path nrl_init).sat_r_lla.Alt / 1000)
        < 85 ∧
      ∃ g', compute_neutral_densities libc_one_row host_fixture
            (globals_fixture 50000 0 0 csv_path nrl_init) = some g' ∧
        g'.neutdens_model = "MSISE-90".toList ∧
        (g'.dens_out, g'.temp_out) = ([61, 62, 63, 64, 65, 66, 67, 68], [69, 70]) ∧
        g'.calls = [Call.gts6_]) ∧
    ((globals_fixture 500000 0 0 csv_path nrl_init).use_nrlmsis = 0 ∧
      host_fixture.toReal ((globals_fixture 500000 0 0 csv_path nrl_init).sat_r_lla.Alt / 1000)
        > 400 ∧
      ∃ g', compute_neutral_densities libc_one_row host_fixture
            (globals_fixture 500000 0 0 csv_path nrl_init) = some g' ∧
        g'.neutdens_model = "MSIS-86".toList ∧
        (g'.dens_out, g'.temp_out) = ([51, 52, 53, 54, 55, 56, 57, 58], [59, 60]) ∧
        g'.calls = [Call.gts5_]) := by
  have h50 : host_fixture.toReal
      ((globals_fixture 50000 0 0 csv_path nrl_init).sat_r_lla.Alt / 1000) < 85 := by
    simp [host_fixture, globals_fixture]; norm_num
  have h500 : host_fixture.toReal
      ((globals_fixture 500000 0 0 csv_path nrl_init).sat_r_lla.Alt / 1000) > 400 := by
    simp [host_fixture, globals_fixture]; norm_num
  exact ⟨⟨rfl, h50,
      (C1_table_disabled_selects_model_by_altitude libc_one_row host_fixture
        (globals_fixture 50000 0 0 csv_path nrl_init) rfl).1 h50⟩,
    ⟨rfl, h500,
      (C1_table_disabled_selects_model_by_altitude libc_one_row host_fixture
        (globals_fixture 500000 0 0 csv_path nrl_init) rfl).2 h500⟩⟩

/-- C2: in the overlap band 85 km to 400 km, bounds included, with the
preference flag unset, a step reports MSIS-86 with the outputs of `gts5_`
whatever the table flag and the file name; it calls neither `load_nrl_csv`
nor `lookup_nrl_values`, and the three statics of the table are unchanged. -/
theorem C2_overlap_without_preference_uses_msis86 (libc : Libc) (host : Host) (g : Globals)
    (hlo : 85 ≤ host.toReal (g.sat_r_lla.Alt / 1000))
    (hhi : host.toReal (g.sat_r_lla.Alt / 1000) ≤ 400)
    (hpref : g.neutdens_prefer_msise_90 = 0) :
    ∃ g', compute_neutral_densities libc host g = some g' ∧
      g'.neutdens_model = g.neutdens_msis86 ∧
      (g'.dens_out, g'.temp_out)
        = host.gts5_ g.data_path (gts_args (set_inputs host g)) g.data_path_len ∧
      g'.calls = g.calls ++ [Call.gts5_] ∧
      table_calls g'.calls = table_calls g.calls ∧
      g'.nrl.nrl_table = g.nrl.nrl_table ∧
      g'.nrl.nrl_table_len = g.nrl.nrl_table_len ∧
      g'.nrl.nrl_table_loaded = g.nrl.nrl_table_loaded := by
  refine ⟨publish (use_msis86 host (set_inputs host g)), ?_, rfl, rfl, rfl, ?_, rfl, rfl, rfl⟩
  · simp only [compute_neutral_densities, select_model]
    rw [if_neg (by simpa [set_inputs] using hlo), if_neg (by simpa [set_inputs] using hhi),
      if_neg (by simp [set_inputs, hpref])]
    rfl
  · show table_calls (g.calls ++ [Call.gts5_]) = table_calls g.calls
    simp [table_calls]

/-- C2 (witness): the fixture at 200 km with the table source enabled and a
table file configured. -/
theorem C2_witness_200_km_table_enabled :
    (85 ≤ host_fixture.toReal ((globals_fixture 200000 1 0 csv_path nrl_init).sat_r_lla.Alt / 1000)
      ∧ host_fixture.toReal ((globals_fixture 200000 1 0 csv_path nrl_init).sat_r_lla.Alt / 1000)
        ≤ 400
      ∧ (globals_fixture 200000 1 0 csv_path nrl_init).neutdens_prefer_msise_90 = 0) ∧
    ∃ g', compute_neutral_densities libc_one_row host_fixture
          (globals_fixture 200000 1 0 csv_path nrl_init) = some g' ∧
      g'.neutdens_model = "MSIS-86".toList ∧
      (g'.dens_out, g'.temp_out) = ([51, 52, 53, 54, 55, 56, 57, 58], [59, 60]) ∧
      g'.calls = [Call.gts5_] ∧
      table_calls g'.calls = [] ∧
      g'.nrl.nrl_table = [] ∧ g'.nrl.nrl_table_len = 0 ∧ g'.nrl.nrl_table_loaded = 0 := by
  have hlo : 85 ≤ host_fixture.toReal
      ((globals_fixture 200000 1 0 csv_path nrl_init).sat_r_lla.Alt / 1000) := by
    simp [host_fixture, globals_fixture]; norm_num
  have hhi : host_fixture.toReal
      ((globals_fixture 200000 1 0 csv_path nrl_init).sat_r_lla.Alt / 1000) ≤ 400 := by
    simp [host_fixture, globals_fixture]; norm_num
  exact ⟨⟨hlo, hhi, rfl⟩,
    C2_overlap_without_preference_uses_msis86 libc_one_row host_fixture
      (globals_fixture 200000 1 0 csv_path nrl_init) hlo hhi rfl⟩

/-- C5: in every state of the table that the program reaches from the initial
empty state by its calls of `load_nrl_csv`, each made with the flag at 0 as the
guards of the three call sites require, `lookup_nrl_values` returns for every
query: it returns 0 if and only if the table is unloaded or has zero rows, and
it returns 1 whenever the table has at least one row. -/
theorem C5_lookup_unavailable_iff_unloaded_or_empty (st : NrlStore)
    (hreach : ReachableGuarded st) (epoch lat lon alt_m : ℚ) (out_dens out_temps : List ℚ) :
    ∃ lk, lookup_nrl_values st epoch lat lon alt_m out_dens out_temps = some lk ∧
      (lk.status = 0 ∨ lk.status = 1) ∧
      (lk.status = 0 ↔ (st.nrl_table_loaded = 0 ∨ st.nrl_table.length = 0)) ∧
      (0 < st.nrl_table.length → lk.status = 1) := by
  obtain ⟨hlen, hiff, hbool⟩ := reachable_guarded_inv st hreach
  rcases hbool with h0 | h1
  · refine ⟨{ status := 0, out_dens := out_dens, out_temps := out_temps }, ?_,
      Or.inl rfl, ⟨fun _ => Or.inl h0, fun _ => rfl⟩, ?_⟩
    · simp [lookup_nrl_values, h0]
    · intro hpos
      have := hiff.mpr (by rw [hlen]; exact hpos)
      rw [h0] at this
      exact absurd this (by decide)
  · have hpos : 0 < st.nrl_table_len := hiff.mp h1
    obtain ⟨b, r, _, _, _, hlk, _⟩ :=
      lookup_loaded st epoch lat lon alt_m out_dens out_temps (by rw [h1]; decide) hlen hpos
    refine ⟨_, hlk, Or.inr rfl, ⟨fun h => absurd h (show (1 : Int) ≠ 0 by decide), ?_⟩,
      fun _ => rfl⟩
    rintro (h | h)
    · rw [h1] at h; exact absurd h (by decide)
    · rw [hlen] at hpos; omega

/-- C5 (witness): after the first call on the one-row file the table holds one
row and the query is a hit; after a first call whose allocation fails the
table is unloaded and the query returns 0. -/
theorem C5_witness_one_row_and_failed_allocation :
    (ReachableGuarded (load_nrl_csv libc_one_row csv_path nrl_init).2 ∧
      (load_nrl_csv libc_one_row csv_path nrl_init).2
        = { nrl_table := [make_row libc_one_row one_row_scan], nrl_table_len := 1,
            nrl_table_loaded := 1 } ∧
      ∃ lk, lookup_nrl_values (load_nrl_csv libc_one_row csv_path nrl_init).2 0 0 0 0 [] []
          = some lk ∧ lk.status = 1) ∧
    (ReachableGuarded (load_nrl_csv libc_no_memory csv_path nrl_init).2 ∧
      (load_nrl_csv libc_no_memory csv_path nrl_init).2
        = { nrl_table := [], nrl_table_len := 0, nrl_table_loaded := 0 } ∧
      ∃ lk, lookup_nrl_values (load_nrl_csv libc_no_memory csv_path nrl_init).2 0 0 0 0 [] []
          = some lk ∧ lk.status = 0) := by
  have h1 : (load_nrl_csv libc_one_row csv_path nrl_init).2
      = { nrl_table := [make_row libc_one_row one_row_scan], nrl_table_len := 1,
          nrl_table_loaded := 1 } := by
    simp [load_nrl_csv, libc_one_row, nrl_init, load_rows, one_row_scan,
      one_row_line_not_skipped]
  have h2 : (load_nrl_csv libc_no_memory csv_path nrl_init).2
      = { nrl_table := [], nrl_table_len := 0, nrl_table_loaded := 0 } := by
    simp [load_nrl_csv, libc_no_memory, libc_one_row, nrl_init, load_rows, one_row_scan,
      one_row_line_not_skipped]
  have r1 : ReachableGuarded (load_nrl_csv libc_one_row csv_path nrl_init).2 :=
    ReachableGuarded.load _ _ _ ReachableGuarded.init rfl
  have r2 : ReachableGuarded (load_nrl_csv libc_no_memory csv_path nrl_init).2 :=
    ReachableGuarded.load _ _ _ ReachableGuarded.init rfl
  obtain ⟨lk1, hq1, _, _, hhit⟩ :=
    C5_lookup_unavailable_iff_unloaded_or_empty _ r1 0 0 0 0 [] []
  obtain ⟨lk2, hq2, _, hmiss, _⟩ :=
    C5_lookup_unavailable_iff_unloaded_or_empty _ r2 0 0 0 0 [] []
  refine ⟨⟨r1, h1, lk1, hq1, hhit (by rw [h1]; decide)⟩, r2, h2, lk2, hq2,
    hmiss.mpr (Or.inl (by rw [h2]))⟩

/-- C6: after an ingest of a file that opens and holds exactly one data row
`line`, every query returns a hit whose densities are the row's fields
`[He, O, N2, O2, Ar, mass, H, 0]` and whose temperatures are `[T_exo, T_alt]`,
for every epoch, latitude, longitude and altitude and whatever the field N. -/
theorem C6_single_row_table_returns_its_row (libc : Libc) (path : List Char) (st : NrlStore)
    (lines : List (List Char)) (line : List Char)
    (epoch lat lon alt_m : ℚ) (out_dens out_temps : List ℚ)
    (hopen : libc.fopen path = some lines)
    (hone : lines.filter (is_data_row libc) = [line])
    (halloc : libc.realloc 1 = true) :
    lookup_nrl_values (load_nrl_csv libc path st).2 epoch lat lon alt_m out_dens out_temps
      = some { status := 1
               out_dens := [(libc.sscanf line).he, (libc.sscanf line).o, (libc.sscanf line).n2,
                            (libc.sscanf line).o2, (libc.sscanf line).ar,
                            (libc.sscanf line).mass, (libc.sscanf line).h, 0]
               out_temps := [(libc.sscanf line).texo, (libc.sscanf line).talt] } := by
  have hload := load_nrl_csv_complete libc path st lines hopen (by
    intro k hk1 hk2
    rw [hone] at hk2
    have : k = 1 := by simp at hk2; omega
    rw [this]; exact halloc)
  rw [hone] at hload
  rw [hload]
  obtain ⟨b, r, hb, hr, _, hlk, _⟩ := lookup_loaded
    { nrl_table := [make_row libc (libc.sscanf line)], nrl_table_len := 1,
      nrl_table_loaded := 1 } epoch lat lon alt_m out_dens out_temps
    (by simp) (by simp) (by simp)
  simp only [List.map_cons, List.map_nil, List.length_singleton, gt_iff_lt, Nat.lt_one_iff,
    Nat.pos_of_ne_zero, if_true] at hb hr hlk ⊢
  subst hb
  simp only [List.getElem?_cons_zero, Option.some.injEq] at hr
  subst hr
  simpa [canonical_dens, canonical_temps, make_row] using hlk

/-- C6 (witness): the one-row file of `libc_one_row`, ingested from the empty
state and queried at epoch 5, latitude 1, longitude 2 and altitude 3. -/
theorem C6_witness_one_row_file :
    (libc_one_row.fopen csv_path = some [one_row_line] ∧
      [one_row_line].filter (is_data_row libc_one_row) = [one_row_line] ∧
      libc_one_row.realloc 1 = true) ∧
    lookup_nrl_values (load_nrl_csv libc_one_row csv_path nrl_init).2 5 1 2 3 [] []
      = some { status := 1, out_dens := [1, 2, 3, 4, 5, 8, 6, 0], out_temps := [9, 10] } := by
  have hrow : [one_row_line].filter (is_data_row libc_one_row) = [one_row_line] := by
    simp [is_data_row, one_row_line_not_skipped, libc_one_row, one_row_scan]
  exact ⟨⟨rfl, hrow, rfl⟩,
    C6_single_row_table_returns_its_row libc_one_row csv_path nrl_init [one_row_line]
      one_row_line 5 1 2 3 [] [] rfl hrow rfl⟩

/-- C7: latitude and longitude do not influence the query: two queries with
the same epoch and altitude return the same status, densities and
temperatures, whatever their latitudes and longitudes. -/
theorem C7_lookup_ignores_lat_lon (st : NrlStore) (epoch alt_m lat1 lon1 lat2 lon2 : ℚ)
    (out_dens out_temps : List ℚ) :
    lookup_nrl_values st epoch lat1 lon1 alt_m out_dens out_temps
      = lookup_nrl_values st epoch lat2 lon2 alt_m out_dens out_temps := rfl

/-- C8: a row with epoch 0 scores `|alt - alt_m| / 1000` for every query epoch,
and on a store whose rows all have epoch 0 two queries that differ only in
epoch return the same result. -/
theorem C8_unknown_epoch_has_no_time_penalty (st : NrlStore) (epoch1 epoch2 lat lon alt_m : ℚ)
    (out_dens out_temps : List ℚ) (h0 : ∀ r ∈ st.nrl_table, r.epoch = 0) :
    (∀ r : nrl_row_t, r.epoch = 0 →
      ∀ epoch, row_score r epoch alt_m = |r.alt - alt_m| / 1000) ∧
    lookup_nrl_values st epoch1 lat lon alt_m out_dens out_temps
      = lookup_nrl_values st epoch2 lat lon alt_m out_dens out_temps := by
  have hs : ∀ r : nrl_row_t, r.epoch = 0 →
      ∀ epoch, row_score r epoch alt_m = |r.alt - alt_m| / 1000 := by
    intro r hr epoch
    simp [row_score, hr, fabs_eq_abs]
  have hscan := scan_rows_congr st.nrl_table epoch1 alt_m epoch2 alt_m
    (fun r hr => by rw [hs r (h0 r hr), hs r (h0 r hr)]) st.nrl_table_len 0 0 1e308
  refine ⟨hs, ?_⟩
  simp only [lookup_nrl_values, best_row, hscan]

/-- C8 (witness): the store `tie_store`, whose two rows have epoch 0, queried
at epochs 0 and 86400. -/
theorem C8_witness_tie_store :
    (∀ r ∈ tie_store.nrl_table, r.epoch = 0) ∧
    ((∀ r : nrl_row_t, r.epoch = 0 → ∀ epoch, row_score r epoch 500 = |r.alt - 500| / 1000) ∧
      lookup_nrl_values tie_store 0 1 2 500 [] []
        = lookup_nrl_values tie_store 86400 1 2 500 [] []) :=
  ⟨by simp [tie_store, store_of, sample_row],
   C8_unknown_epoch_has_no_time_penalty tie_store 0 86400 1 2 500 [] []
     (by simp [tie_store, store_of, sample_row])⟩

/-- C9 (counterexample): a step at 50 km with the table source enabled on a
host whose type `real` is single precision, the table holding one row whose
first density is 33554433, a `double` that is no `real`.  The query is a hit
and returns 33554433; the step writes `(real) 33554433 = 33554432` to
`dens_out[0]`, so the outputs are not exactly the values of the query. -/
theorem C9_counterexample_real_conversion_rounds :
    ∃ g' lk, compute_neutral_densities libc_one_row host_float
          (globals_fixture 50000 1 0 csv_path float_store) = some g' ∧
      (globals_fixture 50000 1 0 csv_path float_store).use_nrlmsis ≠ 0 ∧
      host_float.toReal ((globals_fixture 50000 1 0 csv_path float_store).sat_r_lla.Alt / 1000)
        < 85 ∧
      query_table host_float
          (lazy_load libc_one_row (set_inputs host_float
            (globals_fixture 50000 1 0 csv_path float_store))) = some lk ∧
      lk.status = 1 ∧
      g'.neutdens_model = "NRLMSIS".toList ∧
      lk.out_dens.getD 0 0 = 33554433 ∧
      g'.dens_out.getD 0 0 = 33554432 ∧
      g'.dens_out ≠ lk.out_dens := by
  have h50 : host_float.toReal
      ((globals_fixture 50000 1 0 csv_path float_store).sat_r_lla.Alt / 1000) < 85 := by
    have e : host_float.toReal
        ((globals_fixture 50000 1 0 csv_path float_store).sat_r_lla.Alt / 1000)
        = round_nearest 24 (-149) ((50 : ℤ) : ℚ) := by
      simp [host_float, globals_fixture]; norm_num
    rw [e, round_nearest_int_of 24 (-149) (by norm_num) 50 (by norm_num)]
    norm_num
  have hq : query_table host_float
      (lazy_load libc_one_row (set_inputs host_float
        (globals_fixture 50000 1 0 csv_path float_store)))
      = some { status := 1
               out_dens := [33554433, 33554434, 33554435, 33554436, 33554437, 33554438,
                 33554439, 0]
               out_temps := [33554440, 33554441] } := by
    simp [query_table, lazy_load, set_inputs, globals_fixture, float_store, store_of,
      lookup_nrl_values, best_row, scan_rows, row_score, fabs, sample_row, canonical_dens,
      canonical_temps, host_float, host_fixture]
    norm_num
  have hr : round_nearest 24 (-149) 33554433 = 33554432 := by
    rw [round_nearest_eval 24 (-149) 33554433 25 8388608 (by norm_num) (by norm_num)
      (by norm_num) (by norm_num [abs_lt])]
    norm_num
  obtain ⟨g', hg, hm, _, _, hd, _, _, _⟩ :=
    table_hit_step libc_one_row host_float (globals_fixture 50000 1 0 csv_path float_store)
      _ (by decide) (Or.inl h50) hq (by decide)
  have h0 : g'.dens_out.getD 0 0 = 33554432 := by
    rw [hd]
    show round_nearest 24 (-149) 33554433 = 33554432
    exact hr
  refine ⟨g', _, hg, by decide, h50, hq, rfl, hm, rfl, h0, ?_⟩
  intro heq
  rw [heq] at h0
  have h1 : (33554433 : ℚ) = 33554432 := h0
  norm_num at h1

/-- C9 (amended): in each of the three branches that try the table (below
85 km, above 400 km, overlap band with the preference flag set), when the
table source is enabled and the query is a hit, the step sets the tag to
"NRLMSIS", writes to `dens_out` and `temp_out` the eight densities and two
temperatures that `lookup_nrl_values` returned, each converted to the type
`real` by the assignment, so exactly those values when each of them is a value
of the type `real`, and calls neither `gts5_` nor `gts6_`. -/
theorem C9_table_hit_uses_converted_table_values (libc : Libc) (host : Host) (g : Globals) (lk : Lookup)
    (hon : g.use_nrlmsis ≠ 0)
    (hbranch : host.toReal (g.sat_r_lla.Alt / 1000) < 85 ∨
      host.toReal (g.sat_r_lla.Alt / 1000) > 400 ∨
      (85 ≤ host.toReal (g.sat_r_lla.Alt / 1000) ∧ host.toReal (g.sat_r_lla.Alt / 1000) ≤ 400 ∧
        g.neutdens_prefer_msise_90 ≠ 0))
    (hq : query_table host (lazy_load libc (set_inputs host g)) = some lk)
    (hhit : lk.status ≠ 0) :
    ∃ g', compute_neutral_densities libc host g = some g' ∧
      g'.neutdens_model = "NRLMSIS".toList ∧
      lk.out_dens.length = 8 ∧ lk.out_temps.length = 2 ∧
      g'.dens_out = lk.out_dens.map host.toReal ∧
      g'.temp_out = lk.out_temps.map host.toReal ∧
      ((∀ x ∈ lk.out_dens ++ lk.out_temps, host.toReal x = x) →
        g'.dens_out = lk.out_dens ∧ g'.temp_out = lk.out_temps) ∧
      model_calls g'.calls = model_calls g.calls :=
  table_hit_step libc host g lk hon hbranch hq hhit

/-- C9 (witness): the fixture at 50 km with the table source enabled, a host
whose type `real` is single precision and the store `tie_store` already
loaded; the query at 50000 m hits the row at 900 m, whose values are small
integers and pass the conversion unchanged. -/
theorem C9_witness_hit_at_50_km :
    ((globals_fixture 50000 1 0 csv_path tie_store).use_nrlmsis ≠ 0 ∧
      host_float.toReal ((globals_fixture 50000 1 0 csv_path tie_store).sat_r_lla.Alt / 1000)
        < 85 ∧
      query_table host_float
          (lazy_load libc_one_row (set_inputs host_float
            (globals_fixture 50000 1 0 csv_path tie_store)))
        = some { status := 1, out_dens := [20, 21, 22, 23, 24, 25, 26, 0],
                 out_temps := [27, 28] }) ∧
    ∃ g', compute_neutral_densities libc_one_row host_float
          (globals_fixture 50000 1 0 csv_path tie_store) = some g' ∧
      g'.neutdens_model = "NRLMSIS".toList ∧
      g'.dens_out = [20, 21, 22, 23, 24, 25, 26, 0] ∧
      g'.temp_out = [27, 28] ∧
      model_calls g'.calls = [] := by
  have h50 : host_float.toReal
      ((globals_fixture 50000 1 0 csv_path tie_store).sat_r_lla.Alt / 1000) < 85 := by
    have e : host_float.toReal
        ((globals_fixture 50000 1 0 csv_path tie_store).sat_r_lla.Alt / 1000)
        = round_nearest 24 (-149) ((50 : ℤ) : ℚ) := by
      simp [host_float, globals_fixture]; norm_num
    rw [e, round_nearest_int_of 24 (-149) (by norm_num) 50 (by norm_num)]
    norm_num
  have hq : query_table host_float
      (lazy_load libc_one_row (set_inputs host_float
        (globals_fixture 50000 1 0 csv_path tie_store)))
      = some { status := 1, out_dens := [20, 21, 22, 23, 24, 25, 26, 0],
               out_temps := [27, 28] } := by
    simp [query_table, lazy_load, set_inputs, globals_fixture, tie_store, store_of,
      lookup_nrl_values, best_row, scan_rows, row_score, fabs, sample_row, canonical_dens,
      canonical_temps, host_float, host_fixture]
    norm_num
  have hreal : ∀ x ∈ [(20 : ℚ), 21, 22, 23, 24, 25, 26, 0] ++ [27, 28],
      host_float.toReal x = x := by
    intro x hx
    have hcast : ∃ n : ℤ, x = n ∧ |n| < 2 ^ 24 := by
      simp only [List.cons_append, List.nil_append, List.mem_cons, List.mem_singleton,
        List.not_mem_nil, or_false] at hx
      rcases hx with h | h | h | h | h | h | h | h | h | h <;> subst h
      · exact ⟨20, by norm_num, by norm_num⟩
      · exact ⟨21, by norm_num, by norm_num⟩
      · exact ⟨22, by norm_num, by norm_num⟩
      · exact ⟨23, by norm_num, by norm_num⟩
      · exact ⟨24, by norm_num, by norm_num⟩
      · exact ⟨25, by norm_num, by norm_num⟩
      · exact ⟨26, by norm_num, by norm_num⟩
      · exact ⟨0, by norm_num, by norm_num⟩
      · exact ⟨27, by norm_num, by norm_num⟩
      · exact ⟨28, by norm_num, by norm_num⟩
    obtain ⟨n, hn, hlt⟩ := hcast
    rw [hn]
    exact round_nearest_int_of 24 (-149) (by norm_num) n hlt
  obtain ⟨g', hg, hm, _, _, _, _, hex, hc⟩ :=
    C9_table_hit_uses_converted_table_values libc_one_row host_float
      (globals_fixture 50000 1 0 csv_path tie_store)
      { status := 1, out_dens := [20, 21, 22, 23, 24, 25, 26, 0], out_temps := [27, 28] }
      (by decide) (Or.inl h50) hq (by decide)
  exact ⟨⟨by decide, h50, hq⟩, g', hg, hm, (hex hreal).1, (hex hreal).2, hc⟩

/-- C10: with the table source enabled and a query that returns 0, the step
falls back by regime and completes without a fault: below 85 km it reports
MSISE-90 with the outputs of `gts6_`, above 400 km it reports MSIS-86 with the
outputs of `gts5_`, and in the overlap band with the preference flag set it
reports MSISE-90 with the outputs of `gts6_`. -/
theorem C10_table_miss_falls_back_by_regime (libc : Libc) (host : Host) (g : Globals)
    (lk : Lookup) (hon : g.use_nrlmsis ≠ 0)
    (hq : query_table host (lazy_load libc (set_inputs host g)) = some lk)
    (hmiss : lk.status = 0) :
    (host.toReal (g.sat_r_lla.Alt / 1000) < 85 →
      ∃ g', compute_neutral_densities libc host g = some g' ∧
        g'.neutdens_model = g.neutdens_msise90 ∧
        (g'.dens_out, g'.temp_out) = host.gts6_ (gts_args (set_inputs host g)) ∧
        model_calls g'.calls = model_calls g.calls ++ [Call.gts6_]) ∧
    (host.toReal (g.sat_r_lla.Alt / 1000) > 400 →
      ∃ g', compute_neutral_densities libc host g = some g' ∧
        g'.neutdens_model = g.neutdens_msis86 ∧
        (g'.dens_out, g'.temp_out)
          = host.gts5_ g.data_path (gts_args (set_inputs host g)) g.data_path_len ∧
        model_calls g'.calls = model_calls g.calls ++ [Call.gts5_]) ∧
    (85 ≤ host.toReal (g.sat_r_lla.Alt / 1000) → host.toReal (g.sat_r_lla.Alt / 1000) ≤ 400 →
      g.neutdens_prefer_msise_90 ≠ 0 →
      ∃ g', compute_neutral_densities libc host g = some g' ∧
        g'.neutdens_model = g.neutdens_msise90 ∧
        (g'.dens_out, g'.temp_out) = host.gts6_ (gts_args (set_inputs host g)) ∧
        model_calls g'.calls = model_calls g.calls ++ [Call.gts6_]) := by
  have hu : (set_inputs host g).use_nrlmsis ≠ 0 := hon
  have ha : (set_inputs host g).altitude = host.toReal (g.sat_r_lla.Alt / 1000) := rfl
  have hp : (set_inputs host g).neutdens_prefer_msise_90 = g.neutdens_prefer_msise_90 := rfl
  obtain ⟨hargs, h90, h86, hdp, hdl, hcalls⟩ := lazy_load_frame libc (set_inputs host g)
  have hmc : ∀ c, decide (c = Call.gts5_ ∨ c = Call.gts6_) = true →
      model_calls (((lazy_load libc (set_inputs host g)).calls ++ [Call.lookup_nrl_values])
        ++ [c]) = model_calls g.calls ++ [c] := by
    intro c hc
    have h1 : model_calls (lazy_load libc (set_inputs host g)).calls = model_calls g.calls :=
      hcalls
    simp only [model_calls, List.filter_append] at h1 ⊢
    rw [h1]
    simp only [List.filter_cons, List.filter_nil, hc, if_true]
    simp
  have h6 : select_model libc host (set_inputs host g)
        = table_attempt libc host (use_msise90 host) (set_inputs host g) →
      ∃ g', compute_neutral_densities libc host g = some g' ∧
        g'.neutdens_model = g.neutdens_msise90 ∧
        (g'.dens_out, g'.temp_out) = host.gts6_ (gts_args (set_inputs host g)) ∧
        model_calls g'.calls = model_calls g.calls ++ [Call.gts6_] := by
    intro hsel
    refine ⟨publish (use_msise90 host
        { lazy_load libc (set_inputs host g) with
          calls := (lazy_load libc (set_inputs host g)).calls ++ [Call.lookup_nrl_values] }),
      ?_, h90, ?_, hmc Call.gts6_ (by decide)⟩
    · rw [compute_neutral_densities, hsel, table_attempt_miss libc host _ _ lk hq hmiss]
      rfl
    · show (_, _) = host.gts6_ (gts_args (set_inputs host g))
      rw [← hargs]
      rfl
  have h5 : select_model libc host (set_inputs host g)
        = table_attempt libc host (use_msis86 host) (set_inputs host g) →
      ∃ g', compute_neutral_densities libc host g = some g' ∧
        g'.neutdens_model = g.neutdens_msis86 ∧
        (g'.dens_out, g'.temp_out)
          = host.gts5_ g.data_path (gts_args (set_inputs host g)) g.data_path_len ∧
        model_calls g'.calls = model_calls g.calls ++ [Call.gts5_] := by
    intro hsel
    refine ⟨publish (use_msis86 host
        { lazy_load libc (set_inputs host g) with
          calls := (lazy_load libc (set_inputs host g)).calls ++ [Call.lookup_nrl_values] }),
      ?_, h86, ?_, hmc Call.gts5_ (by decide)⟩
    · rw [compute_neutral_densities, hsel, table_attempt_miss libc host _ _ lk hq hmiss]
      rfl
    · show (_, _) = host.gts5_ g.data_path (gts_args (set_inputs host g)) g.data_path_len
      have e1 : g.data_path = (lazy_load libc (set_inputs host g)).data_path := hdp.symm
      have e2 : g.data_path_len = (lazy_load libc (set_inputs host g)).data_path_len :=
        hdl.symm
      rw [← hargs, e1, e2]
      rfl
  refine ⟨fun h => h6 ?_, fun h => h5 ?_, fun h1 h2 h3 => h6 ?_⟩
  · unfold select_model
    rw [ha, if_pos h, if_pos hu]
  · have hn : ¬ host.toReal (g.sat_r_lla.Alt / 1000) < 85 := by intro h'; linarith
    unfold select_model
    rw [ha, if_neg hn, if_pos h, if_pos hu]
  · unfold select_model
    rw [ha, hp, if_neg (not_lt.mpr h1), if_neg (not_lt.mpr h2), if_pos h3, if_pos hu]

/-- C10 (witness): the fixture with the table source enabled and a table file
that does not open, at 50 km, at 500 km, and at 200 km with the preference
flag set. -/
theorem C10_witness_file_does_not_open :
    ((globals_fixture 50000 1 0 csv_path nrl_init).use_nrlmsis ≠ 0 ∧
      query_table host_fixture (lazy_load libc_no_file
          (set_inputs host_fixture (globals_fixture 50000 1 0 csv_path nrl_init)))
        = some { status := 0, out_dens := List.replicate 8 0, out_temps := List.replicate 2 0 } ∧
      ∃ g', compute_neutral_densities libc_no_file host_fixture
            (globals_fixture 50000 1 0 csv_path nrl_init) = some g' ∧
        g'.neutdens_model = "MSISE-90".toList ∧
        (g'.dens_out, g'.temp_out) = ([61, 62, 63, 64, 65, 66, 67, 68], [69, 70]) ∧
        model_calls g'.calls = [Call.gts6_]) ∧
    ((globals_fixture 500000 1 0 csv_path nrl_init).use_nrlmsis ≠ 0 ∧
      query_table host_fixture (lazy_load libc_no_file
          (set_inputs host_fixture (globals_fixture 500000 1 0 csv_path nrl_init)))
        = some { status := 0, out_dens := List.replicate 8 0, out_temps := List.replicate 2 0 } ∧
      ∃ g', compute_neutral_densities libc_no_file host_fixture
            (globals_fixture 500000 1 0 csv_path nrl_init) = some g' ∧
        g'.neutdens_model = "MSIS-86".toList ∧
        (g'.dens_out, g'.temp_out) = ([51, 52, 53, 54, 55, 56, 57, 58], [59, 60]) ∧
        model_calls g'.calls = [Call.gts5_]) ∧
    ((globals_fixture 200000 1 1 csv_path nrl_init).use_nrlmsis ≠ 0 ∧
      query_table host_fixture (lazy_load libc_no_file
          (set_inputs host_fixture (globals_fixture 200000 1 1 csv_path nrl_init)))
        = some { status := 0, out_dens := List.replicate 8 0, out_temps := List.replicate 2 0 } ∧
      ∃ g', compute_neutral_densities libc_no_file host_fixture
            (globals_fixture 200000 1 1 csv_path nrl_init) = some g' ∧
        g'.neutdens_model = "MSISE-90".toList ∧
        (g'.dens_out, g'.temp_out) = ([61, 62, 63, 64, 65, 66, 67, 68], [69, 70]) ∧
        model_calls g'.calls = [Call.gts6_]) := by
  have hq : ∀ (alt : ℚ) (prefer : Int),
      query_table host_fixture (lazy_load libc_no_file
          (set_inputs host_fixture (globals_fixture alt 1 prefer csv_path nrl_init)))
        = some { status := 0, out_dens := List.replicate 8 0,
                 out_temps := List.replicate 2 0 } := by
    intro alt prefer
    have hl : 0 < csv_path.length := by decide
    simp [query_table, lazy_load, set_inputs, globals_fixture, nrl_init, load_nrl_csv,
      libc_no_file, lookup_nrl_values, hl]
  refine ⟨⟨by decide, hq _ _, ?_⟩, ⟨by decide, hq _ _, ?_⟩, ⟨by decide, hq _ _, ?_⟩⟩
  · exact (C10_table_miss_falls_back_by_regime libc_no_file host_fixture
      (globals_fixture 50000 1 0 csv_path nrl_init) _ (by decide) (hq _ _) rfl).1
      (by simp [host_fixture, globals_fixture]; norm_num)
  · exact (C10_table_miss_falls_back_by_regime libc_no_file host_fixture
      (globals_fixture 500000 1 0 csv_path nrl_init) _ (by decide) (hq _ _) rfl).2.1
      (by simp [host_fixture, globals_fixture]; norm_num)
  · exact (C10_table_miss_falls_back_by_regime libc_no_file host_fixture
      (globals_fixture 200000 1 1 csv_path nrl_init) _ (by decide) (hq _ _) rfl).2.2
      (by simp [host_fixture, globals_fixture]; norm_num)
      (by simp [host_fixture, globals_fixture]; norm_num)
      (by decide)

/-- C11 (counterexample): two steps at 50 km with the table source enabled and
the file name `nrlmsis.csv`.  With a file that does not open, and again with a
file that opens and holds a comment line only, the first call of
`load_nrl_csv` fails and the second step calls it again: two calls in the
run. -/
theorem C11_counterexample_failed_load_is_retried :
    (globals_fixture 50000 1 0 csv_path nrl_init).use_nrlmsis ≠ 0 ∧
    (globals_fixture 50000 1 0 csv_path nrl_init).nrlmsis_datafile = csv_path ∧
    csv_path ≠ [] ∧
    load_calls (globals_fixture 50000 1 0 csv_path nrl_init).calls = 0 ∧
    (∃ g2, run_steps [step_fixture libc_no_file 50000 (1 / 86400),
                       step_fixture libc_no_file 50000 (1 / 86400)]
        (globals_fixture 50000 1 0 csv_path nrl_init) = some g2 ∧
      load_calls g2.calls = 2 ∧ g2.nrl = nrl_init) ∧
    (∃ g2, run_steps [step_fixture libc_comment_only 50000 (1 / 86400),
                       step_fixture libc_comment_only 50000 (1 / 86400)]
        (globals_fixture 50000 1 0 csv_path nrl_init) = some g2 ∧
      load_calls g2.calls = 2 ∧ g2.nrl = nrl_init) := by
  refine ⟨by decide, rfl, by decide, rfl, ?_, ?_⟩
  · exact two_steps_two_loads libc_no_file (by simp [load_nrl_csv, libc_no_file])
  · have hskip : is_skipped comment_line = true := by decide
    exact two_steps_two_loads libc_comment_only
      (by simp [load_nrl_csv, libc_comment_only, libc_one_row, nrl_init, load_rows, hskip])

/-- C11 (amended): in every run on consistent statics each step calls
`load_nrl_csv` at most once, and once the flag is set the table is never
reloaded: from any point of the run at which `nrl_table_loaded` is not 0, the
rest of the run makes no call of `load_nrl_csv` and leaves the statics as they
are.  While the flag is 0, a step that tries the table with the table source
enabled and a file name configured calls `load_nrl_csv` again. -/
theorem C11_load_once_per_step_and_never_after_success (pre post : List StepInput)
    (g : Globals) (hok : store_ok g.nrl) :
    (∃ g1 g2, run_steps pre g = some g1 ∧ run_steps post g1 = some g2 ∧
      run_steps (pre ++ post) g = some g2 ∧
      load_calls g2.calls ≤ load_calls g.calls + (pre ++ post).length ∧
      (g1.nrl.nrl_table_loaded ≠ 0 →
        g2.nrl = g1.nrl ∧ load_calls g2.calls = load_calls g1.calls)) ∧
    (∀ (libc : Libc) (host : Host) (g2 : Globals),
      g.use_nrlmsis ≠ 0 → g.nrlmsis_datafile.length > 0 → g.nrl.nrl_table_loaded = 0 →
      (host.toReal (g.sat_r_lla.Alt / 1000) < 85 ∨
        host.toReal (g.sat_r_lla.Alt / 1000) > 400 ∨
        (85 ≤ host.toReal (g.sat_r_lla.Alt / 1000) ∧
          host.toReal (g.sat_r_lla.Alt / 1000) ≤ 400 ∧ g.neutdens_prefer_msise_90 ≠ 0)) →
      compute_neutral_densities libc host g = some g2 →
      load_calls g2.calls = load_calls g.calls + 1) := by
  constructor
  · obtain ⟨g1, h1, hok1, hc1, _⟩ := run_steps_summary pre g hok
    obtain ⟨g2, h2, _, hc2, hk2⟩ := run_steps_summary post g1 hok1
    refine ⟨g1, g2, h1, h2, ?_, ?_, hk2⟩
    · rw [run_steps_append, h1]; exact h2
    · rw [List.length_append]; omega
  · intro libc host g2 hon hpath h0 hbranch hstep
    exact (step_retries_load libc host g g2 hon hpath h0 hbranch hstep).1

/-- C11 (witness): a run from the initial statics of one step followed by one
more step, both at 50 km on the one-row file: the first step loads the table,
the second makes no call of `load_nrl_csv`, one call in the run. -/
theorem C11_witness_two_steps_one_row_file :
    store_ok (globals_fixture 50000 1 0 csv_path nrl_init).nrl ∧
    ∃ g1 g2,
      run_steps [step_fixture libc_one_row 50000 (1 / 86400)]
        (globals_fixture 50000 1 0 csv_path nrl_init) = some g1 ∧
      run_steps [step_fixture libc_one_row 50000 (1 / 86400)] g1 = some g2 ∧
      run_steps ([step_fixture libc_one_row 50000 (1 / 86400)] ++
          [step_fixture libc_one_row 50000 (1 / 86400)])
        (globals_fixture 50000 1 0 csv_path nrl_init) = some g2 ∧
      g1.nrl.nrl_table_loaded = 1 ∧ load_calls g1.calls = 1 ∧
      g2.nrl = g1.nrl ∧ load_calls g2.calls = 1 := by
  have hok0 : store_ok (globals_fixture 50000 1 0 csv_path nrl_init).nrl :=
    ⟨rfl, fun h => absurd rfl h⟩
  obtain ⟨g1, g2, h1, h2, h3, _, hk⟩ :=
    (C11_load_once_per_step_and_never_after_success
      [step_fixture libc_one_row 50000 (1 / 86400)]
      [step_fixture libc_one_row 50000 (1 / 86400)]
      (globals_fixture 50000 1 0 csv_path nrl_init) hok0).1
  have hstep : compute_neutral_densities libc_one_row host_fixture
      (enter_step (step_fixture libc_one_row 50000 (1 / 86400))
        (globals_fixture 50000 1 0 csv_path nrl_init)) = some g1 := by
    have h1' := h1
    simp only [run_steps] at h1'
    cases hc : compute_neutral_densities (step_fixture libc_one_row 50000 (1 / 86400)).libc
        (step_fixture libc_one_row 50000 (1 / 86400)).host
        (enter_step (step_fixture libc_one_row 50000 (1 / 86400))
          (globals_fixture 50000 1 0 csv_path nrl_init)) with
    | none => rw [hc] at h1'; simp at h1'
    | some x => rw [hc] at h1'; simp only [Option.some.injEq] at h1'; rw [← h1']; exact hc
  have halt : host_fixture.toReal
      ((enter_step (step_fixture libc_one_row 50000 (1 / 86400))
        (globals_fixture 50000 1 0 csv_path nrl_init)).sat_r_lla.Alt / 1000) < 85 := by
    simp [host_fixture, enter_step, step_fixture]
    norm_num
  obtain ⟨hc1, hn1⟩ := step_retries_load libc_one_row host_fixture _ g1 (by decide)
    (by decide) rfl (Or.inl halt) hstep
  have hload : (load_nrl_csv libc_one_row csv_path nrl_init).2.nrl_table_loaded = 1 := by
    simp [load_nrl_csv, libc_one_row, nrl_init, load_rows, one_row_scan,
      one_row_line_not_skipped]
  have hl1 : g1.nrl.nrl_table_loaded = 1 := by rw [hn1]; exact hload
  have hc1' : load_calls g1.calls = 1 := hc1
  obtain ⟨k1, k2⟩ := hk (by rw [hl1]; decide)
  exact ⟨hok0, g1, g2, h1, h2, h3, hl1, hc1', k1, k2.trans hc1'⟩

/-- C12 (counterexample): two files that open and for which `load_nrl_csv`
returns 0: one holds a comment line only, the other holds one data row and is
read while the allocation fails. -/
theorem C12_counterexample_opened_file_returns_0 :
    (libc_comment_only.fopen csv_path = some [comment_line] ∧
      is_skipped comment_line = true ∧
      (load_nrl_csv libc_comment_only csv_path nrl_init).1 = 0 ∧
      (load_nrl_csv libc_comment_only csv_path nrl_init).2 = nrl_init) ∧
    (libc_no_memory.fopen csv_path = some [one_row_line] ∧
      [one_row_line].filter (is_data_row libc_no_memory) = [one_row_line] ∧
      libc_no_memory.realloc 1 = false ∧
      (load_nrl_csv libc_no_memory csv_path nrl_init).1 = 0) := by
  have hskip : is_skipped comment_line = true := by decide
  refine ⟨⟨rfl, hskip, ?_, ?_⟩, rfl, ?_, rfl, ?_⟩
  · simp [load_nrl_csv, libc_comment_only, libc_one_row, nrl_init, load_rows, hskip]
  · simp [load_nrl_csv, libc_comment_only, libc_one_row, nrl_init, load_rows, hskip]
  · simp [is_data_row, one_row_line_not_skipped, libc_no_memory, libc_one_row, one_row_scan]
  · simp [load_nrl_csv, libc_no_memory, libc_one_row, nrl_init, load_rows, one_row_scan,
      one_row_line_not_skipped]

/-- C12 (amended): `load_nrl_csv` returns 0 or 1; it returns 0 when the file
cannot be opened, and also when the file opens but yields no data row or an
allocation fails during the ingest; it returns 1 exactly when the file opens,
at least one row is read and no allocation fails. -/
theorem C12_load_returns_1_iff_rows_were_read (libc : Libc) (path : List Char)
    (st : NrlStore) :
    ((load_nrl_csv libc path st).1 = 0 ∨ (load_nrl_csv libc path st).1 = 1) ∧
    (libc.fopen path = none → (load_nrl_csv libc path st).1 = 0) ∧
    (∀ lines, libc.fopen path = some lines → lines.filter (is_data_row libc) = [] →
      (load_nrl_csv libc path st).1 = 0) ∧
    (∀ lines, libc.fopen path = some lines →
      (∃ k, 0 < k ∧ k ≤ (lines.filter (is_data_row libc)).length ∧ libc.realloc k = false) →
      (load_nrl_csv libc path st).1 = 0) ∧
    ((load_nrl_csv libc path st).1 = 1 ↔
      ∃ lines, libc.fopen path = some lines ∧
        0 < (lines.filter (is_data_row libc)).length ∧
        ∀ k, 0 < k → k ≤ (lines.filter (is_data_row libc)).length →
          libc.realloc k = true) := by
  obtain ⟨h01, hiff⟩ := load_nrl_csv_return libc path st
  refine ⟨h01, ?_, ?_, ?_, hiff⟩
  · intro hnone
    rcases h01 with h | h
    · exact h
    · obtain ⟨lines, hl, _⟩ := hiff.mp h
      rw [hnone] at hl
      cases hl
  · intro lines hopen hempty
    rcases h01 with h | h
    · exact h
    · obtain ⟨l, hl, hpos, _⟩ := hiff.mp h
      rw [hopen] at hl
      cases hl
      rw [hempty] at hpos
      exact absurd hpos (by decide)
  · intro lines hopen hfail
    exact (load_nrl_csv_alloc_failure libc path st lines hopen hfail).1

/-- C13 (counterexample): a file that opens and holds one data row and nothing
else, read while the allocation fails: the call returns at line 131 and leaves
no row. -/
theorem C13_counterexample_allocation_failure_leaves_no_row :
    libc_no_memory.fopen csv_path = some [one_row_line] ∧
    [one_row_line].filter (is_data_row libc_no_memory) = [one_row_line] ∧
    (load_nrl_csv libc_no_memory csv_path nrl_init).2.nrl_table = [] ∧
    (load_nrl_csv libc_no_memory csv_path nrl_init).2.nrl_table_len = 0 := by
  refine ⟨rfl, ?_, ?_, ?_⟩
  · simp [is_data_row, one_row_line_not_skipped, libc_no_memory, libc_one_row, one_row_scan]
  · simp [load_nrl_csv, libc_no_memory, libc_one_row, nrl_init, load_rows, one_row_scan,
      one_row_line_not_skipped]
  · simp [load_nrl_csv, libc_no_memory, libc_one_row, nrl_init, load_rows, one_row_scan,
      one_row_line_not_skipped]

/-- C13 (amended): for a file that opens, the data rows are the buffers that
are neither skipped (blank, comment) nor short (fewer than 14 fields).  When
no allocation fails, `load_nrl_csv` leaves exactly one row for every data row,
whatever lines lie between them: the length is their number N, and the row at
index i is the row built from the fields of the i-th data row in file order.
When an allocation fails, the call returns 0 and leaves no table. -/
theorem C13_load_keeps_data_rows_in_file_order (libc : Libc) (path : List Char)
    (st : NrlStore) (lines : List (List Char))
    (hopen : libc.fopen path = some lines) :
    ((∀ k, 0 < k → k ≤ (lines.filter (is_data_row libc)).length → libc.realloc k = true) →
      (load_nrl_csv libc path st).2.nrl_table
        = (lines.filter (is_data_row libc)).map (fun l => make_row libc (libc.sscanf l)) ∧
      (load_nrl_csv libc path st).2.nrl_table_len = (lines.filter (is_data_row libc)).length ∧
      (load_nrl_csv libc path st).2.nrl_table.length
        = (lines.filter (is_data_row libc)).length ∧
      (∀ (i : Nat) (line : List Char), (lines.filter (is_data_row libc))[i]? = some line →
        (load_nrl_csv libc path st).2.nrl_table[i]?
          = some (make_row libc (libc.sscanf line)))) ∧
    ((∃ k, 0 < k ∧ k ≤ (lines.filter (is_data_row libc)).length ∧ libc.realloc k = false) →
      (load_nrl_csv libc path st).1 = 0 ∧ (load_nrl_csv libc path st).2.nrl_table = []) ∧
    (∀ line ∈ lines, is_data_row libc line = false ↔
      (is_skipped line = true ∨ (libc.sscanf line).got < 14)) := by
  refine ⟨?_, load_nrl_csv_alloc_failure libc path st lines hopen, ?_⟩
  · intro halloc
    rw [load_nrl_csv_complete libc path st lines hopen halloc]
    refine ⟨rfl, rfl, by simp, ?_⟩
    intro i line hi
    simp [List.getElem?_map, hi]
  · intro line _
    simp only [is_data_row, Bool.and_eq_false_iff, Bool.not_eq_false', decide_eq_false_iff_not,
      not_le]

/-- C13 (witness): a file of five buffers, a comment, a data row, a malformed
row of three fields, a blank line and a second data row: the table holds the
two data rows, in file order. -/
theorem C13_witness_interleaved_file :
    libc_interleaved.fopen csv_path
      = some [comment_line, one_row_line, short_row_line, blank_line, second_row_line] ∧
    is_skipped comment_line = true ∧ is_skipped blank_line = true ∧
    is_skipped short_row_line = false ∧ (libc_interleaved.sscanf short_row_line).got = 3 ∧
    interleaved_lines.filter (is_data_row libc_interleaved) = [one_row_line, second_row_line] ∧
    (∀ k, 0 < k → k ≤ (interleaved_lines.filter (is_data_row libc_interleaved)).length →
      libc_interleaved.realloc k = true) ∧
    (load_nrl_csv libc_interleaved csv_path nrl_init).2.nrl_table
      = [make_row libc_interleaved one_row_scan, make_row libc_interleaved second_row_scan] ∧
    (load_nrl_csv libc_interleaved csv_path nrl_init).2.nrl_table_len = 2 := by
  have hc : is_skipped comment_line = true := by decide
  have hb : is_skipped blank_line = true := by decide
  have hs : is_skipped short_row_line = false := by decide
  have h1 : is_skipped one_row_line = false := one_row_line_not_skipped
  have h2 : is_skipped second_row_line = false := by decide
  have e1 : libc_interleaved.sscanf one_row_line = one_row_scan := by
    have n1 : one_row_line ≠ short_row_line := by decide
    have n2 : one_row_line ≠ second_row_line := by decide
    simp [libc_interleaved, n1, n2]
  have e2 : libc_interleaved.sscanf second_row_line = second_row_scan := by
    have n1 : second_row_line ≠ short_row_line := by decide
    simp [libc_interleaved, n1]
  have e3 : libc_interleaved.sscanf short_row_line = short_row_scan := by
    simp [libc_interleaved]
  have hrows : interleaved_lines.filter (is_data_row libc_interleaved)
      = [one_row_line, second_row_line] := by
    have d0 : is_data_row libc_interleaved comment_line = false := by simp [is_data_row, hc]
    have d1 : is_data_row libc_interleaved one_row_line = true := by
      simp [is_data_row, h1, e1, one_row_scan]
    have d2 : is_data_row libc_interleaved short_row_line = false := by
      simp [is_data_row, e3, short_row_scan]
    have d3 : is_data_row libc_interleaved blank_line = false := by simp [is_data_row, hb]
    have d4 : is_data_row libc_interleaved second_row_line = true := by
      simp [is_data_row, h2, e2, second_row_scan]
    simp [interleaved_lines, List.filter, d0, d1, d2, d3, d4]
  have halloc : ∀ k, 0 < k →
      k ≤ (interleaved_lines.filter (is_data_row libc_interleaved)).length →
      libc_interleaved.realloc k = true := fun _ _ _ => rfl
  have h := (C13_load_keeps_data_rows_in_file_order libc_interleaved csv_path nrl_init
    interleaved_lines rfl).1 halloc
  rw [hrows] at h
  refine ⟨rfl, hc, hb, hs, by rw [e3]; rfl, hrows, halloc, ?_, ?_⟩
  · rw [h.1]; simp [e1, e2]
  · rw [h.2.1]; rfl

/-- C14: a data row whose time stamp `strptime` cannot parse is treated by
`load_nrl_csv` like any other data row.  The row built for it has epoch 0 and
takes every other field from the scanned row; the return value, the length and
the flag after the call are the same as with any other behaviour of `strptime`
and `timegm`, so the row count is the one obtained had the time stamp parsed;
and when no allocation fails the row is in the table, which has one row for
every data row of the file. -/
theorem C14_unparsed_time_stamp_keeps_row_with_epoch_0 (libc : Libc) (path : List Char)
    (st : NrlStore) (lines : List (List Char)) (line : List Char)
    (hopen : libc.fopen path = some lines) (hmem : line ∈ lines)
    (hrow : is_data_row libc line = true)
    (hts : libc.strptime (libc.sscanf line).time_iso = none) :
    (make_row libc (libc.sscanf line)).epoch = 0 ∧
    (make_row libc (libc.sscanf line)).lat = (libc.sscanf line).t_lat ∧
    (make_row libc (libc.sscanf line)).lon = (libc.sscanf line).t_lon ∧
    (make_row libc (libc.sscanf line)).alt = (libc.sscanf line).t_alt ∧
    (make_row libc (libc.sscanf line)).dens
      = [(libc.sscanf line).he, (libc.sscanf line).o, (libc.sscanf line).n2,
         (libc.sscanf line).o2, (libc.sscanf line).ar, 0, (libc.sscanf line).mass,
         (libc.sscanf line).h] ∧
    (make_row libc (libc.sscanf line)).temps
      = [(libc.sscanf line).texo, (libc.sscanf line).talt] ∧
    (∀ (strptime2 : List Char → Option tm) (timegm2 : tm → Int),
      (load_nrl_csv { libc with strptime := strptime2, timegm := timegm2 } path st).1
        = (load_nrl_csv libc path st).1 ∧
      (load_nrl_csv { libc with strptime := strptime2, timegm := timegm2 } path st).2.nrl_table_len
        = (load_nrl_csv libc path st).2.nrl_table_len ∧
      (load_nrl_csv { libc with strptime := strptime2, timegm := timegm2 }
          path st).2.nrl_table_loaded
        = (load_nrl_csv libc path st).2.nrl_table_loaded) ∧
    ((∀ k, 0 < k → k ≤ (lines.filter (is_data_row libc)).length → libc.realloc k = true) →
      make_row libc (libc.sscanf line) ∈ (load_nrl_csv libc path st).2.nrl_table ∧
      (load_nrl_csv libc path st).2.nrl_table_len
        = (lines.filter (is_data_row libc)).length) := by
  refine ⟨by simp [make_row, row_epoch, hts], rfl, rfl, rfl, rfl, rfl, ?_, ?_⟩
  · intro strptime2 timegm2
    obtain ⟨h1, h2, h3, _⟩ := load_nrl_csv_counter_indep libc
      { libc with strptime := strptime2, timegm := timegm2 } path st rfl rfl rfl
    exact ⟨h1, h2, h3⟩
  · intro halloc
    rw [load_nrl_csv_complete libc path st lines hopen halloc]
    refine ⟨?_, rfl⟩
    simp only [List.mem_map, List.mem_filter]
    exact ⟨line, ⟨hmem, hrow⟩, rfl⟩

/-- C14 (witness): the file of `libc_bad_time`, whose only row starts with
`yesterday`. -/
theorem C14_witness_row_with_bad_time_stamp :
    (libc_bad_time.fopen csv_path = some [bad_time_line] ∧
      bad_time_line ∈ [bad_time_line] ∧
      is_data_row libc_bad_time bad_time_line = true ∧
      libc_bad_time.strptime (libc_bad_time.sscanf bad_time_line).time_iso = none) ∧
    (make_row libc_bad_time (libc_bad_time.sscanf bad_time_line)).epoch = 0 ∧
    make_row libc_bad_time (libc_bad_time.sscanf bad_time_line)
      ∈ (load_nrl_csv libc_bad_time csv_path nrl_init).2.nrl_table ∧
    (load_nrl_csv libc_bad_time csv_path nrl_init).2.nrl_table_len = 1 := by
  have hskip : is_skipped bad_time_line = false := by decide
  have hrow : is_data_row libc_bad_time bad_time_line = true := by
    simp [is_data_row, hskip, libc_bad_time, one_row_scan]
  have hf : [bad_time_line].filter (is_data_row libc_bad_time) = [bad_time_line] := by
    simp [hrow]
  have h := C14_unparsed_time_stamp_keeps_row_with_epoch_0 libc_bad_time csv_path nrl_init
    [bad_time_line] bad_time_line rfl (List.mem_singleton.mpr rfl) hrow rfl
  have h8 := h.2.2.2.2.2.2.2 (fun _ _ _ => rfl)
  rw [hf] at h8
  exact ⟨⟨rfl, List.mem_singleton.mpr rfl, hrow, rfl⟩, h.1, h8.1, h8.2⟩

/-- C15: a call of `load_nrl_csv` on a file B that opens, made after a call on
a file A, leaves the rows and the length that the call on B alone leaves from
the empty state: no row of A is retained.  The whole state, flag included, is
the same whenever the program can make the second call, that is when the
first call left the flag at 0, and also whenever the second call runs to
completion. -/
theorem C15_reload_replaces_table (libcA libcB : Libc) (pathA pathB : List Char)
    (linesB : List (List Char)) (hB : libcB.fopen pathB = some linesB) :
    (load_nrl_csv libcB pathB (load_nrl_csv libcA pathA nrl_init).2).2.nrl_table
      = (load_nrl_csv libcB pathB nrl_init).2.nrl_table ∧
    (load_nrl_csv libcB pathB (load_nrl_csv libcA pathA nrl_init).2).2.nrl_table_len
      = (load_nrl_csv libcB pathB nrl_init).2.nrl_table_len ∧
    (((load_nrl_csv libcA pathA nrl_init).2.nrl_table_loaded = 0 ∨
        runs_to_completion libcB pathB = true) →
      (load_nrl_csv libcB pathB (load_nrl_csv libcA pathA nrl_init).2).2
        = (load_nrl_csv libcB pathB nrl_init).2) := by
  have hA : ReachableGuarded (load_nrl_csv libcA pathA nrl_init).2 :=
    ReachableGuarded.load _ _ _ ReachableGuarded.init rfl
  have hrows := load_nrl_csv_rows_forget libcB pathB (load_nrl_csv libcA pathA nrl_init).2
    linesB hB (reachable_guarded_inv _ hA).1
  refine ⟨hrows.1, hrows.2, ?_⟩
  rintro (h0 | hdone)
  · rw [reachable_guarded_unloaded _ hA h0]
  · rw [load_complete_forgets libcB pathB _ nrl_init hdone]

/-- C15 (witness): the one-row file, then the file whose single row has a time
stamp that does not parse: both calls run to completion, and after the second
call the table holds the row of the second file alone, as after that call from
the empty state. -/
theorem C15_witness_one_row_then_bad_time :
    libc_bad_time.fopen csv_path = some [bad_time_line] ∧
    runs_to_completion libc_bad_time csv_path = true ∧
    (load_nrl_csv libc_one_row csv_path nrl_init).2
      = { nrl_table := [make_row libc_one_row one_row_scan], nrl_table_len := 1,
          nrl_table_loaded := 1 } ∧
    (load_nrl_csv libc_bad_time csv_path (load_nrl_csv libc_one_row csv_path nrl_init).2).2
      = (load_nrl_csv libc_bad_time csv_path nrl_init).2 ∧
    (load_nrl_csv libc_bad_time csv_path nrl_init).2
      = { nrl_table := [{ make_row libc_one_row one_row_scan with epoch := 0 }],
          nrl_table_len := 1, nrl_table_loaded := 1 } := by
  have hskip : is_skipped bad_time_line = false := by decide
  have hdone : runs_to_completion libc_bad_time csv_path = true := by
    simp [runs_to_completion, libc_bad_time, load_rows, hskip, one_row_scan]
  have h1 : (load_nrl_csv libc_one_row csv_path nrl_init).2
      = { nrl_table := [make_row libc_one_row one_row_scan], nrl_table_len := 1,
          nrl_table_loaded := 1 } := by
    simp [load_nrl_csv, libc_one_row, nrl_init, load_rows, one_row_scan,
      one_row_line_not_skipped]
  refine ⟨rfl, hdone, h1,
    (C15_reload_replaces_table libc_one_row libc_bad_time csv_path csv_path [bad_time_line]
      rfl).2.2 (Or.inr hdone), ?_⟩
  simp [load_nrl_csv, libc_bad_time, nrl_init, load_rows, one_row_scan, make_row, row_epoch,
    libc_one_row, hskip]

/-- C16 (counterexample): a step at 50 km with the table source disabled, an
atomic-oxygen density of 1e10 from model B, speed 7500 and a time step of one
second, from flux 0.  The time step 1/86400 is no `double`; the code receives
the nearest one, `incr_one_second`.  The product `1e10 * 7500` is exact, the
products by the time step and by 86400 are rounded, and the flux becomes
74999999999999.984375: neither 7.5e13, the value the claim gives, nor the
exact value of the formula at the time step the code received. -/
theorem C16_counterexample_products_are_rounded :
    round64 (1 / 86400) = Dbl.fin incr_one_second ∧
    ∃ g2, compute_neutral_densities libc_one_row host_oxygen
        (enter_step (step_fixture libc_one_row 50000 incr_one_second)
          (globals_fixture 50000 0 0 csv_path nrl_init)) = some g2 ∧
      (enter_step (step_fixture libc_one_row 50000 incr_one_second)
          (globals_fixture 50000 0 0 csv_path nrl_init)).cum_flux_ao = Dbl.fin 0 ∧
      g2.neutdens_numb_o = 1e10 ∧
      (enter_step (step_fixture libc_one_row 50000 incr_one_second)
          (globals_fixture 50000 0 0 csv_path nrl_init)).sat_v_eci_mag = 7500 ∧
      (enter_step (step_fixture libc_one_row 50000 incr_one_second)
          (globals_fixture 50000 0 0 csv_path nrl_init)).incr_time = incr_one_second ∧
      g2.cum_flux_ao = Dbl.fin (4799999999999999 / 64) ∧
      accumulate 0 1e10 7500 (1 / 86400) = 7.5e13 ∧
      g2.cum_flux_ao ≠ Dbl.fin (accumulate 0 1e10 7500 (1 / 86400)) ∧
      g2.cum_flux_ao ≠ Dbl.fin (accumulate 0 1e10 7500 incr_one_second) := by
  have ht : round64 (1 / 86400) = Dbl.fin incr_one_second := by
    rw [round64_eval (1 / 86400) (-17) 6832127434707241 (by norm_num [abs_of_pos])
      (by norm_num [abs_of_pos]) (by norm_num) (by norm_num [abs_lt])
      (by unfold DBL_MAX; norm_num [abs_of_pos])]
    unfold incr_one_second
    norm_num
  have hs := step_low_disabled libc_one_row host_oxygen
    (enter_step (step_fixture libc_one_row 50000 incr_one_second)
      (globals_fixture 50000 0 0 csv_path nrl_init)) rfl
    (by simp [host_oxygen, host_fixture, enter_step, step_fixture]; norm_num)
  have hf := compute_flux libc_one_row host_oxygen _ _ hs
  have ho : (publish (use_msise90 host_oxygen (set_inputs host_oxygen
      (enter_step (step_fixture libc_one_row 50000 incr_one_second)
        (globals_fixture 50000 0 0 csv_path nrl_init))))).neutdens_numb_o = 1e10 := rfl
  have h1 : round64 ((1e10 : ℚ) * 7500) = Dbl.fin (1e10 * 7500) :=
    round64_int _ 75000000000000 (by norm_num) (by norm_num)
  have h2 : round64 ((1e10 : ℚ) * 7500 * incr_one_second)
      = Dbl.fin (7281777777777777 / 8388608) := by
    rw [round64_eval _ 29 7281777777777777 (by unfold incr_one_second; norm_num [abs_of_pos])
      (by unfold incr_one_second; norm_num [abs_of_pos]) (by norm_num)
      (by unfold incr_one_second; norm_num [abs_lt])
      (by unfold DBL_MAX; norm_num [abs_of_pos])]
    norm_num
  have h3 : round64 ((7281777777777777 / 8388608 : ℚ) * (24 * 60 * 60))
      = Dbl.fin (4799999999999999 / 64) := by
    rw [round64_eval _ 46 4799999999999999 (by norm_num [abs_of_pos])
      (by norm_num [abs_of_pos]) (by norm_num) (by norm_num [abs_lt])
      (by unfold DBL_MAX; norm_num [abs_of_pos])]
    norm_num
  have h4 : round64 ((0 : ℚ) + 4799999999999999 / 64) = Dbl.fin (4799999999999999 / 64) := by
    rw [round64_eval _ 46 4799999999999999 (by norm_num [abs_of_pos])
      (by norm_num [abs_of_pos]) (by norm_num) (by norm_num [abs_lt])
      (by unfold DBL_MAX; norm_num [abs_of_pos])]
    norm_num
  have hval : (publish (use_msise90 host_oxygen (set_inputs host_oxygen
      (enter_step (step_fixture libc_one_row 50000 incr_one_second)
        (globals_fixture 50000 0 0 csv_path nrl_init))))).cum_flux_ao
      = Dbl.fin (4799999999999999 / 64) := by
    rw [hf, ho]
    exact flux_value 0 1e10 7500 incr_one_second _ _ _ _ h1 h2 h3 h4
  refine ⟨ht, _, hs, rfl, ho, rfl, rfl, hval, ?_, ?_, ?_⟩
  · unfold accumulate; norm_num
  · rw [hval]; unfold accumulate; norm_num
  · rw [hval]; unfold accumulate incr_one_second; norm_num

/-- C16 (amended): across every step that returns, the flux is the value of
line 359 in `double` arithmetic: the products of the atomic-oxygen density just
written by the speed, by the time step and by 86400 and then the sum with the
previous flux, each operation rounded to the nearest `double`; the step writes
the flux nowhere else, so there is no reset and no clipping.  When none of the
four operations rounds, the flux is the exact value of the formula of the
spec, `cumulative + o_density * velocity_magnitude * elapsed_days * 86400`. -/
theorem C16_flux_update_in_double_arithmetic (libc : Libc) (host : Host) (g g2 : Globals)
    (hstep : compute_neutral_densities libc host g = some g2) :
    g2.cum_flux_ao
      = Dbl.add g.cum_flux_ao
          (Dbl.mul (Dbl.mul (Dbl.mul (Dbl.fin g2.neutdens_numb_o) (Dbl.fin g.sat_v_eci_mag))
            (Dbl.fin g.incr_time)) (Dbl.fin (24 * 60 * 60))) ∧
    (∀ c : ℚ, g.cum_flux_ao = Dbl.fin c →
      is_double (g2.neutdens_numb_o * g.sat_v_eci_mag) = true →
      is_double (g2.neutdens_numb_o * g.sat_v_eci_mag * g.incr_time) = true →
      is_double (g2.neutdens_numb_o * g.sat_v_eci_mag * g.incr_time * 86400) = true →
      is_double (c + g2.neutdens_numb_o * g.sat_v_eci_mag * g.incr_time * 86400) = true →
      g2.cum_flux_ao
        = Dbl.fin (accumulate c g2.neutdens_numb_o g.sat_v_eci_mag g.incr_time)) := by
  have h := compute_flux libc host g g2 hstep
  refine ⟨h, ?_⟩
  intro c hc h1 h2 h3 h4
  have h86400 : (24 * 60 * 60 : ℚ) = 86400 := by norm_num
  have e1 : round64 (g2.neutdens_numb_o * g.sat_v_eci_mag)
      = Dbl.fin (g2.neutdens_numb_o * g.sat_v_eci_mag) := by simpa [is_double] using h1
  have e2 : round64 (g2.neutdens_numb_o * g.sat_v_eci_mag * g.incr_time)
      = Dbl.fin (g2.neutdens_numb_o * g.sat_v_eci_mag * g.incr_time) := by
    simpa [is_double] using h2
  have e3 : round64 (g2.neutdens_numb_o * g.sat_v_eci_mag * g.incr_time * (24 * 60 * 60))
      = Dbl.fin (g2.neutdens_numb_o * g.sat_v_eci_mag * g.incr_time * 86400) := by
    rw [h86400]; simpa [is_double] using h3
  have e4 : round64 (c + g2.neutdens_numb_o * g.sat_v_eci_mag * g.incr_time * 86400)
      = Dbl.fin (accumulate c g2.neutdens_numb_o g.sat_v_eci_mag g.incr_time) := by
    simpa [is_double, accumulate] using h4
  rw [h, hc]
  exact flux_value c _ _ _ _ _ _ _ e1 e2 e3 e4

/-- C16 (witness): a step at 50 km with the table source disabled, an
atomic-oxygen density of 62 from model B, speed 7500 and a time step of one
day, from flux 0: no operation rounds and the flux becomes
`62 * 7500 * 86400 = 40176000000`. -/
theorem C16_witness_one_day_step :
    ∃ g2, compute_neutral_densities libc_one_row host_fixture
        (enter_step (step_fixture libc_one_row 50000 1)
          (globals_fixture 50000 0 0 csv_path nrl_init)) = some g2 ∧
      (enter_step (step_fixture libc_one_row 50000 1)
          (globals_fixture 50000 0 0 csv_path nrl_init)).cum_flux_ao = Dbl.fin 0 ∧
      g2.neutdens_numb_o = 62 ∧
      (enter_step (step_fixture libc_one_row 50000 1)
          (globals_fixture 50000 0 0 csv_path nrl_init)).sat_v_eci_mag = 7500 ∧
      (enter_step (step_fixture libc_one_row 50000 1)
          (globals_fixture 50000 0 0 csv_path nrl_init)).incr_time = 1 ∧
      g2.cum_flux_ao = Dbl.fin (accumulate 0 62 7500 1) ∧
      accumulate 0 62 7500 1 = 40176000000 := by
  have hs := step_low_disabled libc_one_row host_fixture
    (enter_step (step_fixture libc_one_row 50000 1)
      (globals_fixture 50000 0 0 csv_path nrl_init)) rfl
    (by simp [host_fixture, enter_step, step_fixture]; norm_num)
  have ho : (publish (use_msise90 host_fixture (set_inputs host_fixture
      (enter_step (step_fixture libc_one_row 50000 1)
        (globals_fixture 50000 0 0 csv_path nrl_init))))).neutdens_numb_o = 62 := rfl
  have hv : (enter_step (step_fixture libc_one_row 50000 1)
      (globals_fixture 50000 0 0 csv_path nrl_init)).sat_v_eci_mag = 7500 := rfl
  have hti : (enter_step (step_fixture libc_one_row 50000 1)
      (globals_fixture 50000 0 0 csv_path nrl_init)).incr_time = 1 := rfl
  have h := (C16_flux_update_in_double_arithmetic libc_one_row host_fixture _ _ hs).2 0 rfl
    (by rw [ho, hv]; exact is_double_int _ 465000 (by norm_num) (by norm_num))
    (by rw [ho, hv, hti]; exact is_double_int _ 465000 (by norm_num) (by norm_num))
    (by rw [ho, hv, hti]; exact is_double_int _ 40176000000 (by norm_num) (by norm_num))
    (by rw [ho, hv, hti]; exact is_double_int _ 40176000000 (by norm_num) (by norm_num))
  rw [ho, hv, hti] at h
  refine ⟨_, hs, rfl, ho, hv, hti, h, ?_⟩
  unfold accumulate; norm_num

/-- C17 (counterexample): two steps at 50 km with a non-negative atomic-oxygen
density and a non-negative speed, from flux 0.  With density 62, speed 7500
and a time step of -1 day every operation is exact and the flux goes down to
`-40176000000`.  With density `2 ^ 100`, speed `2 ^ 1000` and a time step of
0 the product of density and speed overflows to `+inf`, its product by 0 is
NaN, and the flux becomes NaN, which compares greater than or equal to
nothing. -/
theorem C17_counterexample_negative_time_step_and_nan :
    (∃ g2, compute_neutral_densities libc_one_row host_fixture
        (enter_step (step_fixture libc_one_row 50000 (-1))
          (globals_fixture 50000 0 0 csv_path nrl_init)) = some g2 ∧
      0 ≤ g2.neutdens_numb_o ∧
      0 ≤ (enter_step (step_fixture libc_one_row 50000 (-1))
          (globals_fixture 50000 0 0 csv_path nrl_init)).sat_v_eci_mag ∧
      (enter_step (step_fixture libc_one_row 50000 (-1))
          (globals_fixture 50000 0 0 csv_path nrl_init)).cum_flux_ao = Dbl.fin 0 ∧
      g2.cum_flux_ao = Dbl.fin (-40176000000) ∧
      Dbl.le (enter_step (step_fixture libc_one_row 50000 (-1))
          (globals_fixture 50000 0 0 csv_path nrl_init)).cum_flux_ao g2.cum_flux_ao = false) ∧
    (∃ g2, compute_neutral_densities libc_one_row host_dense
        (enter_step overflow_step (globals_fixture 50000 0 0 csv_path nrl_init)) = some g2 ∧
      g2.neutdens_numb_o = 2 ^ 100 ∧
      (enter_step overflow_step
          (globals_fixture 50000 0 0 csv_path nrl_init)).sat_v_eci_mag = 2 ^ 1000 ∧
      (enter_step overflow_step (globals_fixture 50000 0 0 csv_path nrl_init)).incr_time = 0 ∧
      (enter_step overflow_step
          (globals_fixture 50000 0 0 csv_path nrl_init)).cum_flux_ao = Dbl.fin 0 ∧
      g2.cum_flux_ao = Dbl.nan ∧
      Dbl.le (enter_step overflow_step
          (globals_fixture 50000 0 0 csv_path nrl_init)).cum_flux_ao g2.cum_flux_ao = false) := by
  constructor
  · have hs := step_low_disabled libc_one_row host_fixture
      (enter_step (step_fixture libc_one_row 50000 (-1))
        (globals_fixture 50000 0 0 csv_path nrl_init)) rfl
      (by simp [host_fixture, enter_step, step_fixture]; norm_num)
    have hf := compute_flux libc_one_row host_fixture _ _ hs
    have ho : (publish (use_msise90 host_fixture (set_inputs host_fixture
        (enter_step (step_fixture libc_one_row 50000 (-1))
          (globals_fixture 50000 0 0 csv_path nrl_init))))).neutdens_numb_o = 62 := rfl
    have hval : (publish (use_msise90 host_fixture (set_inputs host_fixture
        (enter_step (step_fixture libc_one_row 50000 (-1))
          (globals_fixture 50000 0 0 csv_path nrl_init))))).cum_flux_ao
        = Dbl.fin (-40176000000) := by
      rw [hf, ho]
      exact flux_value 0 62 7500 (-1) (62 * 7500) (62 * 7500 * -1) (-40176000000) _
        (round64_int _ 465000 (by norm_num) (by norm_num))
        (round64_int _ (-465000) (by norm_num) (by norm_num))
        ((round64_int _ (-40176000000) (by norm_num) (by norm_num)).trans (by norm_num))
        ((round64_int _ (-40176000000) (by norm_num) (by norm_num)).trans (by norm_num))
    refine ⟨_, hs, ?_, ?_, rfl, hval, ?_⟩
    · rw [ho]; norm_num
    · simp [enter_step, step_fixture]
    · rw [hval]
      simp [enter_step, globals_fixture, Dbl.le]
  · have hs := step_low_disabled libc_one_row host_dense
      (enter_step overflow_step (globals_fixture 50000 0 0 csv_path nrl_init)) rfl
      (by simp [host_dense, host_fixture, enter_step, overflow_step, step_fixture]; norm_num)
    have hf := compute_flux libc_one_row host_dense _ _ hs
    have ho : (publish (use_msise90 host_dense (set_inputs host_dense
        (enter_step overflow_step
          (globals_fixture 50000 0 0 csv_path nrl_init))))).neutdens_numb_o = 2 ^ 100 := rfl
    have hover : round64 ((2 : ℚ) ^ 100 * 2 ^ 1000) = Dbl.inf false :=
      round64_overflow _ 1100 (2 ^ 52) (by norm_num [abs_of_pos]) (by norm_num [abs_of_pos])
        (by norm_num) (by norm_num [abs_lt]) (by unfold DBL_MAX; norm_num)
    have hval : (publish (use_msise90 host_dense (set_inputs host_dense
        (enter_step overflow_step
          (globals_fixture 50000 0 0 csv_path nrl_init))))).cum_flux_ao = Dbl.nan := by
      rw [hf, ho]
      show Dbl.add (Dbl.fin 0)
        (Dbl.mul (Dbl.mul (round64 ((2 : ℚ) ^ 100 * 2 ^ 1000)) (Dbl.fin 0))
          (Dbl.fin (24 * 60 * 60))) = Dbl.nan
      rw [hover]
      simp [Dbl.mul, Dbl.add]
    refine ⟨_, hs, ho, rfl, rfl, rfl, hval, ?_⟩
    rw [hval]
    rfl

/-- C17 (amended): across a step that returns, the cumulative flux does not
decrease when the atomic-oxygen density written by the step, the speed and
the time step `incr_time` are all non-negative and neither the previous flux
nor the updated flux is NaN.  The previous flux is a value of the type
`double`: a `double`, an infinity or, excluded here, NaN. -/
theorem C17_flux_nondecreasing_without_nan (libc : Libc) (host : Host)
    (g g2 : Globals) (hstep : compute_neutral_densities libc host g = some g2)
    (ho : 0 ≤ g2.neutdens_numb_o) (hv : 0 ≤ g.sat_v_eci_mag) (ht : 0 ≤ g.incr_time)
    (hdbl : ∀ c, g.cum_flux_ao = Dbl.fin c → is_double c = true)
    (hprev : g.cum_flux_ao ≠ Dbl.nan) (hnew : g2.cum_flux_ao ≠ Dbl.nan) :
    Dbl.le g.cum_flux_ao g2.cum_flux_ao = true := by
  have hf := compute_flux libc host g g2 hstep
  rw [hf] at hnew ⊢
  exact flux_add_ge _ _ hdbl (flux_increment_nonneg ho hv ht) hprev hnew

/-- C17 (witness): the step of one day at 50 km with density 62 and speed
7500: the flux goes from 0 to 40176000000. -/
theorem C17_witness_one_day_step :
    ∃ g2, compute_neutral_densities libc_one_row host_fixture
        (enter_step (step_fixture libc_one_row 50000 1)
          (globals_fixture 50000 0 0 csv_path nrl_init)) = some g2 ∧
      0 ≤ g2.neutdens_numb_o ∧
      0 ≤ (enter_step (step_fixture libc_one_row 50000 1)
          (globals_fixture 50000 0 0 csv_path nrl_init)).sat_v_eci_mag ∧
      0 ≤ (enter_step (step_fixture libc_one_row 50000 1)
          (globals_fixture 50000 0 0 csv_path nrl_init)).incr_time ∧
      (enter_step (step_fixture libc_one_row 50000 1)
          (globals_fixture 50000 0 0 csv_path nrl_init)).cum_flux_ao = Dbl.fin 0 ∧
      g2.cum_flux_ao = Dbl.fin 40176000000 ∧
      Dbl.le (enter_step (step_fixture libc_one_row 50000 1)
          (globals_fixture 50000 0 0 csv_path nrl_init)).cum_flux_ao g2.cum_flux_ao = true := by
  have hs := step_low_disabled libc_one_row host_fixture
    (enter_step (step_fixture libc_one_row 50000 1)
      (globals_fixture 50000 0 0 csv_path nrl_init)) rfl
    (by simp [host_fixture, enter_step, step_fixture]; norm_num)
  have hf := compute_flux libc_one_row host_fixture _ _ hs
  have ho : (publish (use_msise90 host_fixture (set_inputs host_fixture
      (enter_step (step_fixture libc_one_row 50000 1)
        (globals_fixture 50000 0 0 csv_path nrl_init))))).neutdens_numb_o = 62 := rfl
  have hval : (publish (use_msise90 host_fixture (set_inputs host_fixture
      (enter_step (step_fixture libc_one_row 50000 1)
        (globals_fixture 50000 0 0 csv_path nrl_init))))).cum_flux_ao
      = Dbl.fin 40176000000 := by
    rw [hf, ho]
    exact flux_value 0 62 7500 1 (62 * 7500) (62 * 7500 * 1) 40176000000 _
      (round64_int _ 465000 (by norm_num) (by norm_num))
      (round64_int _ 465000 (by norm_num) (by norm_num))
      ((round64_int _ 40176000000 (by norm_num) (by norm_num)).trans (by norm_num))
      ((round64_int _ 40176000000 (by norm_num) (by norm_num)).trans (by norm_num))
  have ho0 : (0 : ℚ) ≤ (publish (use_msise90 host_fixture (set_inputs host_fixture
      (enter_step (step_fixture libc_one_row 50000 1)
        (globals_fixture 50000 0 0 csv_path nrl_init))))).neutdens_numb_o := by
    rw [ho]; norm_num
  have hv : (0 : ℚ) ≤ (enter_step (step_fixture libc_one_row 50000 1)
      (globals_fixture 50000 0 0 csv_path nrl_init)).sat_v_eci_mag := by
    simp [enter_step, step_fixture]
  have ht : (0 : ℚ) ≤ (enter_step (step_fixture libc_one_row 50000 1)
      (globals_fixture 50000 0 0 csv_path nrl_init)).incr_time := by
    simp [enter_step, step_fixture]
  have hdbl : ∀ c, (enter_step (step_fixture libc_one_row 50000 1)
      (globals_fixture 50000 0 0 csv_path nrl_init)).cum_flux_ao = Dbl.fin c →
      is_double c = true := by
    intro c hc
    have hc0 : Dbl.fin 0 = Dbl.fin c := hc
    simp only [Dbl.fin.injEq] at hc0
    subst hc0
    exact is_double_int 0 0 (by norm_num) (by norm_num)
  exact ⟨_, hs, ho0, hv, ht, rfl, hval,
    C17_flux_nondecreasing_without_nan libc_one_row host_fixture _ _ hs ho0 hv ht hdbl
      (by simp [enter_step, globals_fixture]) (by rw [hval]; simp)⟩

/-- C18: in every state reached from the initial state by calls of
`load_nrl_csv` that run to completion, the flag is set exactly when the length
is positive; hence whenever `lookup_nrl_values` passes the test of line 145
the table is not empty, the index 0 and the index `best` left by the scan are
below the length, which is the number of rows in the block, and no read of the
table faults: the query returns. -/
theorem C18_loaded_flag_iff_rows_and_reads_in_bounds (st : NrlStore)
    (h : ReachableComplete st) :
    (st.nrl_table_loaded ≠ 0 ↔ 0 < st.nrl_table_len) ∧
    st.nrl_table_len = st.nrl_table.length ∧
    (∀ (epoch lat lon alt_m : ℚ) (out_dens out_temps : List ℚ),
      st.nrl_table_loaded ≠ 0 →
      ∃ best r, best_row st epoch alt_m = some best ∧
        0 < st.nrl_table_len ∧ best < st.nrl_table_len ∧
        st.nrl_table[best]? = some r ∧
        lookup_nrl_values st epoch lat lon alt_m out_dens out_temps
          = some { status := 1, out_dens := canonical_dens r,
                   out_temps := canonical_temps r }) ∧
    (∀ (epoch lat lon alt_m : ℚ) (out_dens out_temps : List ℚ),
      lookup_nrl_values st epoch lat lon alt_m out_dens out_temps ≠ none) := by
  obtain ⟨hlen, hflag, h01⟩ := reachable_complete_inv st h
  have hiff : st.nrl_table_loaded ≠ 0 ↔ 0 < st.nrl_table_len := by
    rw [← hflag]
    rcases h01 with h0 | h1
    · simp [h0]
    · simp [h1]
  have hhit : ∀ (epoch lat lon alt_m : ℚ) (out_dens out_temps : List ℚ),
      st.nrl_table_loaded ≠ 0 →
      ∃ best r, best_row st epoch alt_m = some best ∧
        0 < st.nrl_table_len ∧ best < st.nrl_table_len ∧
        st.nrl_table[best]? = some r ∧
        lookup_nrl_values st epoch lat lon alt_m out_dens out_temps
          = some { status := 1, out_dens := canonical_dens r,
                   out_temps := canonical_temps r } := by
    intro epoch lat lon alt_m out_dens out_temps hl
    obtain ⟨b, r, hb, hr, hbest, hlk, _⟩ :=
      lookup_loaded st epoch lat lon alt_m out_dens out_temps hl hlen (hiff.mp hl)
    exact ⟨b, r, hbest, hiff.mp hl, hb, hr, hlk⟩
  refine ⟨hiff, hlen, hhit, ?_⟩
  intro epoch lat lon alt_m out_dens out_temps
  by_cases hl : st.nrl_table_loaded = 0
  · simp [lookup_nrl_values, hl]
  · obtain ⟨_, _, _, _, _, _, hlk⟩ := hhit epoch lat lon alt_m out_dens out_temps hl
    rw [hlk]
    simp

/-- C18 (witness): the state after one call on the one-row file, queried at
epoch 0 and altitude 500 m. -/
theorem C18_witness_after_one_load :
    ReachableComplete (load_nrl_csv libc_one_row csv_path nrl_init).2 ∧
    ((load_nrl_csv libc_one_row csv_path nrl_init).2.nrl_table_loaded ≠ 0 ↔
      0 < (load_nrl_csv libc_one_row csv_path nrl_init).2.nrl_table_len) ∧
    (load_nrl_csv libc_one_row csv_path nrl_init).2.nrl_table_len
      = (load_nrl_csv libc_one_row csv_path nrl_init).2.nrl_table.length ∧
    lookup_nrl_values (load_nrl_csv libc_one_row csv_path nrl_init).2 0 0 0 500 [] [] ≠ none := by
  have hdone : runs_to_completion libc_one_row csv_path = true := by
    simp [runs_to_completion, libc_one_row, load_rows, one_row_line_not_skipped, one_row_scan]
  have hr : ReachableComplete (load_nrl_csv libc_one_row csv_path nrl_init).2 :=
    ReachableComplete.load _ _ _ ReachableComplete.init hdone
  have h := C18_loaded_flag_iff_rows_and_reads_in_bounds _ hr
  exact ⟨hr, h.1, h.2.1, h.2.2.2 0 0 0 500 [] []⟩

/-- C19: every step on consistent statics returns and takes its outputs from
exactly one source, which the tag names: either the tag is "NRLMSIS", the
query was a hit whose values are the outputs and no model is called; or the
tag is the MSISE-90 tag, `gts6_` is called once, no other model is called and
its outputs are the outputs; or the same with the MSIS-86 tag and `gts5_`.
This holds for every altitude and every setting of the flags. -/
theorem C19_outputs_come_from_exactly_one_source (libc : Libc) (host : Host) (g : Globals)
    (hok : store_ok g.nrl) :
    ∃ g2, compute_neutral_densities libc host g = some g2 ∧
      ((g2.neutdens_model = "NRLMSIS".toList ∧
          model_calls g2.calls = model_calls g.calls ∧
          ∃ lk, query_table host (lazy_load libc (set_inputs host g)) = some lk ∧
            lk.status ≠ 0 ∧
            g2.dens_out = lk.out_dens.map host.toReal ∧
            g2.temp_out = lk.out_temps.map host.toReal) ∨
        (g2.neutdens_model = g.neutdens_msise90 ∧
          model_calls g2.calls = model_calls g.calls ++ [Call.gts6_] ∧
          (g2.dens_out, g2.temp_out) = host.gts6_ (gts_args (set_inputs host g))) ∨
        (g2.neutdens_model = g.neutdens_msis86 ∧
          model_calls g2.calls = model_calls g.calls ++ [Call.gts5_] ∧
          (g2.dens_out, g2.temp_out)
            = host.gts5_ g.data_path (gts_args (set_inputs host g)) g.data_path_len)) := by
  obtain ⟨g2, hstep, hpost⟩ := step_summary libc host g hok
  exact ⟨g2, hstep, hpost.2.2⟩

/-- C19 (witness): the step at 200 km with the table source enabled, the
preference flag set and the initial statics. -/
theorem C19_witness_overlap_step :
    store_ok (globals_fixture 200000 1 1 csv_path nrl_init).nrl ∧
    ∃ g2, compute_neutral_densities libc_one_row host_fixture
        (globals_fixture 200000 1 1 csv_path nrl_init) = some g2 ∧
      ((g2.neutdens_model = "NRLMSIS".toList ∧
          model_calls g2.calls = model_calls (globals_fixture 200000 1 1 csv_path nrl_init).calls ∧
          ∃ lk, query_table host_fixture (lazy_load libc_one_row
                (set_inputs host_fixture (globals_fixture 200000 1 1 csv_path nrl_init)))
              = some lk ∧
            lk.status ≠ 0 ∧
            g2.dens_out = lk.out_dens.map host_fixture.toReal ∧
            g2.temp_out = lk.out_temps.map host_fixture.toReal) ∨
        (g2.neutdens_model = (globals_fixture 200000 1 1 csv_path nrl_init).neutdens_msise90 ∧
          model_calls g2.calls
            = model_calls (globals_fixture 200000 1 1 csv_path nrl_init).calls ++ [Call.gts6_] ∧
          (g2.dens_out, g2.temp_out) = host_fixture.gts6_
            (gts_args (set_inputs host_fixture (globals_fixture 200000 1 1 csv_path nrl_init)))) ∨
        (g2.neutdens_model = (globals_fixture 200000 1 1 csv_path nrl_init).neutdens_msis86 ∧
          model_calls g2.calls
            = model_calls (globals_fixture 200000 1 1 csv_path nrl_init).calls ++ [Call.gts5_] ∧
          (g2.dens_out, g2.temp_out) = host_fixture.gts5_
            (globals_fixture 200000 1 1 csv_path nrl_init).data_path
            (gts_args (set_inputs host_fixture (globals_fixture 200000 1 1 csv_path nrl_init)))
            (globals_fixture 200000 1 1 csv_path nrl_init).data_path_len)) :=
  ⟨⟨rfl, fun h => absurd rfl h⟩,
   C19_outputs_come_from_exactly_one_source libc_one_row host_fixture
     (globals_fixture 200000 1 1 csv_path nrl_init) ⟨rfl, fun h => absurd rfl h⟩⟩

end Neutdens
